import Mathlib

/-!
aud2wav: ADPCM decoder, block geometry, pre-scan and remux loop

A shallow embedding of `aud2wav.c` (Westwood AUD to WAV converter).  C integers are
embedded as `Nat` / `Int`; where a C variable has a fixed width the wrap-around is
written out (`% 2^32` for `unsigned int`, `toChar` for the signed `char` index).
-/

namespace Aud2Wav

/-! ## ADPCM decoding -/

/-- The table `ADPCM_STEP_TABLE[89]` of `aud2wav.c`. -/
def ADPCM_STEP_TABLE : List Nat := [
  7,     8,     9,     10,    11,    12,     13,    14,    16,
  17,    19,    21,    23,    25,    28,     31,    34,    37,
  41,    45,    50,    55,    60,    66,     73,    80,    88,
  97,    107,   118,   130,   143,   157,    173,   190,   209,
  230,   253,   279,   307,   337,   371,    408,   449,   494,
  544,   598,   658,   724,   796,   876,    963,   1060,  1166,
  1282,  1411,  1552,  1707,  1878,  2066,   2272,  2499,  2749,
  3024,  3327,  3660,  4026,  4428,  4871,   5358,  5894,  6484,
  7132,  7845,  8630,  9493,  10442, 11487,  12635, 13899, 15289,
  16818, 18500, 20350, 22385, 24623, 27086,  29794, 32767]

/-- The table `ADPCM_INDEX_ADJUST[8]` of `aud2wav.c`. -/
def ADPCM_INDEX_ADJUST : List Int := [-1, -1, -1, -1, 2, 4, 6, 8]

/-- Modelled from the spec: `DiffTable[89 * 16]` lives in `DTABLE.CPP`, which `aud2wav.c`
includes but which is not among the sources.  The spec describes it as the precomputed
89 x 16 delta table of the reference decoder, with the sign baked in and numerically
identical to algorithm 1; the entries are the IMA ADPCM deltas, one row of 16 per step
index, one column per nibble, each written as the 32-bit two's complement word of the
`long` (4294967295 is -1). -/
def DiffTable : List Nat := [
  0, 1, 3, 4, 7, 8, 10, 11, 0, 4294967295, 4294967293, 4294967292, 4294967289, 4294967288, 4294967286, 4294967285,
  1, 3, 5, 7, 9, 11, 13, 15, 4294967295, 4294967293, 4294967291, 4294967289, 4294967287, 4294967285, 4294967283, 4294967281,
  1, 3, 5, 7, 10, 12, 14, 16, 4294967295, 4294967293, 4294967291, 4294967289, 4294967286, 4294967284, 4294967282, 4294967280,
  1, 3, 6, 8, 11, 13, 16, 18, 4294967295, 4294967293, 4294967290, 4294967288, 4294967285, 4294967283, 4294967280, 4294967278,
  1, 3, 6, 8, 12, 14, 17, 19, 4294967295, 4294967293, 4294967290, 4294967288, 4294967284, 4294967282, 4294967279, 4294967277,
  1, 4, 7, 10, 13, 16, 19, 22, 4294967295, 4294967292, 4294967289, 4294967286, 4294967283, 4294967280, 4294967277, 4294967274,
  1, 4, 7, 10, 14, 17, 20, 23, 4294967295, 4294967292, 4294967289, 4294967286, 4294967282, 4294967279, 4294967276, 4294967273,
  1, 4, 8, 11, 15, 18, 22, 25, 4294967295, 4294967292, 4294967288, 4294967285, 4294967281, 4294967278, 4294967274, 4294967271,
  2, 6, 10, 14, 18, 22, 26, 30, 4294967294, 4294967290, 4294967286, 4294967282, 4294967278, 4294967274, 4294967270, 4294967266,
  2, 6, 10, 14, 19, 23, 27, 31, 4294967294, 4294967290, 4294967286, 4294967282, 4294967277, 4294967273, 4294967269, 4294967265,
  2, 6, 11, 15, 21, 25, 30, 34, 4294967294, 4294967290, 4294967285, 4294967281, 4294967275, 4294967271, 4294967266, 4294967262,
  2, 7, 12, 17, 23, 28, 33, 38, 4294967294, 4294967289, 4294967284, 4294967279, 4294967273, 4294967268, 4294967263, 4294967258,
  2, 7, 13, 18, 25, 30, 36, 41, 4294967294, 4294967289, 4294967283, 4294967278, 4294967271, 4294967266, 4294967260, 4294967255,
  3, 9, 15, 21, 28, 34, 40, 46, 4294967293, 4294967287, 4294967281, 4294967275, 4294967268, 4294967262, 4294967256, 4294967250,
  3, 10, 17, 24, 31, 38, 45, 52, 4294967293, 4294967286, 4294967279, 4294967272, 4294967265, 4294967258, 4294967251, 4294967244,
  3, 10, 18, 25, 34, 41, 49, 56, 4294967293, 4294967286, 4294967278, 4294967271, 4294967262, 4294967255, 4294967247, 4294967240,
  4, 12, 21, 29, 38, 46, 55, 63, 4294967292, 4294967284, 4294967275, 4294967267, 4294967258, 4294967250, 4294967241, 4294967233,
  4, 13, 22, 31, 41, 50, 59, 68, 4294967292, 4294967283, 4294967274, 4294967265, 4294967255, 4294967246, 4294967237, 4294967228,
  5, 15, 25, 35, 46, 56, 66, 76, 4294967291, 4294967281, 4294967271, 4294967261, 4294967250, 4294967240, 4294967230, 4294967220,
  5, 16, 27, 38, 50, 61, 72, 83, 4294967291, 4294967280, 4294967269, 4294967258, 4294967246, 4294967235, 4294967224, 4294967213,
  6, 18, 31, 43, 56, 68, 81, 93, 4294967290, 4294967278, 4294967265, 4294967253, 4294967240, 4294967228, 4294967215, 4294967203,
  6, 19, 33, 46, 61, 74, 88, 101, 4294967290, 4294967277, 4294967263, 4294967250, 4294967235, 4294967222, 4294967208, 4294967195,
  7, 22, 37, 52, 67, 82, 97, 112, 4294967289, 4294967274, 4294967259, 4294967244, 4294967229, 4294967214, 4294967199, 4294967184,
  8, 24, 41, 57, 74, 90, 107, 123, 4294967288, 4294967272, 4294967255, 4294967239, 4294967222, 4294967206, 4294967189, 4294967173,
  9, 27, 45, 63, 82, 100, 118, 136, 4294967287, 4294967269, 4294967251, 4294967233, 4294967214, 4294967196, 4294967178, 4294967160,
  10, 30, 50, 70, 90, 110, 130, 150, 4294967286, 4294967266, 4294967246, 4294967226, 4294967206, 4294967186, 4294967166, 4294967146,
  11, 33, 55, 77, 99, 121, 143, 165, 4294967285, 4294967263, 4294967241, 4294967219, 4294967197, 4294967175, 4294967153, 4294967131,
  12, 36, 60, 84, 109, 133, 157, 181, 4294967284, 4294967260, 4294967236, 4294967212, 4294967187, 4294967163, 4294967139, 4294967115,
  13, 39, 66, 92, 120, 146, 173, 199, 4294967283, 4294967257, 4294967230, 4294967204, 4294967176, 4294967150, 4294967123, 4294967097,
  14, 43, 73, 102, 132, 161, 191, 220, 4294967282, 4294967253, 4294967223, 4294967194, 4294967164, 4294967135, 4294967105, 4294967076,
  16, 48, 81, 113, 146, 178, 211, 243, 4294967280, 4294967248, 4294967215, 4294967183, 4294967150, 4294967118, 4294967085, 4294967053,
  17, 52, 88, 123, 160, 195, 231, 266, 4294967279, 4294967244, 4294967208, 4294967173, 4294967136, 4294967101, 4294967065, 4294967030,
  19, 58, 97, 136, 176, 215, 254, 293, 4294967277, 4294967238, 4294967199, 4294967160, 4294967120, 4294967081, 4294967042, 4294967003,
  21, 64, 107, 150, 194, 237, 280, 323, 4294967275, 4294967232, 4294967189, 4294967146, 4294967102, 4294967059, 4294967016, 4294966973,
  23, 70, 118, 165, 213, 260, 308, 355, 4294967273, 4294967226, 4294967178, 4294967131, 4294967083, 4294967036, 4294966988, 4294966941,
  26, 78, 130, 182, 235, 287, 339, 391, 4294967270, 4294967218, 4294967166, 4294967114, 4294967061, 4294967009, 4294966957, 4294966905,
  28, 85, 143, 200, 258, 315, 373, 430, 4294967268, 4294967211, 4294967153, 4294967096, 4294967038, 4294966981, 4294966923, 4294966866,
  31, 94, 157, 220, 284, 347, 410, 473, 4294967265, 4294967202, 4294967139, 4294967076, 4294967012, 4294966949, 4294966886, 4294966823,
  34, 103, 173, 242, 313, 382, 452, 521, 4294967262, 4294967193, 4294967123, 4294967054, 4294966983, 4294966914, 4294966844, 4294966775,
  38, 114, 191, 267, 345, 421, 498, 574, 4294967258, 4294967182, 4294967105, 4294967029, 4294966951, 4294966875, 4294966798, 4294966722,
  42, 126, 210, 294, 379, 463, 547, 631, 4294967254, 4294967170, 4294967086, 4294967002, 4294966917, 4294966833, 4294966749, 4294966665,
  46, 138, 231, 323, 417, 509, 602, 694, 4294967250, 4294967158, 4294967065, 4294966973, 4294966879, 4294966787, 4294966694, 4294966602,
  51, 153, 255, 357, 459, 561, 663, 765, 4294967245, 4294967143, 4294967041, 4294966939, 4294966837, 4294966735, 4294966633, 4294966531,
  56, 168, 280, 392, 505, 617, 729, 841, 4294967240, 4294967128, 4294967016, 4294966904, 4294966791, 4294966679, 4294966567, 4294966455,
  61, 184, 308, 431, 555, 678, 802, 925, 4294967235, 4294967112, 4294966988, 4294966865, 4294966741, 4294966618, 4294966494, 4294966371,
  68, 204, 340, 476, 612, 748, 884, 1020, 4294967228, 4294967092, 4294966956, 4294966820, 4294966684, 4294966548, 4294966412, 4294966276,
  74, 223, 373, 522, 672, 821, 971, 1120, 4294967222, 4294967073, 4294966923, 4294966774, 4294966624, 4294966475, 4294966325, 4294966176,
  82, 246, 411, 575, 740, 904, 1069, 1233, 4294967214, 4294967050, 4294966885, 4294966721, 4294966556, 4294966392, 4294966227, 4294966063,
  90, 271, 452, 633, 814, 995, 1176, 1357, 4294967206, 4294967025, 4294966844, 4294966663, 4294966482, 4294966301, 4294966120, 4294965939,
  99, 298, 497, 696, 895, 1094, 1293, 1492, 4294967197, 4294966998, 4294966799, 4294966600, 4294966401, 4294966202, 4294966003, 4294965804,
  109, 328, 547, 766, 985, 1204, 1423, 1642, 4294967187, 4294966968, 4294966749, 4294966530, 4294966311, 4294966092, 4294965873, 4294965654,
  120, 360, 601, 841, 1083, 1323, 1564, 1804, 4294967176, 4294966936, 4294966695, 4294966455, 4294966213, 4294965973, 4294965732, 4294965492,
  132, 397, 662, 927, 1192, 1457, 1722, 1987, 4294967164, 4294966899, 4294966634, 4294966369, 4294966104, 4294965839, 4294965574, 4294965309,
  145, 436, 728, 1019, 1311, 1602, 1894, 2185, 4294967151, 4294966860, 4294966568, 4294966277, 4294965985, 4294965694, 4294965402, 4294965111,
  160, 480, 801, 1121, 1442, 1762, 2083, 2403, 4294967136, 4294966816, 4294966495, 4294966175, 4294965854, 4294965534, 4294965213, 4294964893,
  176, 528, 881, 1233, 1587, 1939, 2292, 2644, 4294967120, 4294966768, 4294966415, 4294966063, 4294965709, 4294965357, 4294965004, 4294964652,
  194, 582, 970, 1358, 1746, 2134, 2522, 2910, 4294967102, 4294966714, 4294966326, 4294965938, 4294965550, 4294965162, 4294964774, 4294964386,
  213, 639, 1066, 1492, 1920, 2346, 2773, 3199, 4294967083, 4294966657, 4294966230, 4294965804, 4294965376, 4294964950, 4294964523, 4294964097,
  234, 703, 1173, 1642, 2112, 2581, 3051, 3520, 4294967062, 4294966593, 4294966123, 4294965654, 4294965184, 4294964715, 4294964245, 4294963776,
  258, 774, 1291, 1807, 2324, 2840, 3357, 3873, 4294967038, 4294966522, 4294966005, 4294965489, 4294964972, 4294964456, 4294963939, 4294963423,
  284, 852, 1420, 1988, 2556, 3124, 3692, 4260, 4294967012, 4294966444, 4294965876, 4294965308, 4294964740, 4294964172, 4294963604, 4294963036,
  312, 936, 1561, 2185, 2811, 3435, 4060, 4684, 4294966984, 4294966360, 4294965735, 4294965111, 4294964485, 4294963861, 4294963236, 4294962612,
  343, 1030, 1717, 2404, 3092, 3779, 4466, 5153, 4294966953, 4294966266, 4294965579, 4294964892, 4294964204, 4294963517, 4294962830, 4294962143,
  378, 1134, 1890, 2646, 3402, 4158, 4914, 5670, 4294966918, 4294966162, 4294965406, 4294964650, 4294963894, 4294963138, 4294962382, 4294961626,
  415, 1246, 2078, 2909, 3742, 4573, 5405, 6236, 4294966881, 4294966050, 4294965218, 4294964387, 4294963554, 4294962723, 4294961891, 4294961060,
  457, 1372, 2287, 3202, 4117, 5032, 5947, 6862, 4294966839, 4294965924, 4294965009, 4294964094, 4294963179, 4294962264, 4294961349, 4294960434,
  503, 1509, 2516, 3522, 4529, 5535, 6542, 7548, 4294966793, 4294965787, 4294964780, 4294963774, 4294962767, 4294961761, 4294960754, 4294959748,
  553, 1660, 2767, 3874, 4981, 6088, 7195, 8302, 4294966743, 4294965636, 4294964529, 4294963422, 4294962315, 4294961208, 4294960101, 4294958994,
  608, 1825, 3043, 4260, 5479, 6696, 7914, 9131, 4294966688, 4294965471, 4294964253, 4294963036, 4294961817, 4294960600, 4294959382, 4294958165,
  669, 2008, 3348, 4687, 6027, 7366, 8706, 10045, 4294966627, 4294965288, 4294963948, 4294962609, 4294961269, 4294959930, 4294958590, 4294957251,
  736, 2209, 3683, 5156, 6630, 8103, 9577, 11050, 4294966560, 4294965087, 4294963613, 4294962140, 4294960666, 4294959193, 4294957719, 4294956246,
  810, 2431, 4052, 5673, 7294, 8915, 10536, 12157, 4294966486, 4294964865, 4294963244, 4294961623, 4294960002, 4294958381, 4294956760, 4294955139,
  891, 2674, 4457, 6240, 8023, 9806, 11589, 13372, 4294966405, 4294964622, 4294962839, 4294961056, 4294959273, 4294957490, 4294955707, 4294953924,
  980, 2941, 4902, 6863, 8825, 10786, 12747, 14708, 4294966316, 4294964355, 4294962394, 4294960433, 4294958471, 4294956510, 4294954549, 4294952588,
  1078, 3235, 5393, 7550, 9708, 11865, 14023, 16180, 4294966218, 4294964061, 4294961903, 4294959746, 4294957588, 4294955431, 4294953273, 4294951116,
  1186, 3559, 5932, 8305, 10679, 13052, 15425, 17798, 4294966110, 4294963737, 4294961364, 4294958991, 4294956617, 4294954244, 4294951871, 4294949498,
  1305, 3915, 6526, 9136, 11747, 14357, 16968, 19578, 4294965991, 4294963381, 4294960770, 4294958160, 4294955549, 4294952939, 4294950328, 4294947718,
  1435, 4306, 7178, 10049, 12922, 15793, 18665, 21536, 4294965861, 4294962990, 4294960118, 4294957247, 4294954374, 4294951503, 4294948631, 4294945760,
  1579, 4737, 7896, 11054, 14214, 17372, 20531, 23689, 4294965717, 4294962559, 4294959400, 4294956242, 4294953082, 4294949924, 4294946765, 4294943607,
  1737, 5211, 8686, 12160, 15636, 19110, 22585, 26059, 4294965559, 4294962085, 4294958610, 4294955136, 4294951660, 4294948186, 4294944711, 4294941237,
  1911, 5733, 9555, 13377, 17200, 21022, 24844, 28666, 4294965385, 4294961563, 4294957741, 4294953919, 4294950096, 4294946274, 4294942452, 4294938630,
  2102, 6306, 10511, 14715, 18920, 23124, 27329, 31533, 4294965194, 4294960990, 4294956785, 4294952581, 4294948376, 4294944172, 4294939967, 4294935763,
  2312, 6937, 11562, 16187, 20812, 25437, 30062, 34687, 4294964984, 4294960359, 4294955734, 4294951109, 4294946484, 4294941859, 4294937234, 4294932609,
  2543, 7630, 12718, 17805, 22893, 27980, 33068, 38155, 4294964753, 4294959666, 4294954578, 4294949491, 4294944403, 4294939316, 4294934228, 4294929141,
  2798, 8394, 13990, 19586, 25183, 30779, 36375, 41971, 4294964498, 4294958902, 4294953306, 4294947710, 4294942113, 4294936517, 4294930921, 4294925325,
  3077, 9232, 15388, 21543, 27700, 33855, 40011, 46166, 4294964219, 4294958064, 4294951908, 4294945753, 4294939596, 4294933441, 4294927285, 4294921130,
  3385, 10156, 16928, 23699, 30471, 37242, 44014, 50785, 4294963911, 4294957140, 4294950368, 4294943597, 4294936825, 4294930054, 4294923282, 4294916511,
  3724, 11172, 18621, 26069, 33518, 40966, 48415, 55863, 4294963572, 4294956124, 4294948675, 4294941227, 4294933778, 4294926330, 4294918881, 4294911433,
  4095, 12286, 20478, 28669, 36862, 45053, 53245, 61436, 4294963201, 4294955010, 4294946818, 4294938627, 4294930434, 4294922243, 4294914051, 4294905860]

/-- Modelled from the spec: `IndexTable[89 * 16]` lives in `ITABLE.CPP`, which `aud2wav.c`
includes but which is not among the sources.  The spec describes it as the precomputed
89 x 16 next-index table parallel to `DiffTable`; `aud2wav.c` shifts an entry right by
4 to obtain the next step index, so every entry is the next index shifted left by 4. -/
def IndexTable : List Nat := [
  0, 0, 0, 0, 32, 64, 96, 128, 0, 0, 0, 0, 32, 64, 96, 128,
  0, 0, 0, 0, 48, 80, 112, 144, 0, 0, 0, 0, 48, 80, 112, 144,
  16, 16, 16, 16, 64, 96, 128, 160, 16, 16, 16, 16, 64, 96, 128, 160,
  32, 32, 32, 32, 80, 112, 144, 176, 32, 32, 32, 32, 80, 112, 144, 176,
  48, 48, 48, 48, 96, 128, 160, 192, 48, 48, 48, 48, 96, 128, 160, 192,
  64, 64, 64, 64, 112, 144, 176, 208, 64, 64, 64, 64, 112, 144, 176, 208,
  80, 80, 80, 80, 128, 160, 192, 224, 80, 80, 80, 80, 128, 160, 192, 224,
  96, 96, 96, 96, 144, 176, 208, 240, 96, 96, 96, 96, 144, 176, 208, 240,
  112, 112, 112, 112, 160, 192, 224, 256, 112, 112, 112, 112, 160, 192, 224, 256,
  128, 128, 128, 128, 176, 208, 240, 272, 128, 128, 128, 128, 176, 208, 240, 272,
  144, 144, 144, 144, 192, 224, 256, 288, 144, 144, 144, 144, 192, 224, 256, 288,
  160, 160, 160, 160, 208, 240, 272, 304, 160, 160, 160, 160, 208, 240, 272, 304,
  176, 176, 176, 176, 224, 256, 288, 320, 176, 176, 176, 176, 224, 256, 288, 320,
  192, 192, 192, 192, 240, 272, 304, 336, 192, 192, 192, 192, 240, 272, 304, 336,
  208, 208, 208, 208, 256, 288, 320, 352, 208, 208, 208, 208, 256, 288, 320, 352,
  224, 224, 224, 224, 272, 304, 336, 368, 224, 224, 224, 224, 272, 304, 336, 368,
  240, 240, 240, 240, 288, 320, 352, 384, 240, 240, 240, 240, 288, 320, 352, 384,
  256, 256, 256, 256, 304, 336, 368, 400, 256, 256, 256, 256, 304, 336, 368, 400,
  272, 272, 272, 272, 320, 352, 384, 416, 272, 272, 272, 272, 320, 352, 384, 416,
  288, 288, 288, 288, 336, 368, 400, 432, 288, 288, 288, 288, 336, 368, 400, 432,
  304, 304, 304, 304, 352, 384, 416, 448, 304, 304, 304, 304, 352, 384, 416, 448,
  320, 320, 320, 320, 368, 400, 432, 464, 320, 320, 320, 320, 368, 400, 432, 464,
  336, 336, 336, 336, 384, 416, 448, 480, 336, 336, 336, 336, 384, 416, 448, 480,
  352, 352, 352, 352, 400, 432, 464, 496, 352, 352, 352, 352, 400, 432, 464, 496,
  368, 368, 368, 368, 416, 448, 480, 512, 368, 368, 368, 368, 416, 448, 480, 512,
  384, 384, 384, 384, 432, 464, 496, 528, 384, 384, 384, 384, 432, 464, 496, 528,
  400, 400, 400, 400, 448, 480, 512, 544, 400, 400, 400, 400, 448, 480, 512, 544,
  416, 416, 416, 416, 464, 496, 528, 560, 416, 416, 416, 416, 464, 496, 528, 560,
  432, 432, 432, 432, 480, 512, 544, 576, 432, 432, 432, 432, 480, 512, 544, 576,
  448, 448, 448, 448, 496, 528, 560, 592, 448, 448, 448, 448, 496, 528, 560, 592,
  464, 464, 464, 464, 512, 544, 576, 608, 464, 464, 464, 464, 512, 544, 576, 608,
  480, 480, 480, 480, 528, 560, 592, 624, 480, 480, 480, 480, 528, 560, 592, 624,
  496, 496, 496, 496, 544, 576, 608, 640, 496, 496, 496, 496, 544, 576, 608, 640,
  512, 512, 512, 512, 560, 592, 624, 656, 512, 512, 512, 512, 560, 592, 624, 656,
  528, 528, 528, 528, 576, 608, 640, 672, 528, 528, 528, 528, 576, 608, 640, 672,
  544, 544, 544, 544, 592, 624, 656, 688, 544, 544, 544, 544, 592, 624, 656, 688,
  560, 560, 560, 560, 608, 640, 672, 704, 560, 560, 560, 560, 608, 640, 672, 704,
  576, 576, 576, 576, 624, 656, 688, 720, 576, 576, 576, 576, 624, 656, 688, 720,
  592, 592, 592, 592, 640, 672, 704, 736, 592, 592, 592, 592, 640, 672, 704, 736,
  608, 608, 608, 608, 656, 688, 720, 752, 608, 608, 608, 608, 656, 688, 720, 752,
  624, 624, 624, 624, 672, 704, 736, 768, 624, 624, 624, 624, 672, 704, 736, 768,
  640, 640, 640, 640, 688, 720, 752, 784, 640, 640, 640, 640, 688, 720, 752, 784,
  656, 656, 656, 656, 704, 736, 768, 800, 656, 656, 656, 656, 704, 736, 768, 800,
  672, 672, 672, 672, 720, 752, 784, 816, 672, 672, 672, 672, 720, 752, 784, 816,
  688, 688, 688, 688, 736, 768, 800, 832, 688, 688, 688, 688, 736, 768, 800, 832,
  704, 704, 704, 704, 752, 784, 816, 848, 704, 704, 704, 704, 752, 784, 816, 848,
  720, 720, 720, 720, 768, 800, 832, 864, 720, 720, 720, 720, 768, 800, 832, 864,
  736, 736, 736, 736, 784, 816, 848, 880, 736, 736, 736, 736, 784, 816, 848, 880,
  752, 752, 752, 752, 800, 832, 864, 896, 752, 752, 752, 752, 800, 832, 864, 896,
  768, 768, 768, 768, 816, 848, 880, 912, 768, 768, 768, 768, 816, 848, 880, 912,
  784, 784, 784, 784, 832, 864, 896, 928, 784, 784, 784, 784, 832, 864, 896, 928,
  800, 800, 800, 800, 848, 880, 912, 944, 800, 800, 800, 800, 848, 880, 912, 944,
  816, 816, 816, 816, 864, 896, 928, 960, 816, 816, 816, 816, 864, 896, 928, 960,
  832, 832, 832, 832, 880, 912, 944, 976, 832, 832, 832, 832, 880, 912, 944, 976,
  848, 848, 848, 848, 896, 928, 960, 992, 848, 848, 848, 848, 896, 928, 960, 992,
  864, 864, 864, 864, 912, 944, 976, 1008, 864, 864, 864, 864, 912, 944, 976, 1008,
  880, 880, 880, 880, 928, 960, 992, 1024, 880, 880, 880, 880, 928, 960, 992, 1024,
  896, 896, 896, 896, 944, 976, 1008, 1040, 896, 896, 896, 896, 944, 976, 1008, 1040,
  912, 912, 912, 912, 960, 992, 1024, 1056, 912, 912, 912, 912, 960, 992, 1024, 1056,
  928, 928, 928, 928, 976, 1008, 1040, 1072, 928, 928, 928, 928, 976, 1008, 1040, 1072,
  944, 944, 944, 944, 992, 1024, 1056, 1088, 944, 944, 944, 944, 992, 1024, 1056, 1088,
  960, 960, 960, 960, 1008, 1040, 1072, 1104, 960, 960, 960, 960, 1008, 1040, 1072, 1104,
  976, 976, 976, 976, 1024, 1056, 1088, 1120, 976, 976, 976, 976, 1024, 1056, 1088, 1120,
  992, 992, 992, 992, 1040, 1072, 1104, 1136, 992, 992, 992, 992, 1040, 1072, 1104, 1136,
  1008, 1008, 1008, 1008, 1056, 1088, 1120, 1152, 1008, 1008, 1008, 1008, 1056, 1088, 1120, 1152,
  1024, 1024, 1024, 1024, 1072, 1104, 1136, 1168, 1024, 1024, 1024, 1024, 1072, 1104, 1136, 1168,
  1040, 1040, 1040, 1040, 1088, 1120, 1152, 1184, 1040, 1040, 1040, 1040, 1088, 1120, 1152, 1184,
  1056, 1056, 1056, 1056, 1104, 1136, 1168, 1200, 1056, 1056, 1056, 1056, 1104, 1136, 1168, 1200,
  1072, 1072, 1072, 1072, 1120, 1152, 1184, 1216, 1072, 1072, 1072, 1072, 1120, 1152, 1184, 1216,
  1088, 1088, 1088, 1088, 1136, 1168, 1200, 1232, 1088, 1088, 1088, 1088, 1136, 1168, 1200, 1232,
  1104, 1104, 1104, 1104, 1152, 1184, 1216, 1248, 1104, 1104, 1104, 1104, 1152, 1184, 1216, 1248,
  1120, 1120, 1120, 1120, 1168, 1200, 1232, 1264, 1120, 1120, 1120, 1120, 1168, 1200, 1232, 1264,
  1136, 1136, 1136, 1136, 1184, 1216, 1248, 1280, 1136, 1136, 1136, 1136, 1184, 1216, 1248, 1280,
  1152, 1152, 1152, 1152, 1200, 1232, 1264, 1296, 1152, 1152, 1152, 1152, 1200, 1232, 1264, 1296,
  1168, 1168, 1168, 1168, 1216, 1248, 1280, 1312, 1168, 1168, 1168, 1168, 1216, 1248, 1280, 1312,
  1184, 1184, 1184, 1184, 1232, 1264, 1296, 1328, 1184, 1184, 1184, 1184, 1232, 1264, 1296, 1328,
  1200, 1200, 1200, 1200, 1248, 1280, 1312, 1344, 1200, 1200, 1200, 1200, 1248, 1280, 1312, 1344,
  1216, 1216, 1216, 1216, 1264, 1296, 1328, 1360, 1216, 1216, 1216, 1216, 1264, 1296, 1328, 1360,
  1232, 1232, 1232, 1232, 1280, 1312, 1344, 1376, 1232, 1232, 1232, 1232, 1280, 1312, 1344, 1376,
  1248, 1248, 1248, 1248, 1296, 1328, 1360, 1392, 1248, 1248, 1248, 1248, 1296, 1328, 1360, 1392,
  1264, 1264, 1264, 1264, 1312, 1344, 1376, 1408, 1264, 1264, 1264, 1264, 1312, 1344, 1376, 1408,
  1280, 1280, 1280, 1280, 1328, 1360, 1392, 1408, 1280, 1280, 1280, 1280, 1328, 1360, 1392, 1408,
  1296, 1296, 1296, 1296, 1344, 1376, 1408, 1408, 1296, 1296, 1296, 1296, 1344, 1376, 1408, 1408,
  1312, 1312, 1312, 1312, 1360, 1392, 1408, 1408, 1312, 1312, 1312, 1312, 1360, 1392, 1408, 1408,
  1328, 1328, 1328, 1328, 1376, 1408, 1408, 1408, 1328, 1328, 1328, 1328, 1376, 1408, 1408, 1408,
  1344, 1344, 1344, 1344, 1392, 1408, 1408, 1408, 1344, 1344, 1344, 1344, 1392, 1408, 1408, 1408,
  1360, 1360, 1360, 1360, 1408, 1408, 1408, 1408, 1360, 1360, 1360, 1360, 1408, 1408, 1408, 1408,
  1376, 1376, 1376, 1376, 1408, 1408, 1408, 1408, 1376, 1376, 1376, 1376, 1408, 1408, 1408, 1408,
  1392, 1392, 1392, 1392, 1408, 1408, 1408, 1408, 1392, 1392, 1392, 1392, 1408, 1408, 1408, 1408]

/-- The decoder state: the `char adpcm_index` and `long adpcm_sample` of `main`. -/
structure DecoderState where
  index : Int
  sample : Int
deriving DecidableEq, Repr

/-- The signed value of a 32-bit word (an entry of `DiffTable` read into `int diff`). -/
def toInt32 (w : Nat) : Int := if w < 2147483648 then (w : Int) else (w : Int) - 4294967296

/-- Conversion of an `int` value to the (signed, 8-bit) `char` that stores the index. -/
def toChar (x : Int) : Int := (x + 128) % 256 - 128

/-- The delta magnitude of algorithms 1, 2 and 3 (`switch (use_algorithm)`), before the
sign is applied. -/
def deltaMagnitude (use_algorithm : Nat) (delta step : Nat) : Nat :=
  match use_algorithm with
  | 2 => ((delta * step) >>> 2) + (step >>> 3)
  | 3 => ((delta * 2 + 1) * step) >>> 3
  | _ =>
    let diff := 0
    let diff := if delta &&& 4 ≠ 0 then diff + step else diff
    let step := step >>> 1
    let diff := if delta &&& 2 ≠ 0 then diff + step else diff
    let step := step >>> 1
    let diff := if delta &&& 1 ≠ 0 then diff + step else diff
    let step := step >>> 1
    diff + step

/-- The branch `use_algorithm == 0` of `ADPCM_decode_sample`: the pair (`diff`, new
`*index`) read from `DiffTable` and `IndexTable` at `fastindex`. -/
def tableStep (index : Int) (nibble : Nat) : Int × Int :=
  -- (*index << 4) + nibble
  let fastindex : Int := index * 16 + nibble
  (toInt32 (DiffTable.getD fastindex.toNat 0),
   toChar ((IndexTable.getD fastindex.toNat 0 >>> 4 : Nat) : Int))

/-- The branch of `ADPCM_decode_sample` common to algorithms 1, 2 and 3: the pair
(`diff`, new `*index`). -/
def formulaStep (use_algorithm : Nat) (index : Int) (nibble : Nat) : Int × Int :=
  let sign := nibble &&& 8
  let delta := nibble &&& 7
  let step := ADPCM_STEP_TABLE.getD index.toNat 0
  let diff : Int := deltaMagnitude use_algorithm delta step
  let diff := if sign ≠ 0 then -diff else diff
  let index := toChar (index + ADPCM_INDEX_ADJUST.getD delta 0)
  let index := if index < 0 then 0 else index
  let index := if index > 88 then 88 else index
  (diff, index)

/-- The function `ADPCM_decode_sample(char *index, long *sample, unsigned char nibble)`,
with the global `use_algorithm` as an argument and the two updated cells returned. -/
def ADPCM_decode_sample (use_algorithm : Nat) (st : DecoderState) (nibble : Nat) :
    DecoderState :=
  let r : Int × Int :=
    if use_algorithm = 0 then tableStep st.index nibble
    else formulaStep use_algorithm st.index nibble
  let sample := st.sample + r.1
  let sample := if sample > 32767 then 32767 else sample
  let sample := if sample < -32768 then -32768 else sample
  { index := r.2, sample := sample }


/-- Samples of a nibble sequence decoded in order: after each call of
`ADPCM_decode_sample` the updated `adpcm_sample` is emitted. -/
def decodeSeq (use_algorithm : Nat) : DecoderState → List Nat → List Int
  | _, [] => []
  | st, n :: rest =>
    let st1 := ADPCM_decode_sample use_algorithm st n
    st1.sample :: decodeSeq use_algorithm st1 rest

/-- The decoder state after a nibble sequence. -/
def decodeState (use_algorithm : Nat) (st : DecoderState) (nibbles : List Nat) : DecoderState :=
  nibbles.foldl (ADPCM_decode_sample use_algorithm) st

/-- The state invariant of the spec: index in [0,88], sample in [-32768,32767]. -/
def DecoderState.Valid (st : DecoderState) : Prop :=
  0 ≤ st.index ∧ st.index ≤ 88 ∧ -32768 ≤ st.sample ∧ st.sample ≤ 32767

/-! ## Block geometry (`switch (blocksize)` in `main`) -/

/-- The modulus of `unsigned int` arithmetic. -/
def U32 : Nat := 4294967296

/-- The value of `INT_MAX` for a 32-bit `int`. -/
def INT_MAX : Nat := 2147483647

/-- The variables `wav_blocksize`, `wav_blocks`, `wav_datalen` of `main`. -/
structure Geometry where
  wav_blocksize : Nat
  wav_blocks : Nat
  wav_datalen : Nat
deriving DecidableEq, Repr

/-- The body of the two brute-force loops (cases -1 and -2), for one value of `i`. -/
def searchStep (num_samples : Nat) (g : Geometry) (i : Nat) : Geometry :=
  let test_samples_per_block := ((i - 4) * 2 + 1) % U32
  let test_blocks := num_samples / test_samples_per_block
  let test_blocks :=
    if num_samples % test_samples_per_block ≠ 0 then (test_blocks + 1) % U32 else test_blocks
  let test_datalen := (i * test_blocks) % U32
  if test_datalen < g.wav_datalen then
    { wav_blocksize := (i - 4) % U32, wav_blocks := test_blocks, wav_datalen := test_datalen }
  else g

/-- The values of `i` in `for (i = 8; i <= 2760; i += 4)`. -/
def candidatesACM : List Nat := (List.range 689).map (fun k => 8 + 4 * k)

/-- The values of `i` in `for (i = 4; i <= 32771; i++)`. -/
def candidatesAll : List Nat := (List.range 32768).map (fun k => 4 + k)

/-- The `default:` case of `switch (blocksize)`: a user-specified block size. -/
def fixedGeometry (blocksize : Int) (num_samples : Nat) : Geometry :=
  let wav_blocksize := ((blocksize - 4) % (U32 : Int)).toNat
  let test_samples_per_block := (wav_blocksize * 2 + 1) % U32
  let wav_blocks := num_samples / test_samples_per_block
  let wav_blocks :=
    if num_samples % test_samples_per_block ≠ 0 then (wav_blocks + 1) % U32 else wav_blocks
  { wav_blocksize := wav_blocksize
    wav_blocks := wav_blocks
    wav_datalen := ((blocksize % (U32 : Int)).toNat * wav_blocks) % U32 }

/-- The whole `switch (blocksize)`, after `wav_datalen = INT_MAX`.  `wav_blocksize` and
`wav_blocks` are not initialised in `main`; `u_blocksize` and `u_blocks` are the values
they happen to hold. -/
def chooseGeometry (blocksize : Int) (num_samples : Nat) (u_blocksize u_blocks : Nat) :
    Geometry :=
  let g0 : Geometry :=
    { wav_blocksize := u_blocksize, wav_blocks := u_blocks, wav_datalen := INT_MAX }
  if blocksize = -1 then candidatesACM.foldl (searchStep num_samples) g0
  else if blocksize = -2 then candidatesAll.foldl (searchStep num_samples) g0
  else fixedGeometry blocksize num_samples

/-- The block count of the spec, `ceil(n / (2p+1))`, over unbounded naturals. -/
def blocksFor (n p : Nat) : Nat := (n + 2 * p) / (2 * p + 1)

/-- The data length of the spec, `blocks(p) * (p+4)`, over unbounded naturals. -/
def dataBytesFor (n p : Nat) : Nat := blocksFor n p * (p + 4)

/-! ## The AUD container -/

/-- A little-endian 16-bit field made of two bytes. -/
def u16 (lo hi : Nat) : Nat := lo + 256 * hi

/-- The struct `AUD_BLOCK_HEADER`. -/
structure BlockHeader where
  encsize : Nat
  decsize : Nat
  deaf : Nat
  zero : Nat
deriving DecidableEq, Repr

/-- The struct `AUD_BLOCK_HEADER` as filled by `fread` from 8 bytes.  (A byte that a
short read does not deliver is taken as 0.) -/
def parseBlockHeader (b : List Nat) : BlockHeader :=
  { encsize := u16 (b.getD 0 0) (b.getD 1 0)
    decsize := u16 (b.getD 2 0) (b.getD 3 0)
    deaf := u16 (b.getD 4 0) (b.getD 5 0)
    zero := u16 (b.getD 6 0) (b.getD 7 0) }

/-- The two AUD header variants. -/
inductive AudFormat
  | New
  | Old
deriving DecidableEq, Repr

/-- The test `(AUD_BLOCK_HEADER.deaf == 0xDEAF) && (AUD_BLOCK_HEADER.zero == 0)`. -/
def markersOk (h : BlockHeader) : Bool := h.deaf == 0xDEAF && h.zero == 0

/-- Format probing: a block header is read at offset 12 (`sizeof(AUD_HEADER_NEW)`), then
at offset 8 (`sizeof(AUD_HEADER_OLD)`); `none` is "unknown AUD format". -/
def detectFormat (file : List Nat) : Option AudFormat :=
  if markersOk (parseBlockHeader ((file.drop 12).take 8)) then some AudFormat.New
  else if markersOk (parseBlockHeader ((file.drop 8).take 8)) then some AudFormat.Old
  else none

/-- The fields of the pseudo header `AUD_HEADER` that are set from the file header. -/
structure AudHeader where
  samplerate : Nat
  encsize : Nat
  decsize : Nat
  flags : Nat
  codec : Nat
  first_block_offset : Nat
deriving DecidableEq, Repr

/-- Filling `AUD_HEADER` from `AUD_HEADER_NEW` or `AUD_HEADER_OLD`. -/
def readHeader (fmt : AudFormat) (file : List Nat) : AudHeader :=
  match fmt with
  | AudFormat.New =>
    { samplerate := u16 (file.getD 0 0) (file.getD 1 0)
      encsize := u16 (file.getD 2 0) (file.getD 3 0) + (u16 (file.getD 4 0) (file.getD 5 0) <<< 16)
      decsize := u16 (file.getD 6 0) (file.getD 7 0) + (u16 (file.getD 8 0) (file.getD 9 0) <<< 16)
      flags := file.getD 10 0
      codec := file.getD 11 0
      first_block_offset := 12 }
  | AudFormat.Old =>
    { samplerate := u16 (file.getD 0 0) (file.getD 1 0)
      encsize := u16 (file.getD 2 0) (file.getD 3 0) + (u16 (file.getD 4 0) (file.getD 5 0) <<< 16)
      decsize := 0
      flags := file.getD 6 0
      codec := file.getD 7 0
      first_block_offset := 8 }

/-- The negation of `((AUD_HEADER.flags & 3) != 2) || (AUD_HEADER.codec != 99)`. -/
def supported (h : AudHeader) : Bool := !((h.flags &&& 3) != 2 || h.codec != 99)

/-- The three `fprintf(stderr, "... error while analyzing file ...")` of the scan loop. -/
inductive ScanDiag
  | shortHeader (reat : Nat)
  | invalidHeader
  | shortPayload (reat : Nat) (encsize : Nat)
deriving DecidableEq, Repr

/-- The counters of `AUD_HEADER` that the first read-through sets, and the diagnostic
printed when the loop was left on an error. -/
structure ScanState where
  blocks : Nat
  adpcm_bytes : Nat
  first_block_size : Nat
  diag : Option ScanDiag
deriving DecidableEq, Repr

/-- The loop `while (1) { ... }` of the first read-through over the bytes that follow the
file header.  Every iteration that does not leave the loop consumes at least 8 bytes, so
`fuel` larger than the number of bytes left is never used up; `none` is "out of fuel". -/
def scanLoop : Nat → List Nat → ScanState → Option ScanState
  | 0, _, _ => none
  | fuel + 1, rest, s =>
    let hdr := rest.take 8
    let reat := hdr.length
    if reat = 0 then some s
    else if reat ≠ 8 then some { s with diag := some (ScanDiag.shortHeader reat) }
    else
      let h := parseBlockHeader hdr
      if h.deaf ≠ 0xDEAF ∨ h.zero ≠ 0 then some { s with diag := some ScanDiag.invalidHeader }
      else
        let in_buffer := (rest.drop 8).take h.encsize
        let reat := in_buffer.length
        if reat ≠ h.encsize then
          some { s with diag := some (ScanDiag.shortPayload reat h.encsize) }
        else
          scanLoop fuel ((rest.drop 8).drop h.encsize)
            { blocks := (s.blocks + 1) % U32
              adpcm_bytes := (s.adpcm_bytes + h.encsize) % U32
              first_block_size := if s.blocks = 0 then h.encsize else s.first_block_size
              diag := s.diag }

/-- The first read-through of the block stream `stream` (the file from
`first_block_offset` on).  `first_block_size0` is what `AUD_HEADER.first_block_size`
held before. -/
def scan (stream : List Nat) (first_block_size0 : Nat) : Option ScanState :=
  scanLoop (stream.length + 1) stream
    { blocks := 0, adpcm_bytes := 0, first_block_size := first_block_size0, diag := none }

/-- The assignment `AUD_HEADER.num_samples = AUD_HEADER.adpcm_bytes * 2`. -/
def ScanState.num_samples (s : ScanState) : Nat := (s.adpcm_bytes * 2) % U32

/-- The 8 bytes of a block header with valid markers. -/
def blockHeaderOf (encsize decsize : Nat) : List Nat :=
  [encsize % 256, encsize / 256 % 256, decsize % 256, decsize / 256 % 256, 0xAF, 0xDE, 0, 0]

/-- A well-formed block stream: for every block (its `dec_size` and payload) the 8-byte
header with `enc_size` the payload length, then the payload. -/
def serializeBlocks : List (Nat × List Nat) → List Nat
  | [] => []
  | (decsize, payload) :: rest =>
    blockHeaderOf payload.length decsize ++ payload ++ serializeBlocks rest

/-- The reads of the second pass, `for (b = 0; b < AUD_HEADER.blocks; b++)`: the contents
of `in_buffer` for each of the first `blocks` blocks of the stream. -/
def readBlocks : Nat → List Nat → List (List Nat)
  | 0, _ => []
  | b + 1, rest =>
    let h := parseBlockHeader (rest.take 8)
    (rest.drop 8).take h.encsize :: readBlocks b ((rest.drop 8).drop h.encsize)

/-! ## Mode 1: decoding to PCM -/

/-- Conversion of a `long` to the `short` stored in `out_pcm` and `WAV_BLOCK_HEADER`. -/
def toShort (x : Int) : Int := (x + 32768) % 65536 - 32768

/-- The loop `for (i = 0; i < AUD_BLOCK_HEADER.encsize; i++)` of the PCM decode pass:
each byte gives two samples, least significant nibble first.  Returns the decoder state
after the block and the samples stored in `out_pcm`. -/
def pcmBytes (use_algorithm : Nat) : DecoderState → List Nat → DecoderState × List Int
  | st, [] => (st, [])
  | st, b :: rest =>
    let s1 := ADPCM_decode_sample use_algorithm st (b &&& 0xF)
    let s2 := ADPCM_decode_sample use_algorithm s1 ((b >>> 4) &&& 0xF)
    let r := pcmBytes use_algorithm s2 rest
    (r.1, toShort s1.sample :: toShort s2.sample :: r.2)

/-- The loop `for (b = 0; b < AUD_HEADER.blocks; b++)` of the PCM decode pass over the
blocks read: the samples written to the PCM file, the decoder state carried along. -/
def pcmBlocks (use_algorithm : Nat) : DecoderState → List (List Nat) → List Int
  | _, [] => []
  | st, in_buffer :: rest =>
    let r := pcmBytes use_algorithm st in_buffer
    r.2 ++ pcmBlocks use_algorithm r.1 rest

/-- The PCM decode pass: decoder initialised to index 0, sample 0. -/
def pcmDecode (use_algorithm : Nat) (blocks : List (List Nat)) : List Int :=
  pcmBlocks use_algorithm { index := 0, sample := 0 } blocks

/-! ## Mode 2: remuxing to IMA ADPCM blocks -/

/-- The value of `o` that `o = -1` stores in an `unsigned int`. -/
def NEG1 : Nat := 4294967295

/-- The variables of the remux loop: decoder state, `o`, `out_odd`, `out_buffer`, and
the bytes written to the WAV file after its header. -/
structure RemuxState where
  adpcm : DecoderState
  o : Nat
  out_odd : Nat
  out_buffer : Nat → Nat
  wav : List Nat

/-- The 4 bytes of `WAV_BLOCK_HEADER` (`short sample`, `unsigned char index`,
`unsigned char zero`), little-endian. -/
def blockHeaderBytes (st : DecoderState) : List Nat :=
  let sample := (st.sample % 65536).toNat
  let index := (st.index % 256).toNat
  [sample % 256, sample / 256, index, 0]

/-- The store `out_buffer[o] = v`. -/
def setByte (buf : Nat → Nat) (o v : Nat) : Nat → Nat :=
  fun k => if k = o then v % 256 else buf k

/-- The call `memset(&out_buffer[o], 0, len)`. -/
def memsetZero (buf : Nat → Nat) (o len : Nat) : Nat → Nat :=
  fun k => if o ≤ k ∧ k < o + len then 0 else buf k

/-- The call `fwrite(out_buffer, 1, wav_blocksize, wav)`: the bytes written. -/
def bufferBytes (buf : Nat → Nat) (wav_blocksize : Nat) : List Nat :=
  (List.range wav_blocksize).map buf

/-- The body of the loop "for each nibble in AUD block", every `fwrite` succeeding. -/
def remuxNibble (wav_blocksize : Nat) (s : RemuxState) (nibble : Nat) : RemuxState :=
  let adpcm := ADPCM_decode_sample 0 s.adpcm nibble
  if s.o = NEG1 then
    { adpcm := adpcm, o := 0, out_odd := 0, out_buffer := s.out_buffer
      wav := s.wav ++ blockHeaderBytes adpcm }
  else
    let buf :=
      if s.out_odd = 0 then setByte s.out_buffer s.o nibble
      else setByte s.out_buffer s.o (s.out_buffer s.o + (nibble <<< 4))
    let o := if s.out_odd = 0 then s.o else (s.o + 1) % U32
    let out_odd := if s.out_odd = 0 then 1 else 0
    if o = wav_blocksize then
      { adpcm := adpcm, o := NEG1, out_odd := out_odd
        out_buffer := memsetZero buf 0 wav_blocksize
        wav := s.wav ++ bufferBytes buf wav_blocksize }
    else
      { adpcm := adpcm, o := o, out_odd := out_odd, out_buffer := buf, wav := s.wav }

/-- The nibbles visited by `for (i = 0, in_odd = 0; i < encsize; (in_odd = !in_odd) ? i : i++)`:
`in_buffer[i] & 0xF`, then `in_buffer[i] >> 4`. -/
def blockNibbles : List Nat → List Nat
  | [] => []
  | b :: rest => (b &&& 0xF) :: (b >>> 4) :: blockNibbles rest

/-- The loop "through each AUD block" of the remux pass. -/
def remuxLoop (wav_blocksize : Nat) (s : RemuxState) (blocks : List (List Nat)) : RemuxState :=
  blocks.foldl (fun s in_buffer => (blockNibbles in_buffer).foldl (remuxNibble wav_blocksize) s) s

/-- The step "write the last incomplete WAV block": the bytes of the file at the end. -/
def remuxFinish (wav_blocksize : Nat) (s : RemuxState) : List Nat :=
  if s.o ≠ NEG1 then
    let o := if s.out_odd ≠ 0 then (s.o + 1) % U32 else s.o
    let buf := memsetZero s.out_buffer o (wav_blocksize - o)
    s.wav ++ bufferBytes buf wav_blocksize
  else s.wav

/-- The remux pass: the bytes written after the WAV header.  `out_buffer0` and `out_odd0`
are the contents of the uninitialised `out_buffer` and `out_odd`. -/
def remux (wav_blocksize : Nat) (out_buffer0 : Nat → Nat) (out_odd0 : Nat)
    (blocks : List (List Nat)) : List Nat :=
  remuxFinish wav_blocksize
    (remuxLoop wav_blocksize
      { adpcm := { index := 0, sample := 0 }, o := NEG1, out_odd := out_odd0
        out_buffer := out_buffer0, wav := [] } blocks)

/-- The nibble stream of the source: all bytes of all blocks, low nibble first. -/
def sourceNibbles (blocks : List (List Nat)) : List Nat := blockNibbles blocks.flatten

/-! ## Reading an IMA ADPCM WAV data chunk back (the decoder the remux output is for) -/

/-- The `short` held in two little-endian bytes. -/
def shortOfBytes (lo hi : Nat) : Int :=
  if u16 lo hi < 32768 then (u16 lo hi : Int) else (u16 lo hi : Int) - 65536

/-- Decoding one WAV block as the spec words it: emit the header's sample, set the decoder
state to the header's (index, sample), then decode the payload nibbles low nibble first
with algorithm 0. -/
def wavDecodeBlock (block : List Nat) : List Int :=
  let sample := shortOfBytes (block.getD 0 0) (block.getD 1 0)
  let index : Int := block.getD 2 0
  sample :: decodeSeq 0 { index := index, sample := sample } (blockNibbles (block.drop 4))

/-- Decoding `count` consecutive blocks of `wav_blocksize + 4` bytes. -/
def wavDecodeBlocks (wav_blocksize : Nat) : Nat → List Nat → List Int
  | 0, _ => []
  | count + 1, data =>
    wavDecodeBlock (data.take (wav_blocksize + 4)) ++
      wavDecodeBlocks wav_blocksize count (data.drop (wav_blocksize + 4))

/-- Decoding a whole data chunk made of blocks of `wav_blocksize + 4` bytes. -/
def wavDecode (wav_blocksize : Nat) (data : List Nat) : List Int :=
  wavDecodeBlocks wav_blocksize (data.length / (wav_blocksize + 4)) data

/-- The `k`-th block of `wav_blocksize + 4` bytes of a data chunk. -/
def wavBlock (wav_blocksize : Nat) (data : List Nat) (j : Nat) : List Nat :=
  (data.drop (j * (wav_blocksize + 4))).take (wav_blocksize + 4)

/-- The `k`-th payload nibble of a WAV block: byte `k/2` after the 4-byte header, low
nibble when `k` is even, high nibble when `k` is odd. -/
def payloadNibble (block : List Nat) (k : Nat) : Nat :=
  if k % 2 = 0 then (block.getD (4 + k / 2) 0) &&& 0xF else (block.getD (4 + k / 2) 0) >>> 4

/-! ## WAV headers -/

/-- The numeric fields of the struct `WAV_HEADER_ADPCM` (the four-character tags are
constants). -/
structure WavHeaderADPCM where
  riffsize : Nat
  fmtlen : Nat
  wFormatTag : Nat
  nChannels : Nat
  nSamplesPerSec : Nat
  nAvgBytesPerSec : Nat
  nBlockAlign : Nat
  wBitsPerSample : Nat
  cbSize : Nat
  samplesPerBlock : Nat
  factlen : Nat
  nSamples : Nat
  datalen : Nat
deriving DecidableEq, Repr

/-- The size of `WAV_HEADER_ADPCM` with 4-byte `unsigned long` and 2-byte
`unsigned short`. -/
def sizeofWavHeaderADPCM : Nat := 60

/-- The assignments to `WAV_HEADER_ADPCM` in `main`; 32-bit fields are reduced modulo
2^32 and `unsigned short` fields modulo 2^16. -/
def buildAdpcmHeader (samplerate num_samples : Nat) (g : Geometry) : WavHeaderADPCM :=
  { riffsize := (g.wav_datalen + sizeofWavHeaderADPCM - 8) % U32
    fmtlen := 20
    wFormatTag := 0x11
    nChannels := 1
    nSamplesPerSec := samplerate
    nAvgBytesPerSec :=
      (samplerate * ((g.wav_blocksize + 4) % U32)) % U32 / ((g.wav_blocksize * 2 + 1) % U32)
    nBlockAlign := ((g.wav_blocksize + 4) % U32) % 65536
    wBitsPerSample := 4
    cbSize := 2
    samplesPerBlock := ((g.wav_blocksize * 2 + 1) % U32) % 65536
    factlen := 4
    nSamples := num_samples
    datalen := g.wav_datalen }

/-- The numeric fields of the struct `WAV_HEADER_PCM`. -/
structure WavHeaderPCM where
  riffsize : Nat
  fmtlen : Nat
  wFormatTag : Nat
  nChannels : Nat
  nSamplesPerSec : Nat
  nAvgBytesPerSec : Nat
  nBlockAlign : Nat
  wBitsPerSample : Nat
  datalen : Nat
deriving DecidableEq, Repr

/-- The assignments to `WAV_HEADER_PCM` in `main` (`sizeof(WAV_HEADER_PCM)` is 44). -/
def buildPcmHeader (samplerate num_samples : Nat) : WavHeaderPCM :=
  { riffsize := (num_samples * 2 + 44 - 8) % U32
    fmtlen := 16
    wFormatTag := 1
    nChannels := 1
    nSamplesPerSec := samplerate
    nAvgBytesPerSec := (samplerate * 2) % U32
    nBlockAlign := 2
    wBitsPerSample := 16
    datalen := (num_samples * 2) % U32 }

/-! ## One input file -/

/-- What the body of the loop over the input files does with one opened file (output
files opening and every write succeeding). -/
inductive FileResult
  | unknownFormat
  | unsupportedStream
  | divisionByZero (diag : Option ScanDiag)
  | decoded (diag : Option ScanDiag) (header : WavHeaderPCM) (pcm : List Int)
  | remuxed (diag : Option ScanDiag) (header : WavHeaderADPCM) (data : List Nat)

/-- The command-line settings and the indeterminate values of uninitialised variables
that the processing of a file reads. -/
structure Settings where
  decode : Bool
  use_algorithm : Nat
  blocksize : Int
  first_block_size0 : Nat
  u_blocksize : Nat
  u_blocks : Nat
  out_buffer0 : Nat → Nat
  out_odd0 : Nat

/-- The body of the loop over the input files for one opened file: format probing, the
supported-stream check, the first read-through, the duration
`i = AUD_HEADER.num_samples * 1000 / AUD_HEADER.samplerate` (a division by zero, before
any output file is opened, when the sample rate is 0), then decoding (one algorithm) or
remuxing.  `none` only if the scan model ran out of fuel. -/
def processFile (cfg : Settings) (file : List Nat) : Option FileResult :=
  match detectFormat file with
  | none => some FileResult.unknownFormat
  | some fmt =>
    let hdr := readHeader fmt file
    if !supported hdr then some FileResult.unsupportedStream
    else
      match scan (file.drop hdr.first_block_offset) cfg.first_block_size0 with
      | none => none
      | some s =>
        if hdr.samplerate = 0 then some (FileResult.divisionByZero s.diag)
        else
          let blocks := readBlocks s.blocks (file.drop hdr.first_block_offset)
          if cfg.decode then
            some (FileResult.decoded s.diag (buildPcmHeader hdr.samplerate s.num_samples)
              (pcmDecode cfg.use_algorithm blocks))
          else
            let g := chooseGeometry cfg.blocksize s.num_samples cfg.u_blocksize cfg.u_blocks
            some (FileResult.remuxed s.diag (buildAdpcmHeader hdr.samplerate s.num_samples g)
              (remux g.wav_blocksize cfg.out_buffer0 cfg.out_odd0 blocks))

/-- Whether processing created an output file. -/
def FileResult.hasOutput : FileResult → Bool
  | FileResult.unknownFormat => false
  | FileResult.unsupportedStream => false
  | FileResult.divisionByZero _ => false
  | FileResult.decoded _ _ _ => true
  | FileResult.remuxed _ _ _ => true

/-- Whether processing got past the supported-stream check and ran the first
read-through of the blocks. -/
def FileResult.scanned : FileResult → Bool
  | FileResult.unknownFormat => false
  | FileResult.unsupportedStream => false
  | FileResult.divisionByZero _ => true
  | FileResult.decoded _ _ _ => true
  | FileResult.remuxed _ _ _ => true

/-! ## Auxiliary definitions for the proofs -/

/-- What algorithm 1 computes at position `k = index * 16 + nibble` of the lookup tables:
the pair (`diff`, new index). -/
def tableEntry (k : Nat) : Int × Int := formulaStep 1 ((k / 16 : Nat) : Int) (k % 16)

/-- The geometry that one pass of a brute-force loop proposes for block size `i`. -/
def candidate (num_samples i : Nat) : Geometry :=
  let test_samples_per_block := ((i - 4) * 2 + 1) % U32
  let test_blocks := num_samples / test_samples_per_block
  let test_blocks :=
    if num_samples % test_samples_per_block ≠ 0 then (test_blocks + 1) % U32 else test_blocks
  { wav_blocksize := (i - 4) % U32, wav_blocks := test_blocks
    wav_datalen := (i * test_blocks) % U32 }

/-- The counters after the scan loop has accepted the given blocks one after the other
(the updates at the end of the loop body). -/
def countBlocks (s : ScanState) : List (Nat × List Nat) → ScanState
  | [] => s
  | (_, payload) :: rest =>
    countBlocks
      { blocks := (s.blocks + 1) % U32
        adpcm_bytes := (s.adpcm_bytes + payload.length) % U32
        first_block_size := if s.blocks = 0 then payload.length else s.first_block_size
        diag := s.diag } rest

/-- The sum of the `enc_size` values of a list of blocks. -/
def totalPayload (bs : List (Nat × List Nat)) : Nat := (bs.map (fun b => b.2.length)).sum

/-- The little-endian 16-bit word at byte offset `k` of a file. -/
def wordAt (file : List Nat) (k : Nat) : Nat := u16 (file.getD k 0) (file.getD (k + 1) 0)

/-- A file that is detected as New format and accepted, but whose second block header
has wrong markers: header (22050 Hz, flags 2, codec 99), one block of 2 payload bytes,
then 8 zero bytes. -/
def corruptSecondHeader : List Nat :=
  [0x22, 0x56, 10, 0, 0, 0, 8, 0, 0, 0, 2, 99] ++
  [2, 0, 8, 0, 0xAF, 0xDE, 0, 0] ++ [0x17, 0x8F] ++ [0, 0, 0, 0, 0, 0, 0, 0]

/-- Settings for remuxing with the default block size 512. -/
def defaultSettings : Settings :=
  { decode := false, use_algorithm := 0, blocksize := 512, first_block_size0 := 0
    u_blocksize := 0, u_blocks := 0, out_buffer0 := fun _ => 0, out_odd0 := 0 }

/-- The error on which the scan loop stops when the bytes left in the file are `rest`:
a partial block header, a block header whose markers are not 0xDEAF / 0x0000, or a
payload shorter than its declared `enc_size`; `none` when `rest` is empty or starts with
a complete block. -/
def scanError (rest : List Nat) : Option ScanDiag :=
  if rest.length = 0 then none
  else if rest.length < 8 then some (ScanDiag.shortHeader rest.length)
  else if (parseBlockHeader (rest.take 8)).deaf ≠ 0xDEAF ∨
      (parseBlockHeader (rest.take 8)).zero ≠ 0 then some ScanDiag.invalidHeader
  else if rest.length - 8 < (parseBlockHeader (rest.take 8)).encsize then
    some (ScanDiag.shortPayload (rest.length - 8) (parseBlockHeader (rest.take 8)).encsize)
  else none

/-- A file like `corruptSecondHeader` whose header declares sample rate 0. -/
def zeroRateFile : List Nat :=
  [0, 0, 10, 0, 0, 0, 8, 0, 0, 0, 2, 99] ++
  [2, 0, 8, 0, 0xAF, 0xDE, 0, 0] ++ [0x17, 0x8F]

/-- The payload byte number `i` made of a list of 4-bit codes: code `2i` in the low
nibble, code `2i+1` in the high nibble, a missing code counting as 0. -/
def packByte (nibbles : List Nat) (i : Nat) : Nat :=
  nibbles.getD (2 * i) 0 + 16 * nibbles.getD (2 * i + 1) 0

/-- The `wav_blocksize` payload bytes made of a list of at most `2 * wav_blocksize`
codes. -/
def blockPayload (wav_blocksize : Nat) (nibbles : List Nat) : List Nat :=
  (List.range wav_blocksize).map (packByte nibbles)

/-- The remux output described block by block: the first source nibble of a block is
decoded into its header, the next `2 * wav_blocksize` nibbles fill its payload, and the
decoder state runs on.  One unit of `fuel` per block. -/
def remuxBlocks (wav_blocksize : Nat) : Nat → DecoderState → List Nat → List Nat
  | 0, _, _ => []
  | _ + 1, _, [] => []
  | fuel + 1, st, x :: rest =>
    let st1 := ADPCM_decode_sample 0 st x
    blockHeaderBytes st1 ++ blockPayload wav_blocksize (rest.take (2 * wav_blocksize)) ++
      remuxBlocks wav_blocksize fuel (decodeState 0 st1 (rest.take (2 * wav_blocksize)))
        (rest.drop (2 * wav_blocksize))

/-- The state of the remux loop inside an output block whose payload has received the
codes `blk` so far. -/
def MidBlock (wav_blocksize : Nat) (t : RemuxState) (blk : List Nat) : Prop :=
  blk.length < 2 * wav_blocksize ∧ t.o = blk.length / 2 ∧ t.out_odd = blk.length % 2 ∧
  (∀ i, i < (blk.length + 1) / 2 → t.out_buffer i = packByte blk i) ∧
  (∀ n ∈ blk, n < 16)

/-- The source blocks of the spec's end-to-end scenario: three blocks of 100, 100 and 50
bytes (every byte 0x17 here). -/
def scenarioBlocks : List (List Nat) :=
  [List.replicate 100 0x17, List.replicate 100 0x17, List.replicate 50 0x17]

/-- The candidate geometry for block size `i` over unbounded integers: payload `i - 4`,
`ceil(n / (2p+1))` blocks, `blocks * (p+4)` data bytes. -/
def idealCandidate (num_samples i : Nat) : Geometry :=
  { wav_blocksize := i - 4, wav_blocks := blocksFor num_samples (i - 4)
    wav_datalen := dataBytesFor num_samples (i - 4) }

/-- One pass of the same search carried out over unbounded integers, with no initial
bound: the first candidate is always taken, a later one only if strictly smaller. -/
def idealStep (num_samples : Nat) (best : Option Geometry) (i : Nat) : Option Geometry :=
  match best with
  | none => some (idealCandidate num_samples i)
  | some g =>
    if (idealCandidate num_samples i).wav_datalen < g.wav_datalen
    then some (idealCandidate num_samples i) else some g

/-- The brute-force search over unbounded integers (`none` only for no candidate). -/
def idealSearch (candidates : List Nat) (num_samples : Nat) : Option Geometry :=
  candidates.foldl (idealStep num_samples) none

/-- How the state of the code's search (bound `INT_MAX`, uninitialised `u0`, `u1`)
relates to the state of the unbounded search: they agree once the best data length is
below `INT_MAX`, and until then the code has assigned nothing. -/
def SearchRel (u0 u1 : Nat) (g : Geometry) (best : Option Geometry) : Prop :=
  match best with
  | none => g = { wav_blocksize := u0, wav_blocks := u1, wav_datalen := INT_MAX }
  | some b =>
    (b.wav_datalen < INT_MAX ∧ g = b) ∨
    (INT_MAX ≤ b.wav_datalen ∧
      g = { wav_blocksize := u0, wav_blocks := u1, wav_datalen := INT_MAX })

/-! ## Theorems -/

theorem DiffTable_eq :
    DiffTable.map toInt32 = (List.range 1424).map (fun k => (tableEntry k).1) := by
  decide!

theorem IndexTable_eq :
    IndexTable.map (fun w => toChar ((w >>> 4 : Nat) : Int)) =
      (List.range 1424).map (fun k => (tableEntry k).2) := by
  decide!

theorem DiffTable_getD (k : Nat) (hk : k < 1424) :
    toInt32 (DiffTable.getD k 0) = (tableEntry k).1 := by
  have h := congrArg (fun l => l[k]?) DiffTable_eq
  simp only [List.getElem?_map, List.getElem?_range hk, Option.map_some'] at h
  cases hd : DiffTable[k]? with
  | none => rw [hd] at h; simp at h
  | some w =>
    rw [hd] at h
    simp only [Option.map_some', Option.some.injEq] at h
    simp [List.getD_eq_getElem?_getD, hd, h]

theorem IndexTable_getD (k : Nat) (hk : k < 1424) :
    toChar ((IndexTable.getD k 0 >>> 4 : Nat) : Int) = (tableEntry k).2 := by
  have h := congrArg (fun l => l[k]?) IndexTable_eq
  simp only [List.getElem?_map, List.getElem?_range hk, Option.map_some'] at h
  cases hd : IndexTable[k]? with
  | none => rw [hd] at h; simp at h
  | some w =>
    rw [hd] at h
    simp only [Option.map_some', Option.some.injEq] at h
    simp [List.getD_eq_getElem?_getD, hd, h]

theorem tableStep_eq_formulaStep (i n : Nat) (hi : i < 89) (hn : n < 16) :
    tableStep (i : Int) n = formulaStep 1 (i : Int) n := by
  have hk : i * 16 + n < 1424 := by omega
  have h1 : ((i : Int) * 16 + (n : Int)).toNat = i * 16 + n := by omega
  have h2 : (i * 16 + n) / 16 = i := by omega
  have h3 : (i * 16 + n) % 16 = n := by omega
  unfold tableStep
  simp only [h1, DiffTable_getD _ hk, IndexTable_getD _ hk, tableEntry, h2, h3]


theorem adjust_bounds (n : Nat) (hn : n < 16) :
    -1 ≤ ADPCM_INDEX_ADJUST.getD (n &&& 7) 0 ∧ ADPCM_INDEX_ADJUST.getD (n &&& 7) 0 ≤ 8 := by
  revert n
  decide

theorem formulaStep_index_range (alg : Nat) (index : Int) (n : Nat) :
    0 ≤ (formulaStep alg index n).2 ∧ (formulaStep alg index n).2 ≤ 88 := by
  unfold formulaStep
  simp only
  split_ifs <;> omega

theorem formulaStep_index (alg : Nat) (index : Int) (n : Nat) (h0 : 0 ≤ index)
    (h88 : index ≤ 88) (hn : n < 16) :
    (formulaStep alg index n).2 =
      max 0 (min 88 (index + ADPCM_INDEX_ADJUST.getD (n &&& 7) 0)) := by
  have ha := adjust_bounds n hn
  unfold formulaStep toChar
  simp only
  split_ifs <;> omega

theorem decode_sample_range (alg : Nat) (st : DecoderState) (n : Nat) :
    -32768 ≤ (ADPCM_decode_sample alg st n).sample ∧
      (ADPCM_decode_sample alg st n).sample ≤ 32767 := by
  unfold ADPCM_decode_sample
  simp only
  split_ifs <;> omega

theorem decode_alg0_alg1 (st : DecoderState) (n : Nat) (h0 : 0 ≤ st.index)
    (h88 : st.index ≤ 88) (hn : n < 16) :
    ADPCM_decode_sample 0 st n = ADPCM_decode_sample 1 st n := by
  obtain ⟨i, hi⟩ : ∃ i : Nat, st.index = (i : Int) := ⟨st.index.toNat, by omega⟩
  have hi89 : i < 89 := by omega
  unfold ADPCM_decode_sample
  simp only [hi, tableStep_eq_formulaStep i n hi89 hn]
  simp

theorem decode_valid (alg : Nat) (st : DecoderState) (n : Nat) (hv : st.Valid) (hn : n < 16) :
    (ADPCM_decode_sample alg st n).Valid := by
  obtain ⟨h0, h88, _, _⟩ := hv
  have hs := decode_sample_range alg st n
  refine ⟨?_, ?_, hs.1, hs.2⟩
  · by_cases ha : alg = 0
    · subst ha
      rw [decode_alg0_alg1 st n h0 h88 hn]
      have := formulaStep_index_range 1 st.index n
      simpa [ADPCM_decode_sample] using this.1
    · have := formulaStep_index_range alg st.index n
      simpa [ADPCM_decode_sample, ha] using this.1
  · by_cases ha : alg = 0
    · subst ha
      rw [decode_alg0_alg1 st n h0 h88 hn]
      have := formulaStep_index_range 1 st.index n
      simpa [ADPCM_decode_sample] using this.2
    · have := formulaStep_index_range alg st.index n
      simpa [ADPCM_decode_sample, ha] using this.2

theorem initial_valid : DecoderState.Valid { index := 0, sample := 0 } := by
  unfold DecoderState.Valid
  simp

theorem decodeState_valid (alg : Nat) (nibbles : List Nat) :
    ∀ st : DecoderState, st.Valid → (∀ n ∈ nibbles, n < 16) →
      (decodeState alg st nibbles).Valid := by
  induction nibbles with
  | nil => intro st hv _; simpa [decodeState] using hv
  | cons n rest ih =>
    intro st hv hn
    have h1 := decode_valid alg st n hv (hn n (List.mem_cons_self _ _))
    have := ih (ADPCM_decode_sample alg st n) h1 (fun m hm => hn m (List.mem_cons_of_mem _ hm))
    simpa [decodeState] using this

theorem decodeSeq_alg0_alg1 (nibbles : List Nat) :
    ∀ st : DecoderState, st.Valid → (∀ n ∈ nibbles, n < 16) →
      decodeSeq 0 st nibbles = decodeSeq 1 st nibbles := by
  induction nibbles with
  | nil => intro st _ _; rfl
  | cons n rest ih =>
    intro st hv hn
    have hn0 := hn n (List.mem_cons_self _ _)
    have he := decode_alg0_alg1 st n hv.1 hv.2.1 hn0
    have h1 := decode_valid 1 st n hv hn0
    simp only [decodeSeq, he]
    rw [ih _ h1 (fun m hm => hn m (List.mem_cons_of_mem _ hm))]

/-- C1: for every decoder state with index in [0,88] and sample in [-32768,32767] and
every nibble in [0,15], the table lookup (algorithm 0) and the bit-decomposed step sum
(algorithm 1) give the same new sample and the same new index; hence both give the same
sample sequence for every nibble sequence decoded from (index 0, sample 0). -/
theorem algorithm0_equals_algorithm1 (st : DecoderState) (nibble : Nat) (nibbles : List Nat)
    (hv : st.Valid) (hn : nibble < 16) (hns : ∀ n ∈ nibbles, n < 16) :
    (ADPCM_decode_sample 0 st nibble).sample = (ADPCM_decode_sample 1 st nibble).sample ∧
    (ADPCM_decode_sample 0 st nibble).index = (ADPCM_decode_sample 1 st nibble).index ∧
    decodeSeq 0 { index := 0, sample := 0 } nibbles =
      decodeSeq 1 { index := 0, sample := 0 } nibbles := by
  refine ⟨?_, ?_, decodeSeq_alg0_alg1 nibbles _ initial_valid hns⟩
  · rw [decode_alg0_alg1 st nibble hv.1 hv.2.1 hn]
  · rw [decode_alg0_alg1 st nibble hv.1 hv.2.1 hn]

/-- Witness for C1: state (index 40, sample 1000), nibble 13, nibble sequence 1, 15, 7. -/
theorem algorithm0_equals_algorithm1_witness :
    DecoderState.Valid { index := 40, sample := 1000 } ∧ (13 : Nat) < 16 ∧
    (∀ n ∈ [1, 15, 7], n < 16) ∧
    (ADPCM_decode_sample 0 { index := 40, sample := 1000 } 13).sample =
      (ADPCM_decode_sample 1 { index := 40, sample := 1000 } 13).sample ∧
    (ADPCM_decode_sample 0 { index := 40, sample := 1000 } 13).index =
      (ADPCM_decode_sample 1 { index := 40, sample := 1000 } 13).index ∧
    decodeSeq 0 { index := 0, sample := 0 } [1, 15, 7] =
      decodeSeq 1 { index := 0, sample := 0 } [1, 15, 7] :=
  ⟨⟨by decide, by decide, by decide, by decide⟩, by decide, by decide,
   algorithm0_equals_algorithm1 { index := 40, sample := 1000 } 13 [1, 15, 7]
     ⟨by decide, by decide, by decide, by decide⟩ (by decide) (by decide)⟩

/-- C2: for every algorithm (0, 1, 2, 3, and any other value of `use_algorithm`), every
prior state with index in [0,88] and sample in [-32768,32767] and every nibble in [0,15],
the state after `ADPCM_decode_sample` again has index in [0,88] and sample in
[-32768,32767]; so the invariant holds after any sequence of calls from the initial
state (0,0). -/
theorem decoder_state_invariant (alg : Nat) (st : DecoderState) (nibble : Nat)
    (nibbles : List Nat) (hv : st.Valid) (hn : nibble < 16) (hns : ∀ n ∈ nibbles, n < 16) :
    (ADPCM_decode_sample alg st nibble).Valid ∧
    (decodeState alg { index := 0, sample := 0 } nibbles).Valid :=
  ⟨decode_valid alg st nibble hv hn, decodeState_valid alg nibbles _ initial_valid hns⟩

/-- Witness for C2: algorithm 2 at state (index 88, sample -32768), nibble 15, and the
nibble sequence 15, 15, 0. -/
theorem decoder_state_invariant_witness :
    DecoderState.Valid { index := 88, sample := -32768 } ∧ (15 : Nat) < 16 ∧
    (∀ n ∈ [15, 15, 0], n < 16) ∧
    (ADPCM_decode_sample 2 { index := 88, sample := -32768 } 15).Valid ∧
    (decodeState 2 { index := 0, sample := 0 } [15, 15, 0]).Valid :=
  ⟨⟨by decide, by decide, by decide, by decide⟩, by decide, by decide,
   decoder_state_invariant 2 { index := 88, sample := -32768 } 15 [15, 15, 0]
     ⟨by decide, by decide, by decide, by decide⟩ (by decide) (by decide)⟩

/-- C19: for every state with index in [0,88] and every nibble in [0,15], algorithms 1,
2 and 3 give the same new index, `clamp(index + ADPCM_INDEX_ADJUST[nibble & 7], 0, 88)`,
and the new sample `clamp(sample + d, -32768, 32767)` where `d` is the algorithm's delta
magnitude, negated iff bit 3 of the nibble is set. -/
theorem algorithms123_share_index_and_clamp (alg : Nat) (halg : alg = 1 ∨ alg = 2 ∨ alg = 3)
    (st : DecoderState) (nibble : Nat) (h0 : 0 ≤ st.index) (h88 : st.index ≤ 88)
    (hn : nibble < 16) :
    (ADPCM_decode_sample alg st nibble).index =
      max 0 (min 88 (st.index + ADPCM_INDEX_ADJUST.getD (nibble &&& 7) 0)) ∧
    (ADPCM_decode_sample alg st nibble).sample =
      max (-32768) (min 32767 (st.sample +
        (if nibble &&& 8 ≠ 0
          then -((deltaMagnitude alg (nibble &&& 7)
            (ADPCM_STEP_TABLE.getD st.index.toNat 0) : Nat) : Int)
          else ((deltaMagnitude alg (nibble &&& 7)
            (ADPCM_STEP_TABLE.getD st.index.toNat 0) : Nat) : Int)))) := by
  have ha : alg ≠ 0 := by omega
  constructor
  · have := formulaStep_index alg st.index nibble h0 h88 hn
    simpa [ADPCM_decode_sample, ha] using this
  · unfold ADPCM_decode_sample formulaStep
    simp only [ha, if_false]
    split_ifs <;> omega

/-- Witness for C19: algorithm 3 at index 40, sample 1000, nibble 13. -/
theorem algorithms123_share_index_and_clamp_witness :
    ((3 : Nat) = 1 ∨ (3 : Nat) = 2 ∨ (3 : Nat) = 3) ∧ (0 : Int) ≤ 40 ∧ (40 : Int) ≤ 88 ∧
    (13 : Nat) < 16 ∧
    (ADPCM_decode_sample 3 { index := 40, sample := 1000 } 13).index =
      max 0 (min 88 ((40 : Int) + ADPCM_INDEX_ADJUST.getD (13 &&& 7) 0)) ∧
    (ADPCM_decode_sample 3 { index := 40, sample := 1000 } 13).sample =
      max (-32768) (min 32767 ((1000 : Int) +
        (if 13 &&& 8 ≠ 0
          then -((deltaMagnitude 3 (13 &&& 7)
            (ADPCM_STEP_TABLE.getD (40 : Int).toNat 0) : Nat) : Int)
          else ((deltaMagnitude 3 (13 &&& 7)
            (ADPCM_STEP_TABLE.getD (40 : Int).toNat 0) : Nat) : Int)))) :=
  ⟨by decide, by decide, by decide, by decide,
   algorithms123_share_index_and_clamp 3 (Or.inr (Or.inr rfl))
     { index := 40, sample := 1000 } 13 (by decide) (by decide) (by decide)⟩

/-- C20: algorithm 2 is not bit-exact with algorithm 1, and neither is algorithm 3: from
the valid state (index 0, sample 0), nibble 3 decodes to 5 under algorithm 2 and to 4
under algorithm 1, and nibble 1 decodes to 2 under algorithm 3 and to 1 under
algorithm 1. -/
theorem algorithms23_not_bit_exact :
    (∃ (st : DecoderState) (nibble : Nat), st.Valid ∧ nibble < 16 ∧
      (ADPCM_decode_sample 2 st nibble).sample ≠ (ADPCM_decode_sample 1 st nibble).sample) ∧
    (∃ (st : DecoderState) (nibble : Nat), st.Valid ∧ nibble < 16 ∧
      (ADPCM_decode_sample 3 st nibble).sample ≠ (ADPCM_decode_sample 1 st nibble).sample) :=
  ⟨⟨{ index := 0, sample := 0 }, 3, initial_valid, by decide, by decide⟩,
   ⟨{ index := 0, sample := 0 }, 1, initial_valid, by decide, by decide⟩⟩

/-! ### Block geometry -/

theorem ceil_div (n d : Nat) (hd : 0 < d) :
    n / d + (if n % d ≠ 0 then 1 else 0) = (n + (d - 1)) / d := by
  have h := Nat.div_add_mod n d
  have hr := Nat.mod_lt n hd
  have e : n + (d - 1) = (n % d + (d - 1)) + d * (n / d) := by omega
  rw [e, Nat.add_mul_div_left _ _ hd]
  by_cases h0 : n % d = 0
  · have h1 : (n % d + (d - 1)) / d = 0 := Nat.div_eq_of_lt (by omega)
    rw [h1, if_neg (by simpa using h0)]
    omega
  · have h1 : (n % d + (d - 1)) / d = 1 :=
      Nat.div_eq_of_lt_le (by omega) (by omega)
    rw [h1, if_pos h0]
    omega

theorem blocksFor_le_iff (n p b : Nat) : blocksFor n p ≤ b ↔ n ≤ b * (2 * p + 1) := by
  unfold blocksFor
  have e : (b + 1) * (2 * p + 1) = b * (2 * p + 1) + (2 * p + 1) := by ring
  rw [← Nat.lt_succ_iff, Nat.div_lt_iff_lt_mul (by omega), e]
  omega

theorem blocksFor_covers (n p : Nat) : n ≤ blocksFor n p * (2 * p + 1) :=
  (blocksFor_le_iff n p _).1 (Nat.le_refl _)

theorem blocksFor_le_self (n p : Nat) : blocksFor n p ≤ n := by
  rw [blocksFor_le_iff]
  exact Nat.le_mul_of_pos_right n (by omega)

theorem blocksFor_mono (n p q : Nat) (h : p ≤ q) : blocksFor n q ≤ blocksFor n p := by
  rw [blocksFor_le_iff]
  calc n ≤ blocksFor n p * (2 * p + 1) := blocksFor_covers n p
    _ ≤ blocksFor n p * (2 * q + 1) := Nat.mul_le_mul_left _ (by omega)

theorem blocksFor_zero (p : Nat) : blocksFor 0 p = 0 := by
  have := blocksFor_le_self 0 p
  omega

theorem blocksFor_one (p : Nat) : blocksFor 1 p = 1 := by
  unfold blocksFor
  rw [show 1 + 2 * p = 2 * p + 1 by omega]
  exact Nat.div_self (by omega)

/-- The block count of the code (quotient, plus one when there is a remainder, in
`unsigned int`) is the ceiling, for a 32-bit sample count and a payload up to 32767. -/
theorem code_blocks_eq (n p : Nat) (hn : n < U32) (hp : p ≤ 32767) :
    (if n % ((p * 2 + 1) % U32) ≠ 0 then (n / ((p * 2 + 1) % U32) + 1) % U32
      else n / ((p * 2 + 1) % U32)) = blocksFor n p := by
  have hU : U32 = 4294967296 := rfl
  have hd : (p * 2 + 1) % U32 = 2 * p + 1 := by rw [hU]; omega
  rw [hd]
  have hc := ceil_div n (2 * p + 1) (by omega)
  have hb := blocksFor_le_self n p
  unfold blocksFor at *
  simp only [Nat.add_sub_cancel] at hc
  split_ifs at hc ⊢ with h0
  · rw [← hc, Nat.mod_eq_of_lt]
    rw [hU]; omega
  · omega

theorem candidate_eq (n i : Nat) (hn : n < U32) (h4 : 4 ≤ i) (hi : i ≤ 32771) :
    candidate n i =
      { wav_blocksize := i - 4, wav_blocks := blocksFor n (i - 4)
        wav_datalen := (i * blocksFor n (i - 4)) % U32 } := by
  have hU : U32 = 4294967296 := rfl
  unfold candidate
  simp only [code_blocks_eq n (i - 4) hn (by omega)]
  congr 1
  rw [hU]; omega

theorem searchStep_eq (n : Nat) (g : Geometry) (i : Nat) :
    searchStep n g i =
      if (candidate n i).wav_datalen < g.wav_datalen then candidate n i else g := rfl

/-- The product `i * blocks` does not wrap for fewer than 2^30 samples. -/
theorem dataBytes_small (n i : Nat) (hn : n < 1073741824) (h4 : 4 ≤ i) (hi : i ≤ 32771) :
    i * blocksFor n (i - 4) < U32 := by
  have hU : U32 = 4294967296 := rfl
  rw [hU]
  by_cases h7 : 7 ≤ i
  · have hb : blocksFor n (i - 4) ≤ n / (2 * (i - 4) + 1) + 1 := by
      unfold blocksFor
      rw [show n + 2 * (i - 4) = (n + (2 * (i - 4) + 1)) - 1 by omega]
      calc (n + (2 * (i - 4) + 1) - 1) / (2 * (i - 4) + 1)
          ≤ (n + (2 * (i - 4) + 1)) / (2 * (i - 4) + 1) :=
            Nat.div_le_div_right (Nat.sub_le _ _)
        _ = n / (2 * (i - 4) + 1) + 1 := Nat.add_div_right n (by omega)
    have h1 : i * (n / (2 * (i - 4) + 1)) ≤ n :=
      calc i * (n / (2 * (i - 4) + 1))
          ≤ (2 * (i - 4) + 1) * (n / (2 * (i - 4) + 1)) := Nat.mul_le_mul_right _ (by omega)
        _ ≤ n := Nat.mul_div_le n _
    calc i * blocksFor n (i - 4) ≤ i * (n / (2 * (i - 4) + 1) + 1) := Nat.mul_le_mul_left _ hb
      _ = i * (n / (2 * (i - 4) + 1)) + i := by ring
      _ < 4294967296 := by omega
  · have hcases : i = 4 ∨ i = 5 ∨ i = 6 := by omega
    unfold blocksFor
    rcases hcases with h | h | h <;> subst h <;> simp <;> omega

theorem candidate_small (n i : Nat) (hn : n < 1073741824) (h4 : 4 ≤ i) (hi : i ≤ 32771) :
    candidate n i =
      { wav_blocksize := i - 4, wav_blocks := blocksFor n (i - 4)
        wav_datalen := dataBytesFor n (i - 4) } := by
  have hU : U32 = 4294967296 := rfl
  rw [candidate_eq n i (by rw [hU]; omega) h4 hi, Nat.mod_eq_of_lt (dataBytes_small n i hn h4 hi)]
  congr 1
  unfold dataBytesFor
  rw [Nat.mul_comm, show i - 4 + 4 = i by omega]

theorem search_result (n : Nat) (cs : List Nat) :
    ∀ g : Geometry,
      (cs.foldl (searchStep n) g = g ∧
        ∀ c ∈ cs, g.wav_datalen ≤ (candidate n c).wav_datalen) ∨
      (∃ pre c post, cs = pre ++ c :: post ∧ cs.foldl (searchStep n) g = candidate n c ∧
        (candidate n c).wav_datalen < g.wav_datalen ∧
        (∀ x ∈ pre, (candidate n c).wav_datalen < (candidate n x).wav_datalen) ∧
        (∀ x ∈ post, (candidate n c).wav_datalen ≤ (candidate n x).wav_datalen)) := by
  induction cs with
  | nil => intro g; left; simp
  | cons a rest ih =>
    intro g
    rw [List.foldl_cons, searchStep_eq]
    by_cases ha : (candidate n a).wav_datalen < g.wav_datalen
    · rw [if_pos ha]
      rcases ih (candidate n a) with ⟨hr, hall⟩ | ⟨pre, c, post, hcs, hr, hlt, hpre, hpost⟩
      · right
        exact ⟨[], a, rest, rfl, hr, ha, by simp, hall⟩
      · right
        refine ⟨a :: pre, c, post, by rw [hcs]; rfl, hr, by omega, ?_, hpost⟩
        intro x hx
        rcases List.mem_cons.1 hx with h | h
        · rw [h]; exact hlt
        · exact hpre x h
    · rw [if_neg ha]
      rcases ih g with ⟨hr, hall⟩ | ⟨pre, c, post, hcs, hr, hlt, hpre, hpost⟩
      · left
        refine ⟨hr, ?_⟩
        intro x hx
        rcases List.mem_cons.1 hx with h | h
        · rw [h]; omega
        · exact hall x h
      · right
        refine ⟨a :: pre, c, post, by rw [hcs]; rfl, hr, hlt, ?_, hpost⟩
        intro x hx
        rcases List.mem_cons.1 hx with h | h
        · rw [h]; omega
        · exact hpre x h

theorem search_sorted (n : Nat) (cs : List Nat) (g : Geometry)
    (hs : cs.Pairwise (fun a b => a < b))
    (hex : ∃ c ∈ cs, (candidate n c).wav_datalen < g.wav_datalen) :
    ∃ c ∈ cs, cs.foldl (searchStep n) g = candidate n c ∧
      ∀ x ∈ cs, (candidate n c).wav_datalen ≤ (candidate n x).wav_datalen ∧
        ((candidate n x).wav_datalen = (candidate n c).wav_datalen → c ≤ x) := by
  rcases search_result n cs g with ⟨_, hall⟩ | ⟨pre, c, post, hcs, hr, _, hpre, hpost⟩
  · obtain ⟨c, hc, hlt⟩ := hex
    have := hall c hc
    omega
  · refine ⟨c, by rw [hcs]; simp, hr, ?_⟩
    intro x hx
    rw [hcs] at hx hs
    rcases List.mem_append.1 hx with h | h
    · have := hpre x h
      exact ⟨by omega, fun e => by omega⟩
    · rcases List.mem_cons.1 h with h | h
      · rw [h]; exact ⟨Nat.le_refl _, fun _ => Nat.le_refl _⟩
      · have h1 := hpost x h
        have h2 := (List.pairwise_cons.1 (List.pairwise_append.1 hs).2.1).1 x h
        exact ⟨h1, fun _ => by omega⟩

theorem mem_candidatesACM (i : Nat) :
    i ∈ candidatesACM ↔ 8 ≤ i ∧ i ≤ 2760 ∧ i % 4 = 0 := by
  unfold candidatesACM
  simp only [List.mem_map, List.mem_range]
  constructor
  · rintro ⟨k, hk, rfl⟩; omega
  · rintro ⟨h1, h2, h3⟩; exact ⟨(i - 8) / 4, by omega, by omega⟩

theorem mem_candidatesAll (i : Nat) : i ∈ candidatesAll ↔ 4 ≤ i ∧ i ≤ 32771 := by
  unfold candidatesAll
  simp only [List.mem_map, List.mem_range]
  constructor
  · rintro ⟨k, hk, rfl⟩; omega
  · rintro ⟨h1, h2⟩; exact ⟨i - 4, by omega, by omega⟩

theorem candidatesACM_sorted : candidatesACM.Pairwise (fun a b => a < b) := by
  unfold candidatesACM
  rw [List.pairwise_map]
  exact (List.pairwise_lt_range 689).imp (fun h => by omega)

theorem candidatesAll_sorted : candidatesAll.Pairwise (fun a b => a < b) := by
  unfold candidatesAll
  rw [List.pairwise_map]
  exact (List.pairwise_lt_range 32768).imp (fun h => by omega)

/-- Block size 8 always beats the initial bound `INT_MAX` for fewer than 2^30 samples. -/
theorem candidate8_below_bound (n : Nat) (hn : n < 1073741824) :
    (candidate n 8).wav_datalen < INT_MAX := by
  rw [candidate_small n 8 hn (by omega) (by omega)]
  unfold dataBytesFor blocksFor INT_MAX
  simp only
  omega

/-- The result of a brute-force search over a sorted list of block sizes within
[4, 32771] that contains 8, for fewer than 2^30 samples. -/
theorem search_small (n : Nat) (hn : n < 1073741824) (cs : List Nat) (u0 u1 : Nat)
    (hs : cs.Pairwise (fun a b => a < b)) (h8 : 8 ∈ cs)
    (hr : ∀ i ∈ cs, 4 ≤ i ∧ i ≤ 32771) :
    ∃ p, p + 4 ∈ cs ∧
      cs.foldl (searchStep n)
          { wav_blocksize := u0, wav_blocks := u1, wav_datalen := INT_MAX } =
        { wav_blocksize := p, wav_blocks := blocksFor n p, wav_datalen := dataBytesFor n p } ∧
      ∀ q, q + 4 ∈ cs → dataBytesFor n p ≤ dataBytesFor n q ∧
        (dataBytesFor n q = dataBytesFor n p → p ≤ q) := by
  obtain ⟨c, hc, hres, hmin⟩ := search_sorted n cs
    { wav_blocksize := u0, wav_blocks := u1, wav_datalen := INT_MAX } hs
    ⟨8, h8, candidate8_below_bound n hn⟩
  have hcr := hr c hc
  refine ⟨c - 4, by rw [show c - 4 + 4 = c by omega]; exact hc, ?_, ?_⟩
  · rw [hres, candidate_small n c hn hcr.1 hcr.2]
  · intro q hq
    have hqr := hr _ hq
    have := hmin _ hq
    rw [candidate_small n c hn hcr.1 hcr.2,
      candidate_small n (q + 4) hn hqr.1 hqr.2] at this
    simp only [Nat.add_sub_cancel] at this
    exact ⟨this.1, fun e => by have := this.2 e; omega⟩

theorem fixedGeometry_eq (B : Int) (n : Nat) (h4 : 4 ≤ B) (hB : B ≤ 32771) (hn : n < U32) :
    fixedGeometry B n =
      { wav_blocksize := (B - 4).toNat, wav_blocks := blocksFor n (B - 4).toNat
        wav_datalen := (blocksFor n (B - 4).toNat * ((B - 4).toNat + 4)) % U32 } := by
  have hU : U32 = 4294967296 := rfl
  have h1 : ((B - 4) % (U32 : Int)).toNat = (B - 4).toNat := by rw [hU]; omega
  have h2 : (B % (U32 : Int)).toNat = (B - 4).toNat + 4 := by rw [hU]; omega
  unfold fixedGeometry
  simp only [h1, h2, code_blocks_eq n (B - 4).toNat hn (by omega)]
  rw [Nat.mul_comm]

theorem chooseGeometry_fixed (B : Int) (n u0 u1 : Nat) (h4 : 4 ≤ B) :
    chooseGeometry B n u0 u1 = fixedGeometry B n := by
  unfold chooseGeometry
  rw [if_neg (by omega), if_neg (by omega)]

theorem chooseGeometry_acm (n u0 u1 : Nat) (hn : n < 1073741824) :
    ∃ p, p + 4 ∈ candidatesACM ∧
      chooseGeometry (-1) n u0 u1 =
        { wav_blocksize := p, wav_blocks := blocksFor n p, wav_datalen := dataBytesFor n p } ∧
      ∀ q, q + 4 ∈ candidatesACM → dataBytesFor n p ≤ dataBytesFor n q ∧
        (dataBytesFor n q = dataBytesFor n p → p ≤ q) := by
  have h := search_small n hn candidatesACM u0 u1 candidatesACM_sorted
    ((mem_candidatesACM 8).2 (by omega))
    (fun i hi => by have := (mem_candidatesACM i).1 hi; omega)
  unfold chooseGeometry
  rw [if_pos rfl]
  exact h

theorem chooseGeometry_all (n u0 u1 : Nat) (hn : n < 1073741824) :
    ∃ p, p + 4 ∈ candidatesAll ∧
      chooseGeometry (-2) n u0 u1 =
        { wav_blocksize := p, wav_blocks := blocksFor n p, wav_datalen := dataBytesFor n p } ∧
      ∀ q, q + 4 ∈ candidatesAll → dataBytesFor n p ≤ dataBytesFor n q ∧
        (dataBytesFor n q = dataBytesFor n p → p ≤ q) := by
  have h := search_small n hn candidatesAll u0 u1 candidatesAll_sorted
    ((mem_candidatesAll 8).2 (by omega))
    (fun i hi => (mem_candidatesAll i).1 hi)
  unfold chooseGeometry
  rw [if_neg (by decide), if_pos rfl]
  exact h

/-- C5, as stated, fails: with block size 5 (payload 1) and 2576980378 samples the block
count is 858993460 and `wav_datalen`, computed in `unsigned int`, is 4 instead of
858993460 * 5 = 4294967300. -/
theorem fixed_datalen_wraps :
    (chooseGeometry 5 2576980378 0 0).wav_blocksize = 1 ∧
    (chooseGeometry 5 2576980378 0 0).wav_blocks = 858993460 ∧
    (chooseGeometry 5 2576980378 0 0).wav_datalen = 4 ∧
    (chooseGeometry 5 2576980378 0 0).wav_datalen ≠
      (chooseGeometry 5 2576980378 0 0).wav_blocks * (1 + 4) := by
  decide

/-- C5, amended: for every 32-bit sample count `n` and every supplied block size `B` in
[4,32771] (payload `p = B - 4`), the computed geometry has payload `p`, block count the
least `b` with `b * (2p+1) >= n` (that is `ceil(n / (2p+1))`), and data length
`blocks * (p+4)` reduced modulo 2^32, which is `blocks * (p+4)` itself whenever
`n < 2^30`. -/
theorem fixed_blocksize_geometry (B : Int) (n u0 u1 : Nat) (h4 : 4 ≤ B) (hB : B ≤ 32771)
    (hn : n < U32) :
    (chooseGeometry B n u0 u1).wav_blocksize = (B - 4).toNat ∧
    (chooseGeometry B n u0 u1).wav_blocks = blocksFor n (B - 4).toNat ∧
    n ≤ (chooseGeometry B n u0 u1).wav_blocks * (2 * (B - 4).toNat + 1) ∧
    (∀ b, n ≤ b * (2 * (B - 4).toNat + 1) → (chooseGeometry B n u0 u1).wav_blocks ≤ b) ∧
    (chooseGeometry B n u0 u1).wav_datalen =
      ((chooseGeometry B n u0 u1).wav_blocks * ((B - 4).toNat + 4)) % U32 ∧
    (n < 1073741824 → (chooseGeometry B n u0 u1).wav_datalen =
      (chooseGeometry B n u0 u1).wav_blocks * ((B - 4).toNat + 4)) := by
  rw [chooseGeometry_fixed B n u0 u1 h4, fixedGeometry_eq B n h4 hB hn]
  refine ⟨rfl, rfl, blocksFor_covers n _, fun b hb => (blocksFor_le_iff n _ b).2 hb, rfl, ?_⟩
  intro hs
  have := dataBytes_small n ((B - 4).toNat + 4) hs (by omega) (by omega)
  simp only [Nat.add_sub_cancel] at this
  simp only
  rw [Nat.mod_eq_of_lt]
  rw [Nat.mul_comm]; exact this

/-- Witness for C5 (amended): the default block size 512 with 500 samples. -/
theorem fixed_blocksize_geometry_witness :
    (4 : Int) ≤ 512 ∧ (512 : Int) ≤ 32771 ∧ 500 < U32 ∧
    (chooseGeometry 512 500 0 0).wav_blocksize = ((512 : Int) - 4).toNat ∧
    (chooseGeometry 512 500 0 0).wav_blocks = blocksFor 500 ((512 : Int) - 4).toNat ∧
    500 ≤ (chooseGeometry 512 500 0 0).wav_blocks * (2 * ((512 : Int) - 4).toNat + 1) ∧
    (∀ b, 500 ≤ b * (2 * ((512 : Int) - 4).toNat + 1) →
      (chooseGeometry 512 500 0 0).wav_blocks ≤ b) ∧
    (chooseGeometry 512 500 0 0).wav_datalen =
      ((chooseGeometry 512 500 0 0).wav_blocks * (((512 : Int) - 4).toNat + 4)) % U32 ∧
    (500 < 1073741824 → (chooseGeometry 512 500 0 0).wav_datalen =
      (chooseGeometry 512 500 0 0).wav_blocks * (((512 : Int) - 4).toNat + 4)) :=
  ⟨by decide, by decide, by decide,
   fixed_blocksize_geometry 512 500 0 0 (by decide) (by decide) (by decide)⟩

/-- C6: smallest-constrained policy (`-b -1`).  For every sample count `n < 2^30` the
search returns a payload `p` with `p+4` a multiple of 4 in [8,2760], block count
`blocks(p)` and data length `blocks(p) * (p+4)`, such that `blocks(p) * (p+4)` is minimal
over all candidates `q` and `p` is the smallest payload attaining the minimum. -/
theorem smallest_constrained_search (n u0 u1 : Nat) (hn : n < 1073741824) :
    ∃ p, (8 ≤ p + 4 ∧ p + 4 ≤ 2760 ∧ (p + 4) % 4 = 0) ∧
      chooseGeometry (-1) n u0 u1 =
        { wav_blocksize := p, wav_blocks := blocksFor n p, wav_datalen := dataBytesFor n p } ∧
      ∀ q, 8 ≤ q + 4 → q + 4 ≤ 2760 → (q + 4) % 4 = 0 →
        dataBytesFor n p ≤ dataBytesFor n q ∧
        (dataBytesFor n q = dataBytesFor n p → p ≤ q) := by
  obtain ⟨p, hp, hg, hmin⟩ := chooseGeometry_acm n u0 u1 hn
  exact ⟨p, (mem_candidatesACM _).1 hp, hg,
    fun q h1 h2 h3 => hmin q ((mem_candidatesACM _).2 ⟨h1, h2, h3⟩)⟩

/-- Witness for C6: 500 samples. -/
theorem smallest_constrained_search_witness :
    (500 : Nat) < 1073741824 ∧
    ∃ p, (8 ≤ p + 4 ∧ p + 4 ≤ 2760 ∧ (p + 4) % 4 = 0) ∧
      chooseGeometry (-1) 500 0 0 =
        { wav_blocksize := p, wav_blocks := blocksFor 500 p
          wav_datalen := dataBytesFor 500 p } ∧
      ∀ q, 8 ≤ q + 4 → q + 4 ≤ 2760 → (q + 4) % 4 = 0 →
        dataBytesFor 500 p ≤ dataBytesFor 500 q ∧
        (dataBytesFor 500 q = dataBytesFor 500 p → p ≤ q) :=
  ⟨by decide, smallest_constrained_search 500 0 0 (by decide)⟩

/-- C7: smallest-unconstrained policy (`-b -2`).  For every sample count `n < 2^30` the
search returns a payload `p` in [0,32767], block count `blocks(p)` and data length
`blocks(p) * (p+4)`, such that `blocks(p) * (p+4)` is minimal over all `q` in [0,32767]
and `p` is the smallest payload attaining the minimum. -/
theorem smallest_unconstrained_search (n u0 u1 : Nat) (hn : n < 1073741824) :
    ∃ p, p ≤ 32767 ∧
      chooseGeometry (-2) n u0 u1 =
        { wav_blocksize := p, wav_blocks := blocksFor n p, wav_datalen := dataBytesFor n p } ∧
      ∀ q, q ≤ 32767 →
        dataBytesFor n p ≤ dataBytesFor n q ∧
        (dataBytesFor n q = dataBytesFor n p → p ≤ q) := by
  obtain ⟨p, hp, hg, hmin⟩ := chooseGeometry_all n u0 u1 hn
  have := (mem_candidatesAll _).1 hp
  exact ⟨p, by omega, hg, fun q h1 => hmin q ((mem_candidatesAll _).2 (by omega))⟩

/-- Witness for C7: 500 samples. -/
theorem smallest_unconstrained_search_witness :
    (500 : Nat) < 1073741824 ∧
    ∃ p, p ≤ 32767 ∧
      chooseGeometry (-2) 500 0 0 =
        { wav_blocksize := p, wav_blocks := blocksFor 500 p
          wav_datalen := dataBytesFor 500 p } ∧
      ∀ q, q ≤ 32767 →
        dataBytesFor 500 p ≤ dataBytesFor 500 q ∧
        (dataBytesFor 500 q = dataBytesFor 500 p → p ≤ q) :=
  ⟨by decide, smallest_unconstrained_search 500 0 0 (by decide)⟩

/-- C8: geometry edge cases under every policy (a fixed block size in [4,32771], that is
a payload in [0,32767]; smallest-constrained; smallest-unconstrained): for 0 samples the
block count is 0 and the data length is 0; for 1 sample the block count is 1. -/
theorem geometry_edge_cases (B : Int) (u0 u1 : Nat)
    (hB : B = -1 ∨ B = -2 ∨ (4 ≤ B ∧ B ≤ 32771)) :
    (chooseGeometry B 0 u0 u1).wav_blocks = 0 ∧
    (chooseGeometry B 0 u0 u1).wav_datalen = 0 ∧
    (chooseGeometry B 1 u0 u1).wav_blocks = 1 := by
  rcases hB with h | h | ⟨h4, h5⟩
  · subst h
    obtain ⟨p, _, hg, _⟩ := chooseGeometry_acm 0 u0 u1 (by omega)
    obtain ⟨q, _, hg1, _⟩ := chooseGeometry_acm 1 u0 u1 (by omega)
    rw [hg, hg1]
    simp [dataBytesFor, blocksFor_zero, blocksFor_one]
  · subst h
    obtain ⟨p, _, hg, _⟩ := chooseGeometry_all 0 u0 u1 (by omega)
    obtain ⟨q, _, hg1, _⟩ := chooseGeometry_all 1 u0 u1 (by omega)
    rw [hg, hg1]
    simp [dataBytesFor, blocksFor_zero, blocksFor_one]
  · rw [chooseGeometry_fixed B 0 u0 u1 h4, chooseGeometry_fixed B 1 u0 u1 h4,
      fixedGeometry_eq B 0 h4 h5 (by decide), fixedGeometry_eq B 1 h4 h5 (by decide)]
    simp [blocksFor_zero, blocksFor_one]

/-- Witness for C8: the default block size 512. -/
theorem geometry_edge_cases_witness :
    ((512 : Int) = -1 ∨ (512 : Int) = -2 ∨ ((4 : Int) ≤ 512 ∧ (512 : Int) ≤ 32771)) ∧
    (chooseGeometry 512 0 0 0).wav_blocks = 0 ∧
    (chooseGeometry 512 0 0 0).wav_datalen = 0 ∧
    (chooseGeometry 512 1 0 0).wav_blocks = 1 :=
  ⟨by decide, geometry_edge_cases 512 0 0 (by decide)⟩

/-- C9: the geometry is monotonic in the payload size: for every 32-bit sample count `n`
and all payload sizes `p <= q` in [0,32767], the block count computed for `q` is not
larger than the block count computed for `p`, and both are the ceilings
`ceil(n / (2q+1)) <= ceil(n / (2p+1))`. -/
theorem blocks_monotonic_in_payload (n p q u0 u1 : Nat) (hn : n < U32) (hpq : p ≤ q)
    (hq : q ≤ 32767) :
    (chooseGeometry ((q : Int) + 4) n u0 u1).wav_blocks ≤
      (chooseGeometry ((p : Int) + 4) n u0 u1).wav_blocks ∧
    (chooseGeometry ((q : Int) + 4) n u0 u1).wav_blocks = blocksFor n q ∧
    (chooseGeometry ((p : Int) + 4) n u0 u1).wav_blocks = blocksFor n p ∧
    blocksFor n q ≤ blocksFor n p := by
  have e1 : ((q : Int) + 4 - 4).toNat = q := by omega
  have e2 : ((p : Int) + 4 - 4).toNat = p := by omega
  rw [chooseGeometry_fixed _ n u0 u1 (by omega), chooseGeometry_fixed _ n u0 u1 (by omega),
    fixedGeometry_eq _ n (by omega) (by omega) hn,
    fixedGeometry_eq _ n (by omega) (by omega) hn, e1, e2]
  exact ⟨blocksFor_mono n p q hpq, rfl, rfl, blocksFor_mono n p q hpq⟩

/-- Witness for C9: 500 samples, payloads 4 and 508. -/
theorem blocks_monotonic_in_payload_witness :
    500 < U32 ∧ (4 : Nat) ≤ 508 ∧ (508 : Nat) ≤ 32767 ∧
    (chooseGeometry (((508 : Nat) : Int) + 4) 500 0 0).wav_blocks ≤
      (chooseGeometry (((4 : Nat) : Int) + 4) 500 0 0).wav_blocks ∧
    (chooseGeometry (((508 : Nat) : Int) + 4) 500 0 0).wav_blocks = blocksFor 500 508 ∧
    (chooseGeometry (((4 : Nat) : Int) + 4) 500 0 0).wav_blocks = blocksFor 500 4 ∧
    blocksFor 500 508 ≤ blocksFor 500 4 :=
  ⟨by decide, by decide, by decide,
   blocks_monotonic_in_payload 500 4 508 0 0 (by decide) (by decide) (by decide)⟩

/-! ### The first read-through -/

theorem parse_blockHeaderOf (e d : Nat) (he : e < 65536) (rest : List Nat) :
    parseBlockHeader ((blockHeaderOf e d ++ rest).take 8) =
      { encsize := e, decsize := d % 256 + 256 * (d / 256 % 256), deaf := 0xDEAF, zero := 0 } := by
  simp only [blockHeaderOf, parseBlockHeader, u16, List.cons_append, List.take_succ_cons,
    List.take_zero, List.getD_cons_zero, List.getD_cons_succ, List.nil_append]
  congr 1
  omega

theorem scanLoop_block (fuel : Nat) (d : Nat) (payload rest : List Nat) (s : ScanState)
    (he : payload.length < 65536) :
    scanLoop (fuel + 1) (blockHeaderOf payload.length d ++ payload ++ rest) s =
      scanLoop fuel rest
        { blocks := (s.blocks + 1) % U32
          adpcm_bytes := (s.adpcm_bytes + payload.length) % U32
          first_block_size := if s.blocks = 0 then payload.length else s.first_block_size
          diag := s.diag } := by
  have hp := parse_blockHeaderOf payload.length d he (payload ++ rest)
  have hl : ((blockHeaderOf payload.length d ++ (payload ++ rest)).take 8).length = 8 := by
    simp [blockHeaderOf]
  have hd : (blockHeaderOf payload.length d ++ (payload ++ rest)).drop 8 = payload ++ rest := by
    simp [blockHeaderOf]
  rw [List.append_assoc, scanLoop]
  simp only [hl, hp, hd]
  simp

theorem scanLoop_blocks (bs : List (Nat × List Nat)) :
    ∀ (fuel : Nat) (tail : List Nat) (s : ScanState),
      (∀ b ∈ bs, b.2.length < 65536) →
      scanLoop (fuel + bs.length) (serializeBlocks bs ++ tail) s =
        scanLoop fuel tail (countBlocks s bs) := by
  induction bs with
  | nil => intro fuel tail s _; simp [serializeBlocks, countBlocks]
  | cons b rest ih =>
    intro fuel tail s h
    obtain ⟨d, payload⟩ := b
    have he : payload.length < 65536 := h (d, payload) (List.mem_cons_self _ _)
    rw [List.length_cons, ← Nat.add_assoc]
    simp only [serializeBlocks, countBlocks]
    rw [List.append_assoc, scanLoop_block _ d payload _ s he,
      ih fuel tail _ (fun b hb => h b (List.mem_cons_of_mem _ hb))]

theorem serializeBlocks_length (bs : List (Nat × List Nat)) :
    (serializeBlocks bs).length = 8 * bs.length + totalPayload bs := by
  induction bs with
  | nil => rfl
  | cons b rest ih =>
    obtain ⟨d, payload⟩ := b
    simp only [serializeBlocks, List.length_append, ih, blockHeaderOf, totalPayload,
      List.length_cons, List.length_nil, List.map_cons, List.sum_cons]
    omega

theorem countBlocks_eq (bs : List (Nat × List Nat)) :
    ∀ s : ScanState, s.blocks + bs.length < U32 → s.adpcm_bytes + totalPayload bs < U32 →
      countBlocks s bs =
        { blocks := s.blocks + bs.length
          adpcm_bytes := s.adpcm_bytes + totalPayload bs
          first_block_size :=
            if s.blocks = 0 then (bs.head?.map (fun b => b.2.length)).getD s.first_block_size
            else s.first_block_size
          diag := s.diag } := by
  induction bs with
  | nil => intro s _ _; simp [countBlocks, totalPayload]
  | cons b rest ih =>
    intro s h1 h2
    obtain ⟨d, payload⟩ := b
    have hU : U32 = 4294967296 := rfl
    simp only [totalPayload, List.map_cons, List.sum_cons, List.length_cons] at h1 h2
    have e1 : (s.blocks + 1) % U32 = s.blocks + 1 := Nat.mod_eq_of_lt (by omega)
    have e2 : (s.adpcm_bytes + payload.length) % U32 = s.adpcm_bytes + payload.length :=
      Nat.mod_eq_of_lt (by omega)
    simp only [countBlocks, e1, e2]
    rw [ih _ (by simp only []; omega) (by simp only [totalPayload]; omega)]
    simp only [totalPayload, List.map_cons, List.sum_cons, List.length_cons, List.head?_cons,
      Option.map_some', Option.getD_some]
    congr 1
    · omega
    · omega

/-- The scan of a well-formed block stream followed by `tail`, for a stream shorter
than 2^31 bytes: the loop reaches `tail` with the counters of the blocks. -/
theorem scan_wellformed (bs : List (Nat × List Nat)) (tail : List Nat) (f0 : Nat)
    (h : ∀ b ∈ bs, b.2.length < 65536)
    (hsize : (serializeBlocks bs ++ tail).length < 2147483648) :
    scan (serializeBlocks bs ++ tail) f0 =
      scanLoop (7 * bs.length + totalPayload bs + tail.length + 1) tail
        { blocks := bs.length
          adpcm_bytes := totalPayload bs
          first_block_size := (bs.head?.map (fun b => b.2.length)).getD f0
          diag := none } := by
  have hU : U32 = 4294967296 := rfl
  have hl := serializeBlocks_length bs
  rw [List.length_append, hl] at hsize
  unfold scan
  rw [List.length_append, hl,
    show 8 * bs.length + totalPayload bs + tail.length + 1 =
      (7 * bs.length + totalPayload bs + tail.length + 1) + bs.length by omega,
    scanLoop_blocks bs _ tail _ h,
    countBlocks_eq bs _ (by simp only []; omega) (by simp only []; omega)]
  simp

theorem scanLoop_total (fuel : Nat) :
    ∀ (rest : List Nat) (s : ScanState), rest.length < fuel →
      ∃ r, scanLoop fuel rest s = some r := by
  induction fuel with
  | zero => intro rest s h; omega
  | succ fuel ih =>
    intro rest s h
    rw [scanLoop]
    simp only
    split_ifs with h1 h2 h3 h4
    all_goals first
      | exact ⟨_, rfl⟩
      | (apply ih
         simp only [List.length_take] at h1 h2
         simp only [List.length_drop]
         omega)

theorem scan_total (stream : List Nat) (f0 : Nat) : ∃ s, scan stream f0 = some s :=
  scanLoop_total _ stream _ (Nat.lt_succ_self _)

theorem processFile_zero_rate (cfg : Settings) (file : List Nat) (fmt : AudFormat)
    (s : ScanState) (hf : detectFormat file = some fmt)
    (hs : supported (readHeader fmt file) = true)
    (hr : (readHeader fmt file).samplerate = 0)
    (hscan : scan (file.drop (readHeader fmt file).first_block_offset)
      cfg.first_block_size0 = some s) :
    processFile cfg file = some (FileResult.divisionByZero s.diag) := by
  unfold processFile
  simp only [hf, hs, hscan, hr]
  simp

theorem processFile_accepted (cfg : Settings) (file : List Nat) (fmt : AudFormat)
    (s : ScanState) (hf : detectFormat file = some fmt)
    (hs : supported (readHeader fmt file) = true)
    (hr : (readHeader fmt file).samplerate ≠ 0)
    (hscan : scan (file.drop (readHeader fmt file).first_block_offset)
      cfg.first_block_size0 = some s) :
    processFile cfg file =
      some (if cfg.decode then
        FileResult.decoded s.diag (buildPcmHeader (readHeader fmt file).samplerate s.num_samples)
          (pcmDecode cfg.use_algorithm
            (readBlocks s.blocks (file.drop (readHeader fmt file).first_block_offset)))
      else
        FileResult.remuxed s.diag
          (buildAdpcmHeader (readHeader fmt file).samplerate s.num_samples
            (chooseGeometry cfg.blocksize s.num_samples cfg.u_blocksize cfg.u_blocks))
          (remux (chooseGeometry cfg.blocksize s.num_samples cfg.u_blocksize
              cfg.u_blocks).wav_blocksize
            cfg.out_buffer0 cfg.out_odd0
            (readBlocks s.blocks (file.drop (readHeader fmt file).first_block_offset)))) := by
  unfold processFile
  simp only [hf, hs, hscan]
  split_ifs <;> simp_all

theorem scanLoop_short_tail (fuel : Nat) (tail : List Nat) (s : ScanState)
    (h1 : 1 ≤ tail.length) (h7 : tail.length ≤ 7) :
    scanLoop (fuel + 1) tail s =
      some { s with diag := some (ScanDiag.shortHeader tail.length) } := by
  have hl : (tail.take 8).length = tail.length := by
    rw [List.length_take]; omega
  rw [scanLoop]
  simp only [hl]
  rw [if_neg (by omega), if_pos (by omega)]

/-- C12, as stated, fails: after one well-formed block, 3 trailing bytes make the scan
leave the loop through the "read 3 bytes of header instead of 8" error branch. -/
theorem short_tail_is_reported :
    (scan (serializeBlocks [(4, [0x17, 0x8F])] ++ [1, 2, 3]) 0).map (fun s => s.diag) =
      some (some (ScanDiag.shortHeader 3)) ∧
    (scan (serializeBlocks [(4, [0x17, 0x8F])]) 0).map (fun s => s.diag) = some none := by
  decide

/-- C12, amended: for every well-formed block stream followed by `t` trailing bytes,
`1 <= t <= 7`, in a file shorter than 2^31 bytes, the scan leaves the loop through the
short-header error branch (diagnostic "read t bytes of header instead of 8") and returns
the same `blocks`, `adpcm_bytes`, `num_samples` and `first_block_size` as for the same
stream without the trailing bytes. -/
theorem short_tail_keeps_counts (bs : List (Nat × List Nat)) (tail : List Nat) (f0 : Nat)
    (h : ∀ b ∈ bs, b.2.length < 65536)
    (hsize : (serializeBlocks bs ++ tail).length < 2147483648)
    (h1 : 1 ≤ tail.length) (h7 : tail.length ≤ 7) :
    ∃ s s0, scan (serializeBlocks bs ++ tail) f0 = some s ∧
      scan (serializeBlocks bs) f0 = some s0 ∧
      s.diag = some (ScanDiag.shortHeader tail.length) ∧ s0.diag = none ∧
      s.blocks = s0.blocks ∧ s.adpcm_bytes = s0.adpcm_bytes ∧
      s.num_samples = s0.num_samples ∧ s.first_block_size = s0.first_block_size := by
  have e1 := scan_wellformed bs tail f0 h hsize
  have e0 := scan_wellformed bs [] f0 h
    (by rw [List.length_append] at hsize; simpa using (by omega : (serializeBlocks bs).length < 2147483648))
  rw [List.append_nil] at e0
  rw [scanLoop_short_tail _ tail _ h1 h7] at e1
  rw [e1, e0]
  exact ⟨_, { blocks := bs.length, adpcm_bytes := totalPayload bs
              first_block_size := (bs.head?.map (fun b => b.2.length)).getD f0
              diag := none },
    rfl, by simp [scanLoop], rfl, rfl, rfl, rfl, rfl, rfl⟩

/-- Witness for C12 (amended): one block of two bytes followed by three trailing bytes. -/
theorem short_tail_keeps_counts_witness :
    (∀ b ∈ [((4 : Nat), [0x17, 0x8F])], b.2.length < 65536) ∧
    (serializeBlocks [(4, [0x17, 0x8F])] ++ [1, 2, 3]).length < 2147483648 ∧
    1 ≤ [1, 2, 3].length ∧ [1, 2, 3].length ≤ 7 ∧
    ∃ s s0, scan (serializeBlocks [(4, [0x17, 0x8F])] ++ [1, 2, 3]) 0 = some s ∧
      scan (serializeBlocks [(4, [0x17, 0x8F])]) 0 = some s0 ∧
      s.diag = some (ScanDiag.shortHeader [1, 2, 3].length) ∧ s0.diag = none ∧
      s.blocks = s0.blocks ∧ s.adpcm_bytes = s0.adpcm_bytes ∧
      s.num_samples = s0.num_samples ∧ s.first_block_size = s0.first_block_size :=
  ⟨by decide, by decide, by decide, by decide,
   short_tail_keeps_counts [(4, [0x17, 0x8F])] [1, 2, 3] 0 (by decide) (by decide)
     (by decide) (by decide)⟩

/-! ### Format probing and the supported-stream check -/

theorem getD_take_drop (l : List Nat) (a b i : Nat) (hi : i < b) :
    ((l.drop a).take b).getD i 0 = l.getD (a + i) 0 := by
  simp [List.getD_eq_getElem?_getD, List.getElem?_take, hi, List.getElem?_drop]

theorem markers_at (file : List Nat) (a : Nat) :
    markersOk (parseBlockHeader ((file.drop a).take 8)) = true ↔
      wordAt file (a + 4) = 0xDEAF ∧ wordAt file (a + 6) = 0 := by
  simp [markersOk, parseBlockHeader, wordAt, getD_take_drop, Nat.add_assoc]

/-- C13: format detection, for every input of at least 20 bytes.  The result is New iff
the little-endian words at byte offsets 16 and 18 are 0xDEAF and 0x0000; otherwise it is
Old iff the words at offsets 12 and 14 are 0xDEAF and 0x0000; otherwise the file is
rejected as unknown format.  New wins when both validate; `first_block_offset` is 12 for
New and 8 for Old. -/
theorem format_detection (file : List Nat) (_hlen : 20 ≤ file.length) :
    (detectFormat file = some AudFormat.New ↔
      (wordAt file 16 = 0xDEAF ∧ wordAt file 18 = 0)) ∧
    (detectFormat file = some AudFormat.Old ↔
      (¬(wordAt file 16 = 0xDEAF ∧ wordAt file 18 = 0) ∧
        (wordAt file 12 = 0xDEAF ∧ wordAt file 14 = 0))) ∧
    (detectFormat file = none ↔
      (¬(wordAt file 16 = 0xDEAF ∧ wordAt file 18 = 0) ∧
        ¬(wordAt file 12 = 0xDEAF ∧ wordAt file 14 = 0))) ∧
    (readHeader AudFormat.New file).first_block_offset = 12 ∧
    (readHeader AudFormat.Old file).first_block_offset = 8 := by
  have hN := markers_at file 12
  have hO := markers_at file 8
  simp only [Nat.reduceAdd] at hN hO
  unfold detectFormat
  by_cases h1 : markersOk (parseBlockHeader ((file.drop 12).take 8)) = true
  · have h1' := hN.1 h1
    simp [h1, h1', readHeader]
  · have h1' : ¬(wordAt file 16 = 0xDEAF ∧ wordAt file 18 = 0) := fun h => h1 (hN.2 h)
    by_cases h2 : markersOk (parseBlockHeader ((file.drop 8).take 8)) = true
    · have h2' := hO.1 h2
      simp [h1, h2, h1', h2', readHeader]
    · have h2' : ¬(wordAt file 12 = 0xDEAF ∧ wordAt file 14 = 0) := fun h => h2 (hO.2 h)
      simp [h1, h2, h1', h2', readHeader]

/-- Witness for C13: the 30-byte file `corruptSecondHeader`. -/
theorem format_detection_witness :
    20 ≤ corruptSecondHeader.length ∧
    (detectFormat corruptSecondHeader = some AudFormat.New ↔
      (wordAt corruptSecondHeader 16 = 0xDEAF ∧ wordAt corruptSecondHeader 18 = 0)) ∧
    (detectFormat corruptSecondHeader = some AudFormat.Old ↔
      (¬(wordAt corruptSecondHeader 16 = 0xDEAF ∧ wordAt corruptSecondHeader 18 = 0) ∧
        (wordAt corruptSecondHeader 12 = 0xDEAF ∧ wordAt corruptSecondHeader 14 = 0))) ∧
    (detectFormat corruptSecondHeader = none ↔
      (¬(wordAt corruptSecondHeader 16 = 0xDEAF ∧ wordAt corruptSecondHeader 18 = 0) ∧
        ¬(wordAt corruptSecondHeader 12 = 0xDEAF ∧ wordAt corruptSecondHeader 14 = 0))) ∧
    (readHeader AudFormat.New corruptSecondHeader).first_block_offset = 12 ∧
    (readHeader AudFormat.Old corruptSecondHeader).first_block_offset = 8 :=
  ⟨by decide, format_detection corruptSecondHeader (by decide)⟩

set_option maxRecDepth 100000 in
theorem flags_mono16 : ∀ f : Nat, f < 256 →
    (((f &&& 3) = 2) ↔ (f &&& 1 = 0 ∧ f &&& 2 ≠ 0)) := by
  decide


/-! ### The remux loop -/

theorem packByte_snoc_old (blk : List Nat) (x i : Nat) (hi : 2 * i + 1 < blk.length) :
    packByte (blk ++ [x]) i = packByte blk i := by
  unfold packByte
  rw [List.getD_append _ _ _ _ (by omega), List.getD_append _ _ _ _ hi]

theorem packByte_snoc_even (blk : List Nat) (x : Nat) (he : blk.length % 2 = 0) :
    packByte (blk ++ [x]) (blk.length / 2) = x := by
  unfold packByte
  have e1 : 2 * (blk.length / 2) = blk.length := by omega
  have a : (blk ++ [x]).getD blk.length 0 = x := by
    rw [List.getD_append_right _ _ _ _ (Nat.le_refl _)]; simp
  have b : (blk ++ [x]).getD (blk.length + 1) 0 = 0 := List.getD_eq_default _ _ (by simp)
  rw [e1, a, b]
  omega

theorem packByte_snoc_odd (blk : List Nat) (x : Nat) (ho : blk.length % 2 = 1) :
    packByte (blk ++ [x]) (blk.length / 2) = packByte blk (blk.length / 2) + 16 * x := by
  unfold packByte
  have e1 : 2 * (blk.length / 2) + 1 = blk.length := by omega
  have a : (blk ++ [x]).getD blk.length 0 = x := by
    rw [List.getD_append_right _ _ _ _ (Nat.le_refl _)]; simp
  have b : (blk ++ [x]).getD (2 * (blk.length / 2)) 0 = blk.getD (2 * (blk.length / 2)) 0 :=
    List.getD_append _ _ _ _ (by omega)
  rw [e1, a, b, List.getD_eq_default blk 0 (Nat.le_refl _)]
  omega

theorem packByte_beyond (blk : List Nat) (i : Nat) (hi : blk.length ≤ 2 * i) :
    packByte blk i = 0 := by
  unfold packByte
  rw [List.getD_eq_default _ _ hi, List.getD_eq_default _ _ (by omega)]

theorem packByte_lt (blk : List Nat) (i : Nat) (h : ∀ n ∈ blk, n < 16) :
    packByte blk i < 256 := by
  have g : ∀ k, blk.getD k 0 < 16 := by
    intro k
    by_cases hk : k < blk.length
    · rw [List.getD_eq_getElem _ _ hk]
      exact h _ (List.getElem_mem _)
    · rw [List.getD_eq_default _ _ (by omega)]
      omega
  unfold packByte
  have := g (2 * i)
  have := g (2 * i + 1)
  omega

theorem packByte_low_lt (blk : List Nat) (h : ∀ n ∈ blk, n < 16) (ho : blk.length % 2 = 1) :
    packByte blk (blk.length / 2) < 16 := by
  unfold packByte
  have e1 : 2 * (blk.length / 2) + 1 = blk.length := by omega
  rw [e1, List.getD_eq_default blk 0 (Nat.le_refl _),
    List.getD_eq_getElem _ _ (by omega : 2 * (blk.length / 2) < blk.length)]
  have := h _ (List.getElem_mem (by omega : 2 * (blk.length / 2) < blk.length))
  omega

/-- The buffer after one more code has been stored holds the packed bytes of the
extended code list. -/
theorem buffer_after_store (p : Nat) (t : RemuxState) (blk : List Nat) (x : Nat)
    (hm : MidBlock p t blk) (hx : x < 16) :
    ∀ i, i < (blk.length + 2) / 2 →
      (if t.out_odd = 0 then setByte t.out_buffer t.o x
        else setByte t.out_buffer t.o (t.out_buffer t.o + (x <<< 4))) i =
        packByte (blk ++ [x]) i := by
  obtain ⟨hq, ho, hodd, hbuf, hn⟩ := hm
  intro i hi
  rw [Nat.shiftLeft_eq]
  by_cases he : blk.length % 2 = 0
  · rw [if_pos (by omega)]
    unfold setByte
    by_cases hio : i = t.o
    · rw [if_pos hio, hio, ho, packByte_snoc_even blk x he]
      omega
    · rw [if_neg hio, hbuf i (by omega), packByte_snoc_old blk x i (by omega)]
  · rw [if_neg (by omega)]
    unfold setByte
    by_cases hio : i = t.o
    · rw [if_pos hio, hio, hbuf t.o (by omega), ho, packByte_snoc_odd blk x (by omega)]
      have := packByte_low_lt blk hn (by omega)
      omega
    · rw [if_neg hio, hbuf i (by omega), packByte_snoc_old blk x i (by omega)]

theorem bufferBytes_eq (p : Nat) (buf : Nat → Nat) (blk : List Nat)
    (h : ∀ i, i < p → buf i = packByte blk i) : bufferBytes buf p = blockPayload p blk := by
  unfold bufferBytes blockPayload
  exact List.map_congr_left (fun i hi => h i (List.mem_range.1 hi))

theorem remuxNibble_header (p : Nat) (s : RemuxState) (x : Nat) (ho : s.o = NEG1) :
    MidBlock p (remuxNibble p s x) [] ∨ p = 0 := by
  by_cases hp : p = 0
  · right; exact hp
  · left
    unfold remuxNibble
    simp only [ho, if_true]
    refine ⟨by simp; omega, rfl, rfl, ?_, by simp⟩
    intro i hi
    simp at hi

theorem remuxNibble_header_wav (p : Nat) (s : RemuxState) (x : Nat) (ho : s.o = NEG1) :
    (remuxNibble p s x).wav = s.wav ++ blockHeaderBytes (ADPCM_decode_sample 0 s.adpcm x) ∧
    (remuxNibble p s x).adpcm = ADPCM_decode_sample 0 s.adpcm x := by
  unfold remuxNibble
  simp [ho]

theorem remuxNibble_mid (p : Nat) (t : RemuxState) (blk : List Nat) (x : Nat)
    (hp : p ≤ 32767) (hm : MidBlock p t blk) (hx : x < 16) (hq : blk.length + 1 < 2 * p) :
    MidBlock p (remuxNibble p t x) (blk ++ [x]) ∧ (remuxNibble p t x).wav = t.wav ∧
      (remuxNibble p t x).adpcm = ADPCM_decode_sample 0 t.adpcm x := by
  have hb := buffer_after_store p t blk x hm hx
  obtain ⟨_, ho, hodd, hbuf, hn⟩ := hm
  have hU : U32 = 4294967296 := rfl
  have hN : NEG1 = 4294967295 := rfl
  have h1 : t.o ≠ NEG1 := by omega
  have h2 : (if t.out_odd = 0 then t.o else (t.o + 1) % U32) = (blk.length + 1) / 2 := by
    rw [hU]; split_ifs <;> omega
  have h3 : (blk.length + 1) / 2 ≠ p := by omega
  have e : remuxNibble p t x =
      { adpcm := ADPCM_decode_sample 0 t.adpcm x, o := (blk.length + 1) / 2
        out_odd := if t.out_odd = 0 then 1 else 0
        out_buffer := if t.out_odd = 0 then setByte t.out_buffer t.o x
          else setByte t.out_buffer t.o (t.out_buffer t.o + (x <<< 4))
        wav := t.wav } := by
    unfold remuxNibble
    simp only [h1, if_false, h2, h3]
  rw [e]
  refine ⟨⟨by simp; omega, by simp, ?_, ?_, ?_⟩, rfl, rfl⟩
  · simp only [List.length_append, List.length_singleton]
    split_ifs <;> omega
  · intro i hi
    simp only [List.length_append, List.length_singleton] at hi
    exact hb i (by omega)
  · intro n hn'
    rcases List.mem_append.1 hn' with h | h
    · exact hn n h
    · simp at h; omega

theorem remuxNibble_complete (p : Nat) (t : RemuxState) (blk : List Nat) (x : Nat)
    (hp : p ≤ 32767) (hm : MidBlock p t blk) (hx : x < 16) (hq : blk.length + 1 = 2 * p) :
    (remuxNibble p t x).o = NEG1 ∧
      (remuxNibble p t x).wav = t.wav ++ blockPayload p (blk ++ [x]) ∧
      (remuxNibble p t x).adpcm = ADPCM_decode_sample 0 t.adpcm x := by
  have hb := buffer_after_store p t blk x hm hx
  obtain ⟨_, ho, hodd, hbuf, hn⟩ := hm
  have hU : U32 = 4294967296 := rfl
  have hN : NEG1 = 4294967295 := rfl
  have h1 : t.o ≠ NEG1 := by omega
  have h2 : (if t.out_odd = 0 then t.o else (t.o + 1) % U32) = p := by
    rw [hU]; split_ifs <;> omega
  have e : remuxNibble p t x =
      { adpcm := ADPCM_decode_sample 0 t.adpcm x, o := NEG1
        out_odd := if t.out_odd = 0 then 1 else 0
        out_buffer := memsetZero (if t.out_odd = 0 then setByte t.out_buffer t.o x
          else setByte t.out_buffer t.o (t.out_buffer t.o + (x <<< 4))) 0 p
        wav := t.wav ++ bufferBytes (if t.out_odd = 0 then setByte t.out_buffer t.o x
          else setByte t.out_buffer t.o (t.out_buffer t.o + (x <<< 4))) p } := by
    unfold remuxNibble
    simp only [h1, if_false, h2, if_true]
  rw [e]
  refine ⟨rfl, ?_, rfl⟩
  simp only
  rw [bufferBytes_eq p _ (blk ++ [x]) (fun i hi => hb i (by omega))]

theorem remuxFinish_mid (p : Nat) (t : RemuxState) (blk : List Nat) (hp : p ≤ 32767)
    (hm : MidBlock p t blk) : remuxFinish p t = t.wav ++ blockPayload p blk := by
  obtain ⟨hq, ho, hodd, hbuf, hn⟩ := hm
  have hU : U32 = 4294967296 := rfl
  have hN : NEG1 = 4294967295 := rfl
  have h1 : t.o ≠ NEG1 := by omega
  have h2 : (if t.out_odd ≠ 0 then (t.o + 1) % U32 else t.o) = (blk.length + 1) / 2 := by
    rw [hU]; split_ifs <;> omega
  unfold remuxFinish
  simp only [h1, ne_eq, not_false_eq_true, if_true]
  simp only [ne_eq] at h2
  rw [h2]
  congr 1
  apply bufferBytes_eq
  intro i hi
  unfold memsetZero
  by_cases hlt : i < (blk.length + 1) / 2
  · rw [if_neg (by omega), hbuf i hlt]
  · rw [if_pos (by omega), packByte_beyond blk i (by omega)]

theorem remux_fill (p : Nat) (hp : p ≤ 32767) (pay : List Nat) :
    ∀ (t : RemuxState) (blk : List Nat), MidBlock p t blk → (∀ n ∈ pay, n < 16) →
      blk.length + pay.length < 2 * p →
      MidBlock p (pay.foldl (remuxNibble p) t) (blk ++ pay) ∧
        (pay.foldl (remuxNibble p) t).wav = t.wav ∧
        (pay.foldl (remuxNibble p) t).adpcm = decodeState 0 t.adpcm pay := by
  induction pay with
  | nil => intro t blk hm _ _; simpa [decodeState] using hm
  | cons x rest ih =>
    intro t blk hm hn hl
    simp only [List.length_cons] at hl
    obtain ⟨h1, h2, h3⟩ := remuxNibble_mid p t blk x hp hm
      (hn x (List.mem_cons_self _ _)) (by omega)
    obtain ⟨g1, g2, g3⟩ := ih (remuxNibble p t x) (blk ++ [x]) h1
      (fun n h => hn n (List.mem_cons_of_mem _ h))
      (by simp only [List.length_append, List.length_singleton]; omega)
    rw [List.foldl_cons]
    refine ⟨by simpa using g1, by rw [g2, h2], ?_⟩
    rw [g3, h3]
    rfl

theorem remux_fill_complete (p : Nat) (hp : p ≤ 32767) (pay : List Nat) :
    ∀ (t : RemuxState) (blk : List Nat), MidBlock p t blk → (∀ n ∈ pay, n < 16) →
      blk.length + pay.length = 2 * p →
      (pay.foldl (remuxNibble p) t).o = NEG1 ∧
        (pay.foldl (remuxNibble p) t).wav = t.wav ++ blockPayload p (blk ++ pay) ∧
        (pay.foldl (remuxNibble p) t).adpcm = decodeState 0 t.adpcm pay := by
  induction pay with
  | nil =>
    intro t blk hm _ hl
    have := hm.1
    simp at hl
    omega
  | cons x rest ih =>
    intro t blk hm hn hl
    simp only [List.length_cons] at hl
    have hx := hn x (List.mem_cons_self _ _)
    rw [List.foldl_cons]
    by_cases hr : rest.length = 0
    · have hnil : rest = [] := List.length_eq_zero.1 hr
      subst hnil
      obtain ⟨h1, h2, h3⟩ := remuxNibble_complete p t blk x hp hm hx (by simp at hl; omega)
      exact ⟨by simpa using h1, by simpa using h2, by simpa [decodeState] using h3⟩
    · obtain ⟨h1, h2, h3⟩ := remuxNibble_mid p t blk x hp hm hx (by omega)
      obtain ⟨g1, g2, g3⟩ := ih (remuxNibble p t x) (blk ++ [x]) h1
        (fun n h => hn n (List.mem_cons_of_mem _ h))
        (by simp only [List.length_append, List.length_singleton]; omega)
      refine ⟨g1, ?_, ?_⟩
      · rw [g2, h2]; simp
      · rw [g3, h3]; rfl

theorem remuxBlocks_nil (p fuel : Nat) (st : DecoderState) : remuxBlocks p fuel st [] = [] := by
  cases fuel <;> rfl

/-- The remux loop followed by the final flush writes exactly the blocks of
`remuxBlocks`, for a payload size in [1,32767]. -/
theorem remux_refines (p : Nat) (h1 : 1 ≤ p) (hp : p ≤ 32767) (fuel : Nat) :
    ∀ (ns : List Nat) (s : RemuxState), ns.length ≤ fuel → s.o = NEG1 →
      (∀ n ∈ ns, n < 16) →
      remuxFinish p (ns.foldl (remuxNibble p) s) = s.wav ++ remuxBlocks p fuel s.adpcm ns := by
  induction fuel with
  | zero =>
    intro ns s hl ho _
    have : ns = [] := List.length_eq_zero.1 (by omega)
    subst this
    simp [remuxFinish, ho, remuxBlocks]
  | succ f ih =>
    intro ns s hl ho hn
    cases ns with
    | nil => simp [remuxFinish, ho, remuxBlocks]
    | cons x rest =>
      simp only [List.length_cons] at hl
      have hmid : MidBlock p (remuxNibble p s x) [] := by
        rcases remuxNibble_header p s x ho with h | h
        · exact h
        · omega
      obtain ⟨hw, ha⟩ := remuxNibble_header_wav p s x ho
      have hrest : ∀ n ∈ rest, n < 16 := fun n h => hn n (List.mem_cons_of_mem _ h)
      rw [List.foldl_cons]
      simp only [remuxBlocks]
      by_cases hlt : rest.length < 2 * p
      · obtain ⟨g1, g2, _⟩ := remux_fill p hp rest (remuxNibble p s x) [] hmid hrest
          (by simp; omega)
        rw [remuxFinish_mid p _ _ hp g1, g2, hw, List.take_of_length_le (by omega),
          List.drop_of_length_le (by omega), remuxBlocks_nil]
        simp
      · have hsplit : rest = rest.take (2 * p) ++ rest.drop (2 * p) :=
          (List.take_append_drop _ _).symm
        have htl : (rest.take (2 * p)).length = 2 * p := by
          rw [List.length_take]; omega
        obtain ⟨g1, g2, g3⟩ := remux_fill_complete p hp (rest.take (2 * p))
          (remuxNibble p s x) [] hmid (fun n h => hrest n (List.mem_of_mem_take h))
          (by simp only [List.length_nil, htl]; omega)
        have hih := ih (rest.drop (2 * p)) ((rest.take (2 * p)).foldl (remuxNibble p)
          (remuxNibble p s x)) (by rw [List.length_drop]; omega) g1
          (fun n h => hrest n (List.mem_of_mem_drop h))
        rw [← List.foldl_append, ← hsplit] at hih
        rw [hih, g2, g3, hw, ha]
        simp

theorem blockNibbles_append (a b : List Nat) :
    blockNibbles (a ++ b) = blockNibbles a ++ blockNibbles b := by
  induction a with
  | nil => rfl
  | cons x rest ih => simp [blockNibbles, ih]

theorem remuxLoop_eq (p : Nat) (blocks : List (List Nat)) :
    ∀ s : RemuxState,
      remuxLoop p s blocks = (sourceNibbles blocks).foldl (remuxNibble p) s := by
  induction blocks with
  | nil => intro s; rfl
  | cons b rest ih =>
    intro s
    have := ih ((blockNibbles b).foldl (remuxNibble p) s)
    unfold remuxLoop sourceNibbles at *
    simp only [List.foldl_cons, List.flatten_cons, blockNibbles_append, List.foldl_append]
    exact this

set_option maxRecDepth 100000 in
theorem byte_nibbles : ∀ b : Nat, b < 256 →
    (b &&& 0xF < 16 ∧ b >>> 4 < 16 ∧ (b >>> 4) &&& 0xF = b >>> 4 ∧
      (b &&& 0xF) + 16 * (b >>> 4) = b) := by
  decide

theorem blockNibbles_lt (bytes : List Nat) (h : ∀ b ∈ bytes, b < 256) :
    ∀ n ∈ blockNibbles bytes, n < 16 := by
  induction bytes with
  | nil => intro n hn; simp [blockNibbles] at hn
  | cons b rest ih =>
    intro n hn
    have hb := byte_nibbles b (h b (List.mem_cons_self _ _))
    simp only [blockNibbles, List.mem_cons] at hn
    rcases hn with h1 | h1 | h1
    · rw [h1]; exact hb.1
    · rw [h1]; exact hb.2.1
    · exact ih (fun b hb => h b (List.mem_cons_of_mem _ hb)) n h1

theorem blockNibbles_length (bytes : List Nat) :
    (blockNibbles bytes).length = 2 * bytes.length := by
  induction bytes with
  | nil => rfl
  | cons b rest ih => simp only [blockNibbles, List.length_cons, ih]; omega

/-- The remux pass writes the blocks of `remuxBlocks` over the source nibble stream. -/
theorem remux_eq_blocks (p : Nat) (buf0 : Nat → Nat) (odd0 : Nat) (blocks : List (List Nat))
    (h1 : 1 ≤ p) (hp : p ≤ 32767) (hb : ∀ b ∈ blocks.flatten, b < 256) :
    remux p buf0 odd0 blocks =
      remuxBlocks p (sourceNibbles blocks).length { index := 0, sample := 0 }
        (sourceNibbles blocks) := by
  have hn : ∀ n ∈ sourceNibbles blocks, n < 16 := blockNibbles_lt _ hb
  unfold remux
  rw [remuxLoop_eq, remux_refines p h1 hp _ (sourceNibbles blocks) _ (Nat.le_refl _) rfl hn]
  simp

/-! ### Continuous decoding -/

theorem decodeSeq_append (alg : Nat) (a : List Nat) :
    ∀ (st : DecoderState) (b : List Nat),
      decodeSeq alg st (a ++ b) = decodeSeq alg st a ++ decodeSeq alg (decodeState alg st a) b := by
  induction a with
  | nil => intro st b; rfl
  | cons x rest ih =>
    intro st b
    rw [List.cons_append]
    simp only [decodeSeq]
    rw [ih]
    rfl

theorem decodeState_append (alg : Nat) (st : DecoderState) (a b : List Nat) :
    decodeState alg st (a ++ b) = decodeState alg (decodeState alg st a) b := by
  unfold decodeState
  rw [List.foldl_append]

theorem decodeSeq_length (alg : Nat) (ns : List Nat) :
    ∀ st : DecoderState, (decodeSeq alg st ns).length = ns.length := by
  induction ns with
  | nil => intro st; rfl
  | cons x rest ih => intro st; simp [decodeSeq, ih]

theorem toShort_sample (alg : Nat) (st : DecoderState) (n : Nat) :
    toShort (ADPCM_decode_sample alg st n).sample = (ADPCM_decode_sample alg st n).sample := by
  have := decode_sample_range alg st n
  unfold toShort
  omega

theorem pcmBytes_eq (alg : Nat) (bytes : List Nat) :
    ∀ st : DecoderState, (∀ b ∈ bytes, b < 256) →
      pcmBytes alg st bytes =
        (decodeState alg st (blockNibbles bytes), decodeSeq alg st (blockNibbles bytes)) := by
  induction bytes with
  | nil => intro st _; rfl
  | cons b rest ih =>
    intro st h
    have hb := byte_nibbles b (h b (List.mem_cons_self _ _))
    simp only [pcmBytes, blockNibbles, decodeSeq, decodeState, List.foldl_cons, hb.2.2.1,
      toShort_sample, ih _ (fun b hb => h b (List.mem_cons_of_mem _ hb))]

theorem pcmBlocks_eq (alg : Nat) (blocks : List (List Nat)) :
    ∀ st : DecoderState, (∀ b ∈ blocks.flatten, b < 256) →
      pcmBlocks alg st blocks = decodeSeq alg st (sourceNibbles blocks) := by
  induction blocks with
  | nil => intro st _; rfl
  | cons blk rest ih =>
    intro st h
    have h1 : ∀ b ∈ blk, b < 256 := fun b hb => h b (by simp [hb])
    have h2 : ∀ b ∈ rest.flatten, b < 256 := fun b hb => h b (by
      simp only [List.flatten_cons, List.mem_append]; exact Or.inr hb)
    have e := ih (decodeState alg st (blockNibbles blk)) h2
    unfold sourceNibbles at *
    simp only [pcmBlocks, pcmBytes_eq alg blk st h1, List.flatten_cons, blockNibbles_append,
      decodeSeq_append, e]

theorem sourceNibbles_length (blocks : List (List Nat)) :
    (sourceNibbles blocks).length = 2 * (blocks.map List.length).sum := by
  unfold sourceNibbles
  rw [blockNibbles_length, List.length_flatten]

/-! ### The blocks written by the remux pass -/

theorem blockHeaderBytes_length (st : DecoderState) : (blockHeaderBytes st).length = 4 := rfl

theorem blockPayload_length (p : Nat) (ns : List Nat) : (blockPayload p ns).length = p := by
  simp [blockPayload]

theorem blocksFor_cons (r p : Nat) : blocksFor (r + 1) p = blocksFor (r - 2 * p) p + 1 := by
  unfold blocksFor
  by_cases h : r ≤ 2 * p
  · have a : (0 + 2 * p) / (2 * p + 1) = 0 := Nat.div_eq_of_lt (by omega)
    have b : (r + 1 + 2 * p) / (2 * p + 1) = 1 := Nat.div_eq_of_lt_le (by omega) (by omega)
    rw [show r - 2 * p = 0 by omega, a, b]
  · rw [show r + 1 + 2 * p = (r - 2 * p + 2 * p) + (2 * p + 1) by omega,
      Nat.add_div_right _ (by omega)]

theorem remuxBlocks_length (p : Nat) (fuel : Nat) :
    ∀ (st : DecoderState) (ns : List Nat), ns.length ≤ fuel →
      (remuxBlocks p fuel st ns).length = blocksFor ns.length p * (p + 4) := by
  induction fuel with
  | zero =>
    intro st ns h
    have : ns = [] := List.length_eq_zero.1 (by omega)
    subst this
    simp [remuxBlocks, blocksFor_zero]
  | succ f ih =>
    intro st ns h
    cases ns with
    | nil => simp [remuxBlocks, blocksFor_zero]
    | cons x rest =>
      simp only [List.length_cons] at h
      simp only [remuxBlocks, List.length_append, blockHeaderBytes_length, blockPayload_length,
        List.length_cons, blocksFor_cons]
      rw [ih _ _ (by rw [List.length_drop]; omega), List.length_drop]
      ring

/-- Block number `j` of the remux output: its header holds the decoder state reached
after `j * (2p+1) + 1` source nibbles, its payload packs the next `2p` nibbles. -/
theorem remuxBlocks_block (p : Nat) (j : Nat) :
    ∀ (fuel : Nat) (st : DecoderState) (ns : List Nat), ns.length ≤ fuel →
      j * (2 * p + 1) < ns.length →
      wavBlock p (remuxBlocks p fuel st ns) j =
        blockHeaderBytes (decodeState 0 st (ns.take (j * (2 * p + 1) + 1))) ++
          blockPayload p ((ns.drop (j * (2 * p + 1) + 1)).take (2 * p)) := by
  induction j with
  | zero =>
    intro fuel st ns hl hj
    cases ns with
    | nil => simp at hj
    | cons x rest =>
      cases fuel with
      | zero => simp at hl
      | succ f =>
        unfold wavBlock
        simp only [remuxBlocks, Nat.zero_mul, List.drop_zero, Nat.zero_add, List.take_succ_cons,
          List.take_zero, List.drop_succ_cons, decodeState, List.foldl_cons, List.foldl_nil]
        rw [List.take_left' (by
          rw [List.length_append, blockHeaderBytes_length, blockPayload_length]; omega)]
  | succ j ih =>
    intro fuel st ns hl hj
    cases ns with
    | nil => simp at hj
    | cons x rest =>
      cases fuel with
      | zero => simp at hl
      | succ f =>
        simp only [List.length_cons] at hl hj
        have hlen : 2 * p < rest.length := by
          have : (j + 1) * (2 * p + 1) = j * (2 * p + 1) + (2 * p + 1) := by ring
          omega
        have e1 : (j + 1) * (2 * p + 1) + 1 = (j * (2 * p + 1) + 1) + 2 * p + 1 := by ring
        have e2 : (j + 1) * (p + 4) = (4 + p) + j * (p + 4) := by ring
        have hI := ih f (decodeState 0 (ADPCM_decode_sample 0 st x) (rest.take (2 * p)))
          (rest.drop (2 * p)) (by rw [List.length_drop]; omega)
          (by rw [List.length_drop]
              have : (j + 1) * (2 * p + 1) = j * (2 * p + 1) + (2 * p + 1) := by ring
              omega)
        unfold wavBlock at hI ⊢
        simp only [remuxBlocks]
        rw [e2, ← List.drop_drop, List.drop_left' (by
          rw [List.length_append, blockHeaderBytes_length, blockPayload_length]), hI, e1,
          List.take_succ_cons, List.drop_succ_cons]
        congr 1
        · congr 1
          have : rest.take (j * (2 * p + 1) + 1 + 2 * p) =
              rest.take (2 * p) ++ (rest.drop (2 * p)).take (j * (2 * p + 1) + 1) := by
            rw [show j * (2 * p + 1) + 1 + 2 * p = 2 * p + (j * (2 * p + 1) + 1) by omega,
              List.take_add]
          rw [this]
          simp only [decodeState, List.foldl_cons, List.foldl_append]
        · rw [List.drop_drop, Nat.add_comm]

/-! ### Decoding the remux output back -/

set_option maxRecDepth 100000 in
theorem pack_nibbles : ∀ a : Nat, a < 16 → ∀ b : Nat, b < 16 →
    ((a + 16 * b) &&& 0xF = a ∧ (a + 16 * b) >>> 4 = b) := by
  decide

theorem getD_lt16 (ns : List Nat) (h : ∀ n ∈ ns, n < 16) (k : Nat) : ns.getD k 0 < 16 := by
  by_cases hk : k < ns.length
  · rw [List.getD_eq_getElem _ _ hk]
    exact h _ (List.getElem_mem _)
  · rw [List.getD_eq_default _ _ (by omega)]
    omega

theorem blockNibbles_payload (pay : List Nat) (h : ∀ n ∈ pay, n < 16) (p : Nat) :
    blockNibbles (blockPayload p pay) = (List.range (2 * p)).map (fun k => pay.getD k 0) := by
  induction p with
  | zero => rfl
  | succ p ih =>
    have e := pack_nibbles _ (getD_lt16 pay h (2 * p)) _ (getD_lt16 pay h (2 * p + 1))
    unfold blockPayload at *
    rw [List.range_succ, List.map_append, blockNibbles_append, ih,
      show 2 * (p + 1) = (2 * p + 1) + 1 by omega, List.range_succ, List.range_succ]
    simp only [List.map_append, List.map_cons, List.map_nil, blockNibbles, packByte, e.1, e.2,
      List.append_assoc, List.cons_append, List.nil_append]

theorem range_getD (pay : List Nat) (m : Nat) (h : pay.length ≤ m) :
    (List.range m).map (fun k => pay.getD k 0) = pay ++ List.replicate (m - pay.length) 0 := by
  apply List.ext_getElem
  · simp; omega
  · intro k h1 h2
    simp only [List.length_map, List.length_range] at h1
    rw [List.getElem_map, List.getElem_range]
    by_cases hk : k < pay.length
    · rw [List.getElem_append_left hk, List.getD_eq_getElem _ _ hk]
    · rw [List.getElem_append_right (by omega), List.getElem_replicate,
        List.getD_eq_default _ _ (by omega)]

theorem wavDecodeBlock_block (st : DecoderState) (hv : st.Valid) (payload : List Nat) :
    wavDecodeBlock (blockHeaderBytes st ++ payload) =
      st.sample :: decodeSeq 0 st (blockNibbles payload) := by
  obtain ⟨h0, h88, h1, h2⟩ := hv
  have es : shortOfBytes ((st.sample % 65536).toNat % 256) ((st.sample % 65536).toNat / 256) =
      st.sample := by
    unfold shortOfBytes u16
    split_ifs <;> omega
  have ei : (((st.index % 256).toNat : Nat) : Int) = st.index := by omega
  unfold wavDecodeBlock blockHeaderBytes
  simp only [List.cons_append, List.getD_cons_zero, List.getD_cons_succ, List.drop_succ_cons,
    List.drop_zero, List.nil_append, es, ei]

/-- Decoding the blocks written for the nibbles `ns` gives back, on the first
`ns.length` samples, the continuous decoding of `ns`. -/
theorem wavDecode_remuxBlocks (p : Nat) (fuel : Nat) :
    ∀ (st : DecoderState) (ns : List Nat), st.Valid → ns.length ≤ fuel →
      (∀ n ∈ ns, n < 16) →
      (wavDecodeBlocks p (blocksFor ns.length p) (remuxBlocks p fuel st ns)).take ns.length =
        decodeSeq 0 st ns := by
  induction fuel with
  | zero =>
    intro st ns _ hl _
    have : ns = [] := List.length_eq_zero.1 (by omega)
    subst this
    simp [decodeSeq]
  | succ f ih =>
    intro st ns hv hl hn
    cases ns with
    | nil => simp [decodeSeq]
    | cons x rest =>
      simp only [List.length_cons] at hl
      have hx := hn x (List.mem_cons_self _ _)
      have hrest : ∀ n ∈ rest, n < 16 := fun n h => hn n (List.mem_cons_of_mem _ h)
      have hv1 := decode_valid 0 st x hv hx
      have htake : ∀ n ∈ rest.take (2 * p), n < 16 := fun n h => hrest n (List.mem_of_mem_take h)
      have hv2 := decodeState_valid 0 (rest.take (2 * p)) _ hv1 htake
      have hI := ih (decodeState 0 (ADPCM_decode_sample 0 st x) (rest.take (2 * p)))
        (rest.drop (2 * p)) hv2 (by rw [List.length_drop]; omega)
        (fun n h => hrest n (List.mem_of_mem_drop h))
      have hlen : (blockHeaderBytes (ADPCM_decode_sample 0 st x) ++
          blockPayload p (rest.take (2 * p))).length = p + 4 := by
        rw [List.length_append, blockHeaderBytes_length, blockPayload_length]; omega
      have hpl : (rest.take (2 * p)).length ≤ 2 * p := by
        rw [List.length_take]; omega
      simp only [List.length_cons, blocksFor_cons, remuxBlocks, wavDecodeBlocks]
      rw [List.take_left' hlen, List.drop_left' hlen, wavDecodeBlock_block _ hv1,
        blockNibbles_payload _ htake, range_getD _ _ hpl, decodeSeq_append, List.cons_append,
        List.take_succ_cons, List.append_assoc]
      simp only [decodeSeq]
      congr 1
      rw [List.length_drop] at hI
      by_cases hlt : rest.length ≤ 2 * p
      · rw [List.take_of_length_le hlt] at hI ⊢
        rw [List.take_left' (decodeSeq_length 0 rest _)]
      · have hl2 : (rest.take (2 * p)).length = 2 * p := by rw [List.length_take]; omega
        rw [hl2, Nat.sub_self, List.replicate_zero]
        simp only [decodeSeq, List.nil_append]
        generalize wavDecodeBlocks p (blocksFor (rest.length - 2 * p) p)
          (remuxBlocks p f (decodeState 0 (ADPCM_decode_sample 0 st x) (rest.take (2 * p)))
            (rest.drop (2 * p))) = W at hI ⊢
        rw [List.take_append_eq_append_take, decodeSeq_length, hl2,
          List.take_of_length_le (by rw [decodeSeq_length, hl2]; omega), hI,
          ← decodeSeq_append, List.take_append_drop]

theorem remux_length (p : Nat) (buf0 : Nat → Nat) (odd0 : Nat) (blocks : List (List Nat))
    (h1 : 1 ≤ p) (hp : p ≤ 32767) (hb : ∀ b ∈ blocks.flatten, b < 256) :
    (remux p buf0 odd0 blocks).length = blocksFor (sourceNibbles blocks).length p * (p + 4) := by
  rw [remux_eq_blocks p buf0 odd0 blocks h1 hp hb, remuxBlocks_length p _ _ _ (Nat.le_refl _)]

theorem wavDecode_remux (p : Nat) (buf0 : Nat → Nat) (odd0 : Nat) (blocks : List (List Nat))
    (h1 : 1 ≤ p) (hp : p ≤ 32767) (hb : ∀ b ∈ blocks.flatten, b < 256) :
    (wavDecode p (remux p buf0 odd0 blocks)).take (sourceNibbles blocks).length =
      decodeSeq 0 { index := 0, sample := 0 } (sourceNibbles blocks) := by
  have hl := remux_length p buf0 odd0 blocks h1 hp hb
  unfold wavDecode
  rw [hl, Nat.mul_div_cancel _ (by omega), remux_eq_blocks p buf0 odd0 blocks h1 hp hb]
  exact wavDecode_remuxBlocks p _ _ _ initial_valid (Nat.le_refl _) (blockNibbles_lt _ hb)

theorem payloadNibble_remux (p : Nat) (buf0 : Nat → Nat) (odd0 : Nat)
    (blocks : List (List Nat)) (h1 : 1 ≤ p) (hp : p ≤ 32767)
    (hb : ∀ b ∈ blocks.flatten, b < 256) (j k : Nat)
    (hj : j * (2 * p + 1) < (sourceNibbles blocks).length) (hk : k < 2 * p) :
    payloadNibble (wavBlock p (remux p buf0 odd0 blocks) j) k =
      (sourceNibbles blocks).getD (j * (2 * p + 1) + 1 + k) 0 := by
  have hn : ∀ n ∈ sourceNibbles blocks, n < 16 := blockNibbles_lt _ hb
  have hpay : ∀ n ∈ ((sourceNibbles blocks).drop (j * (2 * p + 1) + 1)).take (2 * p), n < 16 :=
    fun n h => hn n (List.mem_of_mem_drop (List.mem_of_mem_take h))
  rw [remux_eq_blocks p buf0 odd0 blocks h1 hp hb,
    remuxBlocks_block p j _ _ _ (Nat.le_refl _) hj]
  have hget : ∀ i, i < p →
      (blockHeaderBytes (decodeState 0 { index := 0, sample := 0 }
          ((sourceNibbles blocks).take (j * (2 * p + 1) + 1))) ++
        blockPayload p (((sourceNibbles blocks).drop (j * (2 * p + 1) + 1)).take (2 * p))).getD
          (4 + i) 0 =
        packByte (((sourceNibbles blocks).drop (j * (2 * p + 1) + 1)).take (2 * p)) i := by
    intro i hi
    rw [List.getD_append_right _ _ _ _ (by rw [blockHeaderBytes_length]; omega),
      blockHeaderBytes_length, Nat.add_sub_cancel_left,
      List.getD_eq_getElem _ _ (by rw [blockPayload_length]; exact hi)]
    simp [blockPayload]
  have e := pack_nibbles _ (getD_lt16 _ hpay (2 * (k / 2))) _
    (getD_lt16 _ hpay (2 * (k / 2) + 1))
  unfold payloadNibble
  rw [hget (k / 2) (by omega)]
  unfold packByte
  split_ifs with h2
  · rw [e.1, getD_take_drop _ _ _ _ (by omega)]
    congr 1
    omega
  · rw [e.2, getD_take_drop _ _ _ _ (by omega)]
    congr 1
    omega

/-- C3: remux round trip.  For every source stream (bytes below 256, low nibble of each
byte first) and every payload size `p` in [1,32767], decoding the remux output block by
block and keeping the first `n` samples gives, sample for sample, the PCM sequence of the
continuous decoding of the source with algorithm 0 from state (0,0); and the header of
output block `j` holds the decoder state reached after exactly `j * (2p+1) + 1` source
nibbles. -/
theorem remux_round_trip (p : Nat) (buf0 : Nat → Nat) (odd0 : Nat) (blocks : List (List Nat))
    (h1 : 1 ≤ p) (hp : p ≤ 32767) (hb : ∀ b ∈ blocks.flatten, b < 256) :
    (wavDecode p (remux p buf0 odd0 blocks)).take (sourceNibbles blocks).length =
      pcmDecode 0 blocks ∧
    (∀ j, j * (2 * p + 1) < (sourceNibbles blocks).length →
      (wavBlock p (remux p buf0 odd0 blocks) j).take 4 =
        blockHeaderBytes (decodeState 0 { index := 0, sample := 0 }
          ((sourceNibbles blocks).take (j * (2 * p + 1) + 1)))) := by
  constructor
  · rw [wavDecode_remux p buf0 odd0 blocks h1 hp hb]
    unfold pcmDecode
    rw [pcmBlocks_eq 0 blocks _ hb]
  · intro j hj
    rw [remux_eq_blocks p buf0 odd0 blocks h1 hp hb,
      remuxBlocks_block p j _ _ _ (Nat.le_refl _) hj, List.take_left' (blockHeaderBytes_length _)]

theorem scenarioBlocks_bytes : ∀ b ∈ scenarioBlocks.flatten, b < 256 := by
  intro b hb
  simp only [scenarioBlocks, List.flatten_cons, List.flatten_nil, List.mem_append,
    List.mem_replicate, List.not_mem_nil, or_false] at hb
  omega

theorem scenarioBlocks_length : (sourceNibbles scenarioBlocks).length = 500 := by
  rw [sourceNibbles_length]
  simp [scenarioBlocks]

/-- Witness for C3: the scenario blocks (500 nibbles) remuxed with payload 508. -/
theorem remux_round_trip_witness :
    (1 : Nat) ≤ 508 ∧ (508 : Nat) ≤ 32767 ∧ (∀ b ∈ scenarioBlocks.flatten, b < 256) ∧
    (wavDecode 508 (remux 508 (fun _ => 0) 0 scenarioBlocks)).take
        (sourceNibbles scenarioBlocks).length = pcmDecode 0 scenarioBlocks ∧
    (∀ j, j * (2 * 508 + 1) < (sourceNibbles scenarioBlocks).length →
      (wavBlock 508 (remux 508 (fun _ => 0) 0 scenarioBlocks) j).take 4 =
        blockHeaderBytes (decodeState 0 { index := 0, sample := 0 }
          ((sourceNibbles scenarioBlocks).take (j * (2 * 508 + 1) + 1)))) :=
  ⟨by decide, by decide, scenarioBlocks_bytes,
   remux_round_trip 508 (fun _ => 0) 0 scenarioBlocks (by decide) (by decide)
     scenarioBlocks_bytes⟩

/-- C4 fails on the code for payload size 0 (block size 4): for one source byte (two
nibbles) the geometry declares 2 blocks and 8 data bytes, but the remux loop writes a
single 4-byte block and drops the second nibble. -/
theorem remux_payload0_drops_nibbles :
    chooseGeometry 4 2 0 0 = { wav_blocksize := 0, wav_blocks := 2, wav_datalen := 8 } ∧
    (sourceNibbles [[0x17]]).length = 2 ∧
    remux 0 (fun _ => 0) 0 [[0x17]] = [11, 0, 8, 0] ∧
    (remux 0 (fun _ => 0) 0 [[0x17]]).length ≠ (chooseGeometry 4 2 0 0).wav_datalen := by
  decide

/-- C16: final partial block.  For every source stream of `n >= 1` nibbles (bytes below
256) and payload size `p` in [1,32767] with `n` not a multiple of `2p+1`, the last output
block (number `j = n / (2p+1)`, also when `j = 0`) is written in full, header and `p`
payload bytes; its payload nibbles are the remaining source nibbles in the leading
positions and zero afterwards, and every payload byte past the source nibbles is zero. -/
theorem last_incomplete_block (p : Nat) (buf0 : Nat → Nat) (odd0 : Nat)
    (blocks : List (List Nat)) (h1 : 1 ≤ p) (hp : p ≤ 32767)
    (hb : ∀ b ∈ blocks.flatten, b < 256)
    (hrem : (sourceNibbles blocks).length % (2 * p + 1) ≠ 0) :
    (remux p buf0 odd0 blocks).length =
      ((sourceNibbles blocks).length / (2 * p + 1) + 1) * (p + 4) ∧
    (wavBlock p (remux p buf0 odd0 blocks)
      ((sourceNibbles blocks).length / (2 * p + 1))).length = p + 4 ∧
    (∀ k, k < 2 * p →
      payloadNibble (wavBlock p (remux p buf0 odd0 blocks)
          ((sourceNibbles blocks).length / (2 * p + 1))) k =
        if (sourceNibbles blocks).length / (2 * p + 1) * (2 * p + 1) + 1 + k <
            (sourceNibbles blocks).length
        then (sourceNibbles blocks).getD
          ((sourceNibbles blocks).length / (2 * p + 1) * (2 * p + 1) + 1 + k) 0
        else 0) ∧
    (∀ i, i < p →
      (sourceNibbles blocks).length ≤
        (sourceNibbles blocks).length / (2 * p + 1) * (2 * p + 1) + 1 + 2 * i →
      (wavBlock p (remux p buf0 odd0 blocks)
        ((sourceNibbles blocks).length / (2 * p + 1))).getD (4 + i) 0 = 0) := by
  have hdm := Nat.div_add_mod (sourceNibbles blocks).length (2 * p + 1)
  have hj : (sourceNibbles blocks).length / (2 * p + 1) * (2 * p + 1) <
      (sourceNibbles blocks).length := by
    rw [Nat.mul_comm]; omega
  have hblocks : blocksFor (sourceNibbles blocks).length p =
      (sourceNibbles blocks).length / (2 * p + 1) + 1 := by
    have := ceil_div (sourceNibbles blocks).length (2 * p + 1) (by omega)
    rw [if_pos hrem, Nat.add_sub_cancel] at this
    unfold blocksFor
    omega
  have hblk := remuxBlocks_block p ((sourceNibbles blocks).length / (2 * p + 1))
    (sourceNibbles blocks).length { index := 0, sample := 0 } (sourceNibbles blocks)
    (Nat.le_refl _) hj
  refine ⟨?_, ?_, ?_, ?_⟩
  · rw [remux_length p buf0 odd0 blocks h1 hp hb, hblocks]
  · rw [remux_eq_blocks p buf0 odd0 blocks h1 hp hb, hblk, List.length_append,
      blockHeaderBytes_length, blockPayload_length]
    omega
  · intro k hk
    rw [payloadNibble_remux p buf0 odd0 blocks h1 hp hb _ k hj hk]
    split_ifs with hlt
    · rfl
    · exact List.getD_eq_default _ _ (by omega)
  · intro i hi hbeyond
    rw [remux_eq_blocks p buf0 odd0 blocks h1 hp hb, hblk,
      List.getD_append_right _ _ _ _ (by rw [blockHeaderBytes_length]; omega),
      blockHeaderBytes_length, Nat.add_sub_cancel_left,
      List.getD_eq_getElem _ _ (by rw [blockPayload_length]; exact hi)]
    simp only [blockPayload, List.getElem_map, List.getElem_range]
    apply packByte_beyond
    rw [List.length_take, List.length_drop]
    omega

/-- Witness for C16: the scenario blocks (`n = 500`) with `p = 508`: one block, whose
payload holds the 499 remaining source nibbles in bytes 0..249 and zero bytes after. -/
theorem last_incomplete_block_witness :
    (1 : Nat) ≤ 508 ∧ (508 : Nat) ≤ 32767 ∧ (∀ b ∈ scenarioBlocks.flatten, b < 256) ∧
    (sourceNibbles scenarioBlocks).length % (2 * 508 + 1) ≠ 0 ∧
    (remux 508 (fun _ => 0) 0 scenarioBlocks).length =
      ((sourceNibbles scenarioBlocks).length / (2 * 508 + 1) + 1) * (508 + 4) ∧
    (wavBlock 508 (remux 508 (fun _ => 0) 0 scenarioBlocks)
      ((sourceNibbles scenarioBlocks).length / (2 * 508 + 1))).length = 508 + 4 ∧
    (∀ k, k < 2 * 508 →
      payloadNibble (wavBlock 508 (remux 508 (fun _ => 0) 0 scenarioBlocks)
          ((sourceNibbles scenarioBlocks).length / (2 * 508 + 1))) k =
        if (sourceNibbles scenarioBlocks).length / (2 * 508 + 1) * (2 * 508 + 1) + 1 + k <
            (sourceNibbles scenarioBlocks).length
        then (sourceNibbles scenarioBlocks).getD
          ((sourceNibbles scenarioBlocks).length / (2 * 508 + 1) * (2 * 508 + 1) + 1 + k) 0
        else 0) ∧
    (∀ i, i < 508 →
      (sourceNibbles scenarioBlocks).length ≤
        (sourceNibbles scenarioBlocks).length / (2 * 508 + 1) * (2 * 508 + 1) + 1 + 2 * i →
      (wavBlock 508 (remux 508 (fun _ => 0) 0 scenarioBlocks)
        ((sourceNibbles scenarioBlocks).length / (2 * 508 + 1))).getD (4 + i) 0 = 0) :=
  ⟨by decide, by decide, scenarioBlocks_bytes, by rw [scenarioBlocks_length]; decide,
   last_incomplete_block 508 (fun _ => 0) 0 scenarioBlocks (by decide) (by decide)
     scenarioBlocks_bytes (by rw [scenarioBlocks_length]; decide)⟩

/-- C17: remux preserves the original 4-bit codes.  For every source stream (bytes
below 256), payload size `p` in [1,32767], output block `j` and payload nibble position
`k` in [0, 2p) with `j * (2p+1) + 1 + k < n`, the `k`-th payload nibble of block `j`
(byte `k/2`, low nibble for even `k`, high nibble for odd `k`) is source nibble number
`j * (2p+1) + 1 + k`; a payload holds source codes only, never a decoded sample. -/
theorem remux_preserves_codes (p : Nat) (buf0 : Nat → Nat) (odd0 : Nat)
    (blocks : List (List Nat)) (j k : Nat) (h1 : 1 ≤ p) (hp : p ≤ 32767)
    (hb : ∀ b ∈ blocks.flatten, b < 256) (hk : k < 2 * p)
    (hjk : j * (2 * p + 1) + 1 + k < (sourceNibbles blocks).length) :
    payloadNibble (wavBlock p (remux p buf0 odd0 blocks) j) k =
      (sourceNibbles blocks).getD (j * (2 * p + 1) + 1 + k) 0 ∧
    (sourceNibbles blocks)[j * (2 * p + 1) + 1 + k]? =
      some (payloadNibble (wavBlock p (remux p buf0 odd0 blocks) j) k) := by
  have h := payloadNibble_remux p buf0 odd0 blocks h1 hp hb j k (by omega) hk
  refine ⟨h, ?_⟩
  rw [h, List.getD_eq_getElem _ _ hjk, List.getElem?_eq_getElem hjk]

/-- Witness for C17: three source bytes, payload size 1, block 1, nibble position 1. -/
theorem remux_preserves_codes_witness :
    (1 : Nat) ≤ 1 ∧ (1 : Nat) ≤ 32767 ∧ (∀ b ∈ [[0x17, 0x8F], [0x33]].flatten, b < 256) ∧
    (1 : Nat) < 2 * 1 ∧
    1 * (2 * 1 + 1) + 1 + 1 < (sourceNibbles [[0x17, 0x8F], [0x33]]).length ∧
    payloadNibble (wavBlock 1 (remux 1 (fun _ => 0) 0 [[0x17, 0x8F], [0x33]]) 1) 1 =
      (sourceNibbles [[0x17, 0x8F], [0x33]]).getD (1 * (2 * 1 + 1) + 1 + 1) 0 ∧
    (sourceNibbles [[0x17, 0x8F], [0x33]])[1 * (2 * 1 + 1) + 1 + 1]? =
      some (payloadNibble (wavBlock 1 (remux 1 (fun _ => 0) 0 [[0x17, 0x8F], [0x33]]) 1) 1) :=
  ⟨by decide, by decide, by decide, by decide, by decide,
   remux_preserves_codes 1 (fun _ => 0) 0 [[0x17, 0x8F], [0x33]] 1 1 (by decide) (by decide)
     (by decide) (by decide) (by decide)⟩

/-! ### The IMA ADPCM WAV header -/

/-- C18, as stated, fails: for payload 1 (block size 5) and 2576980378 samples `datalen`
is 4, not `blocks * (p+4)` = 858993460 * 5; and when `datalen` is within 52 of 2^32,
`riffsize` wraps as well (here for 1073741822 samples and payload 0: `datalen` is
4294967288 and `riffsize` is 44). -/
theorem header_datalen_wraps :
    (buildAdpcmHeader 22050 2576980378 (chooseGeometry 5 2576980378 0 0)).datalen = 4 ∧
    blocksFor 2576980378 1 * (1 + 4) = 4294967300 ∧
    (buildAdpcmHeader 22050 1073741822 (chooseGeometry 4 1073741822 0 0)).datalen =
      4294967288 ∧
    (buildAdpcmHeader 22050 1073741822 (chooseGeometry 4 1073741822 0 0)).riffsize = 44 := by
  decide

/-- C18, amended: for every 16-bit sample rate `r`, 32-bit sample count `n` and payload
`p` in [0,32767] chosen as block size `p + 4`, the header has `fmtlen = 20`,
`wFormatTag = 0x11`, `nChannels = 1`, `nSamplesPerSec = r`,
`nAvgBytesPerSec = floor(r * (p+4) / (2p+1))`, `nBlockAlign = p+4` and
`samplesPerBlock = 2p+1` (both untruncated), `wBitsPerSample = 4`, `cbSize = 2`,
`factlen = 4`, `nSamples = n`, `datalen = blocks * (p+4)` modulo 2^32 and
`riffsize = datalen + 52` modulo 2^32; `datalen` is exactly `blocks * (p+4)` for
`n < 2^30`, and `riffsize` is exactly `blocks * (p+4) + 52` when that is below 2^32. -/
theorem adpcm_header_fields (r n p u0 u1 : Nat) (hr : r < 65536) (hn : n < U32)
    (hp : p ≤ 32767) :
    buildAdpcmHeader r n (chooseGeometry ((p : Int) + 4) n u0 u1) =
      { riffsize := ((blocksFor n p * (p + 4)) % U32 + 52) % U32
        fmtlen := 20
        wFormatTag := 0x11
        nChannels := 1
        nSamplesPerSec := r
        nAvgBytesPerSec := r * (p + 4) / (2 * p + 1)
        nBlockAlign := p + 4
        wBitsPerSample := 4
        cbSize := 2
        samplesPerBlock := 2 * p + 1
        factlen := 4
        nSamples := n
        datalen := (blocksFor n p * (p + 4)) % U32 } ∧
    (n < 1073741824 →
      (buildAdpcmHeader r n (chooseGeometry ((p : Int) + 4) n u0 u1)).datalen =
        blocksFor n p * (p + 4)) ∧
    (blocksFor n p * (p + 4) + 52 < U32 →
      (buildAdpcmHeader r n (chooseGeometry ((p : Int) + 4) n u0 u1)).riffsize =
        blocksFor n p * (p + 4) + 52) := by
  have hU : U32 = 4294967296 := rfl
  have e1 : ((p : Int) + 4 - 4).toNat = p := by omega
  have hprod : r * (p + 4) < 4294967296 :=
    calc r * (p + 4) ≤ 65535 * 32771 := Nat.mul_le_mul (by omega) (by omega)
      _ < 4294967296 := by decide
  have hg : chooseGeometry ((p : Int) + 4) n u0 u1 =
      { wav_blocksize := p, wav_blocks := blocksFor n p
        wav_datalen := (blocksFor n p * (p + 4)) % U32 } := by
    rw [chooseGeometry_fixed _ n u0 u1 (by omega),
      fixedGeometry_eq _ n (by omega) (by omega) hn, e1]
  have a1 : (p + 4) % U32 = p + 4 := Nat.mod_eq_of_lt (by rw [hU]; omega)
  have a2 : (p * 2 + 1) % U32 = 2 * p + 1 := by rw [hU]; omega
  have a3 : (r * (p + 4)) % U32 = r * (p + 4) := Nat.mod_eq_of_lt (by rw [hU]; exact hprod)
  have a4 : (p + 4) % 65536 = p + 4 := Nat.mod_eq_of_lt (by omega)
  have a5 : (2 * p + 1) % 65536 = 2 * p + 1 := Nat.mod_eq_of_lt (by omega)
  have hb : buildAdpcmHeader r n (chooseGeometry ((p : Int) + 4) n u0 u1) =
      { riffsize := ((blocksFor n p * (p + 4)) % U32 + 52) % U32
        fmtlen := 20
        wFormatTag := 0x11
        nChannels := 1
        nSamplesPerSec := r
        nAvgBytesPerSec := r * (p + 4) / (2 * p + 1)
        nBlockAlign := p + 4
        wBitsPerSample := 4
        cbSize := 2
        samplesPerBlock := 2 * p + 1
        factlen := 4
        nSamples := n
        datalen := (blocksFor n p * (p + 4)) % U32 } := by
    rw [hg]
    unfold buildAdpcmHeader sizeofWavHeaderADPCM
    simp only [a1, a2, a3, a4, a5]
    congr 1
  refine ⟨hb, ?_, ?_⟩
  · intro hs
    have hd := dataBytes_small n (p + 4) hs (by omega) (by omega)
    rw [Nat.add_sub_cancel, Nat.mul_comm] at hd
    rw [hb]
    exact Nat.mod_eq_of_lt hd
  · intro hs
    rw [hb]
    simp only
    rw [Nat.mod_eq_of_lt (by omega : blocksFor n p * (p + 4) < U32), Nat.mod_eq_of_lt hs]

/-- Witness for C18 (amended): 22050 Hz, 500 samples, payload 508. -/
theorem adpcm_header_fields_witness :
    (22050 : Nat) < 65536 ∧ 500 < U32 ∧ (508 : Nat) ≤ 32767 ∧
    buildAdpcmHeader 22050 500 (chooseGeometry (((508 : Nat) : Int) + 4) 500 0 0) =
      { riffsize := ((blocksFor 500 508 * (508 + 4)) % U32 + 52) % U32
        fmtlen := 20
        wFormatTag := 0x11
        nChannels := 1
        nSamplesPerSec := 22050
        nAvgBytesPerSec := 22050 * (508 + 4) / (2 * 508 + 1)
        nBlockAlign := 508 + 4
        wBitsPerSample := 4
        cbSize := 2
        samplesPerBlock := 2 * 508 + 1
        factlen := 4
        nSamples := 500
        datalen := (blocksFor 500 508 * (508 + 4)) % U32 } ∧
    ((500 : Nat) < 1073741824 →
      (buildAdpcmHeader 22050 500 (chooseGeometry (((508 : Nat) : Int) + 4) 500 0 0)).datalen =
        blocksFor 500 508 * (508 + 4)) ∧
    (blocksFor 500 508 * (508 + 4) + 52 < U32 →
      (buildAdpcmHeader 22050 500 (chooseGeometry (((508 : Nat) : Int) + 4) 500 0 0)).riffsize =
        blocksFor 500 508 * (508 + 4) + 52) :=
  ⟨by decide, by decide, by decide,
   adpcm_header_fields 22050 500 508 0 0 (by decide) (by decide) (by decide)⟩

/-! ### Delta magnitudes of the three formulas -/

theorem delta_magnitudes (step delta : Nat) (hd : delta ≤ 7) :
    deltaMagnitude 1 delta step ≤ deltaMagnitude 2 delta step ∧
    deltaMagnitude 2 delta step ≤ deltaMagnitude 3 delta step ∧
    deltaMagnitude 2 delta step - deltaMagnitude 1 delta step ≤ 1 ∧
    deltaMagnitude 3 delta step - deltaMagnitude 2 delta step ≤ 1 := by
  interval_cases delta <;>
    simp [deltaMagnitude, Nat.shiftRight_eq_div_pow, Nat.div_div_eq_div_mul,
      (by decide : (0 &&& 4 : Nat) = 0), (by decide : (0 &&& 2 : Nat) = 0),
      (by decide : (0 &&& 1 : Nat) = 0), (by decide : (1 &&& 4 : Nat) = 0),
      (by decide : (1 &&& 2 : Nat) = 0), (by decide : (1 &&& 1 : Nat) = 1),
      (by decide : (2 &&& 4 : Nat) = 0), (by decide : (2 &&& 2 : Nat) = 2),
      (by decide : (2 &&& 1 : Nat) = 0), (by decide : (3 &&& 4 : Nat) = 0),
      (by decide : (3 &&& 2 : Nat) = 2), (by decide : (3 &&& 1 : Nat) = 1),
      (by decide : (4 &&& 4 : Nat) = 4), (by decide : (4 &&& 2 : Nat) = 0),
      (by decide : (4 &&& 1 : Nat) = 0), (by decide : (5 &&& 4 : Nat) = 4),
      (by decide : (5 &&& 2 : Nat) = 0), (by decide : (5 &&& 1 : Nat) = 1),
      (by decide : (6 &&& 4 : Nat) = 4), (by decide : (6 &&& 2 : Nat) = 2),
      (by decide : (6 &&& 1 : Nat) = 0), (by decide : (7 &&& 4 : Nat) = 4),
      (by decide : (7 &&& 2 : Nat) = 2), (by decide : (7 &&& 1 : Nat) = 1)] <;> omega

/-- C21: for every step value of `ADPCM_STEP_TABLE` and every magnitude `delta` in
[0,7], the delta magnitudes `d1`, `d2`, `d3` of algorithms 1, 2 and 3 satisfy
`d1 <= d2 <= d3`, `d2 - d1 <= 1` and `d3 - d2 <= 1`, so `d3 - d1 <= 2`; hence, before
clamping, the signed `diff` of algorithm 2 is within 1 and that of algorithm 3 within 2
of the exact `diff` of algorithm 1, for every index and nibble. -/
theorem delta_magnitude_order (step delta : Nat) (_hs : step ∈ ADPCM_STEP_TABLE)
    (hd : delta ≤ 7) :
    deltaMagnitude 1 delta step ≤ deltaMagnitude 2 delta step ∧
    deltaMagnitude 2 delta step ≤ deltaMagnitude 3 delta step ∧
    deltaMagnitude 2 delta step - deltaMagnitude 1 delta step ≤ 1 ∧
    deltaMagnitude 3 delta step - deltaMagnitude 2 delta step ≤ 1 ∧
    deltaMagnitude 3 delta step - deltaMagnitude 1 delta step ≤ 2 ∧
    (∀ (index : Int) (nibble : Nat),
      ((formulaStep 2 index nibble).1 - (formulaStep 1 index nibble).1).natAbs ≤ 1 ∧
      ((formulaStep 3 index nibble).1 - (formulaStep 1 index nibble).1).natAbs ≤ 2) := by
  have h := delta_magnitudes step delta hd
  refine ⟨h.1, h.2.1, h.2.2.1, h.2.2.2, by omega, ?_⟩
  intro index nibble
  have hm : nibble &&& 7 ≤ 7 := Nat.and_le_right
  have g := delta_magnitudes (ADPCM_STEP_TABLE.getD index.toNat 0) (nibble &&& 7) hm
  unfold formulaStep
  simp only
  split_ifs <;> omega

/-- Witness for C21: step 7 (index 0), magnitude 3. -/
theorem delta_magnitude_order_witness :
    7 ∈ ADPCM_STEP_TABLE ∧ (3 : Nat) ≤ 7 ∧
    deltaMagnitude 1 3 7 ≤ deltaMagnitude 2 3 7 ∧
    deltaMagnitude 2 3 7 ≤ deltaMagnitude 3 3 7 ∧
    deltaMagnitude 2 3 7 - deltaMagnitude 1 3 7 ≤ 1 ∧
    deltaMagnitude 3 3 7 - deltaMagnitude 2 3 7 ≤ 1 ∧
    deltaMagnitude 3 3 7 - deltaMagnitude 1 3 7 ≤ 2 ∧
    (∀ (index : Int) (nibble : Nat),
      ((formulaStep 2 index nibble).1 - (formulaStep 1 index nibble).1).natAbs ≤ 1 ∧
      ((formulaStep 3 index nibble).1 - (formulaStep 1 index nibble).1).natAbs ≤ 2) :=
  ⟨by decide, by decide, delta_magnitude_order 7 3 (by decide) (by decide)⟩

/-! ### The searches in 32-bit arithmetic and over unbounded integers -/

theorem idealStep_some (n : Nat) (b : Geometry) (i : Nat) :
    idealStep n (some b) i =
      if (idealCandidate n i).wav_datalen < b.wav_datalen then some (idealCandidate n i)
      else some b := rfl

theorem search_vs_ideal (n u0 u1 : Nat) (cs : List Nat) :
    ∀ (g : Geometry) (best : Option Geometry),
      (∀ i ∈ cs, candidate n i = idealCandidate n i) → SearchRel u0 u1 g best →
      SearchRel u0 u1 (cs.foldl (searchStep n) g) (cs.foldl (idealStep n) best) := by
  induction cs with
  | nil => intro g best _ h; exact h
  | cons a rest ih =>
    intro g best hc h
    have ha := hc a (List.mem_cons_self _ _)
    rw [List.foldl_cons, List.foldl_cons]
    apply ih _ _ (fun i hi => hc i (List.mem_cons_of_mem _ hi))
    rw [searchStep_eq, ha]
    cases best with
    | none =>
      simp only [SearchRel] at h
      subst h
      simp only [idealStep, SearchRel]
      by_cases hlt : (idealCandidate n a).wav_datalen < INT_MAX
      · left; exact ⟨hlt, by rw [if_pos hlt]⟩
      · right; exact ⟨by omega, by rw [if_neg hlt]⟩
    | some b =>
      rw [idealStep_some]
      simp only [SearchRel] at h
      rcases h with ⟨hb, rfl⟩ | ⟨hb, rfl⟩
      · by_cases hlt : (idealCandidate n a).wav_datalen < g.wav_datalen
        · rw [if_pos hlt, if_pos hlt]
          simp only [SearchRel]
          left; exact ⟨by omega, trivial⟩
        · rw [if_neg hlt, if_neg hlt]
          simp only [SearchRel]
          left; exact ⟨hb, trivial⟩
      · by_cases hlt : (idealCandidate n a).wav_datalen < b.wav_datalen
        · rw [if_pos hlt]
          simp only [SearchRel]
          by_cases h2 : (idealCandidate n a).wav_datalen < INT_MAX
          · left; exact ⟨h2, by rw [if_pos h2]⟩
          · right; exact ⟨by omega, by rw [if_neg h2]⟩
        · rw [if_neg hlt, if_neg (by simp only []; omega)]
          simp only [SearchRel]
          right; exact ⟨hb, trivial⟩

theorem ideal_fold_min (n : Nat) (cs : List Nat) :
    ∀ b : Geometry, ∃ r, cs.foldl (idealStep n) (some b) = some r ∧
      r.wav_datalen ≤ b.wav_datalen ∧
      ∀ i ∈ cs, r.wav_datalen ≤ (idealCandidate n i).wav_datalen := by
  induction cs with
  | nil => intro b; exact ⟨b, rfl, Nat.le_refl _, by simp⟩
  | cons a rest ih =>
    intro b
    rw [List.foldl_cons, idealStep_some]
    by_cases hlt : (idealCandidate n a).wav_datalen < b.wav_datalen
    · rw [if_pos hlt]
      obtain ⟨r, hr, h1, h2⟩ := ih (idealCandidate n a)
      refine ⟨r, hr, by omega, ?_⟩
      intro i hi
      rcases List.mem_cons.1 hi with h | h
      · rw [h]; exact h1
      · exact h2 i h
    · rw [if_neg hlt]
      obtain ⟨r, hr, h1, h2⟩ := ih b
      refine ⟨r, hr, h1, ?_⟩
      intro i hi
      rcases List.mem_cons.1 hi with h | h
      · rw [h]; omega
      · exact h2 i h

/-- The code's search against the unbounded one, for a non-empty candidate list on which
no product wraps. -/
theorem search_refines_ideal (n u0 u1 a : Nat) (rest : List Nat)
    (hc : ∀ i ∈ a :: rest, candidate n i = idealCandidate n i) :
    ∃ b, idealSearch (a :: rest) n = some b ∧
      (∀ i ∈ a :: rest, b.wav_datalen ≤ (idealCandidate n i).wav_datalen) ∧
      (b.wav_datalen < INT_MAX →
        (a :: rest).foldl (searchStep n)
          { wav_blocksize := u0, wav_blocks := u1, wav_datalen := INT_MAX } = b) ∧
      (INT_MAX ≤ b.wav_datalen →
        (a :: rest).foldl (searchStep n)
          { wav_blocksize := u0, wav_blocks := u1, wav_datalen := INT_MAX } =
          { wav_blocksize := u0, wav_blocks := u1, wav_datalen := INT_MAX }) := by
  have hrel := search_vs_ideal n u0 u1 (a :: rest)
    { wav_blocksize := u0, wav_blocks := u1, wav_datalen := INT_MAX } none hc
    (by simp only [SearchRel])
  obtain ⟨r, hr, h1, h2⟩ := ideal_fold_min n rest (idealCandidate n a)
  have hid : idealSearch (a :: rest) n = some r := by
    unfold idealSearch
    rw [List.foldl_cons]
    exact hr
  unfold idealSearch at hid
  rw [hid] at hrel
  simp only [SearchRel] at hrel
  refine ⟨r, by unfold idealSearch; exact hid, ?_, ?_, ?_⟩
  · intro i hi
    rcases List.mem_cons.1 hi with h | h
    · rw [h]; exact h1
    · exact h2 i h
  · intro hlt
    rcases hrel with ⟨_, h⟩ | ⟨h, _⟩
    · exact h
    · omega
  · intro hge
    rcases hrel with ⟨h, _⟩ | ⟨_, h⟩
    · omega
    · exact h

/-- For block sizes from 8 on, no product of the search wraps, whatever the 32-bit sample
count. -/
theorem candidate_from8 (n i : Nat) (hn : n < U32) (h8 : 8 ≤ i) (hi : i ≤ 32771) :
    candidate n i = idealCandidate n i := by
  have hU : U32 = 4294967296 := rfl
  have hb : blocksFor n (i - 4) ≤ n / (2 * (i - 4) + 1) + 1 := by
    unfold blocksFor
    calc (n + 2 * (i - 4)) / (2 * (i - 4) + 1)
        ≤ (n + (2 * (i - 4) + 1)) / (2 * (i - 4) + 1) := Nat.div_le_div_right (by omega)
      _ = n / (2 * (i - 4) + 1) + 1 := Nat.add_div_right n (by omega)
  have h1 : 9 * (i * (n / (2 * (i - 4) + 1))) ≤ 8 * n :=
    calc 9 * (i * (n / (2 * (i - 4) + 1)))
        = (9 * i) * (n / (2 * (i - 4) + 1)) := by ring
      _ ≤ (8 * (2 * (i - 4) + 1)) * (n / (2 * (i - 4) + 1)) :=
          Nat.mul_le_mul_right _ (by omega)
      _ = 8 * ((2 * (i - 4) + 1) * (n / (2 * (i - 4) + 1))) := by ring
      _ ≤ 8 * n := Nat.mul_le_mul_left _ (Nat.mul_div_le n _)
  have h2 : i * blocksFor n (i - 4) ≤ i * (n / (2 * (i - 4) + 1)) + i :=
    calc i * blocksFor n (i - 4) ≤ i * (n / (2 * (i - 4) + 1) + 1) := Nat.mul_le_mul_left _ hb
      _ = i * (n / (2 * (i - 4) + 1)) + i := by ring
  have h3 : i * blocksFor n (i - 4) < U32 := by rw [hU]; omega
  rw [candidate_eq n i hn (by omega) hi, Nat.mod_eq_of_lt h3]
  unfold idealCandidate dataBytesFor
  congr 1
  rw [Nat.mul_comm, show i - 4 + 4 = i by omega]

theorem candidate_eq_ideal_small (n i : Nat) (hn : n < 1073741824) (h4 : 4 ≤ i)
    (hi : i ≤ 32771) : candidate n i = idealCandidate n i :=
  candidate_small n i hn h4 hi

theorem idealCandidate8_below_bound (n : Nat) (hn : n < 1073741824) :
    (idealCandidate n 8).wav_datalen < INT_MAX := by
  unfold idealCandidate dataBytesFor blocksFor INT_MAX
  simp only
  omega

theorem acm_search_vs_ideal (n u0 u1 : Nat) (hn : n < U32) :
    ∃ b, idealSearch candidatesACM n = some b ∧
      (∀ i ∈ candidatesACM, b.wav_datalen ≤ (idealCandidate n i).wav_datalen) ∧
      (b.wav_datalen < INT_MAX → chooseGeometry (-1) n u0 u1 = b) ∧
      (INT_MAX ≤ b.wav_datalen → chooseGeometry (-1) n u0 u1 =
        { wav_blocksize := u0, wav_blocks := u1, wav_datalen := INT_MAX }) := by
  have hc : ∀ i ∈ candidatesACM, candidate n i = idealCandidate n i := fun i hi => by
    have := (mem_candidatesACM i).1 hi
    exact candidate_from8 n i hn (by omega) (by omega)
  have h8 : 8 ∈ candidatesACM := (mem_candidatesACM 8).2 (by omega)
  unfold chooseGeometry
  rw [if_pos rfl]
  cases hl : candidatesACM with
  | nil => rw [hl] at h8; simp at h8
  | cons a rest =>
    rw [hl] at hc
    exact search_refines_ideal n u0 u1 a rest hc

theorem all_search_vs_ideal (n u0 u1 : Nat) (hn : n < 1073741824) :
    ∃ b, idealSearch candidatesAll n = some b ∧
      (∀ i ∈ candidatesAll, b.wav_datalen ≤ (idealCandidate n i).wav_datalen) ∧
      (b.wav_datalen < INT_MAX → chooseGeometry (-2) n u0 u1 = b) := by
  have hc : ∀ i ∈ candidatesAll, candidate n i = idealCandidate n i := fun i hi => by
    have := (mem_candidatesAll i).1 hi
    exact candidate_eq_ideal_small n i hn (by omega) (by omega)
  have h8 : 8 ∈ candidatesAll := (mem_candidatesAll 8).2 (by omega)
  unfold chooseGeometry
  rw [if_neg (by decide), if_pos rfl]
  cases hl : candidatesAll with
  | nil => rw [hl] at h8; simp at h8
  | cons a rest =>
    rw [hl] at hc
    obtain ⟨b, h1, h2, h3, _⟩ := search_refines_ideal n u0 u1 a rest hc
    exact ⟨b, h1, h2, h3⟩

theorem unconstrained_search_at_2pow30 :
    chooseGeometry (-2) 1073741824 0 0 =
      { wav_blocksize := 0, wav_blocks := 1073741824, wav_datalen := 0 } := by
  have hm : 4 ∈ candidatesAll := (mem_candidatesAll 4).2 (by omega)
  have h4 : candidate 1073741824 4 =
      { wav_blocksize := 0, wav_blocks := 1073741824, wav_datalen := 0 } := by decide
  obtain ⟨c, hc, hres, hmin⟩ := search_sorted 1073741824 candidatesAll
    { wav_blocksize := 0, wav_blocks := 0, wav_datalen := INT_MAX } candidatesAll_sorted
    ⟨4, hm, by rw [h4]; decide⟩
  have h := hmin 4 hm
  rw [h4] at h
  have hc4 := (mem_candidatesAll c).1 hc
  have hle : c ≤ 4 := h.2 (by have := h.1; simp only [] at this ⊢; omega)
  have : c = 4 := by omega
  subst this
  unfold chooseGeometry
  rw [if_neg (by decide), if_pos rfl, hres, h4]

set_option maxRecDepth 1000000 in
theorem constrained_search_at_4294000000 :
    chooseGeometry (-1) 4294000000 0 0 =
      { wav_blocksize := 0, wav_blocks := 0, wav_datalen := INT_MAX } := by
  decide!

/-- C22 fails on the code, at two inputs.  Policy -1 with 4294000000 samples: every
candidate costs at least `INT_MAX`, so the switch never assigns `wav_blocksize` and
`wav_blocks` (the code's own comment says it initialises them) and the uninitialised
values (here 0, 0) are returned with the bound `INT_MAX`.  Policy -2 with 2^30 samples:
the first product, 4 * 2^30, wraps to 0, so payload 0 is returned with data length 0,
although over unbounded integers payload 0 costs 2^32 bytes and payload 4 only
954437184. -/
theorem search_wraps_or_assigns_nothing :
    chooseGeometry (-2) 1073741824 0 0 =
      { wav_blocksize := 0, wav_blocks := 1073741824, wav_datalen := 0 } ∧
    dataBytesFor 1073741824 0 = 4294967296 ∧
    dataBytesFor 1073741824 4 = 954437184 ∧
    chooseGeometry (-1) 4294000000 0 0 =
      { wav_blocksize := 0, wav_blocks := 0, wav_datalen := INT_MAX } :=
  ⟨unconstrained_search_at_2pow30, by decide, by decide, constrained_search_at_4294000000⟩

/-- Where the 32-bit searches do agree with the search over unbounded integers: for
every sample count `n < 2^30` both assign a result, and it is the result of
`idealSearch`, the minimum of `ceil(n/(2p+1)) * (p+4)` over the candidate set with the
smallest payload on ties.  For every 32-bit `n` the products of the constrained search
still do not wrap; it returns the unbounded result when that minimum is below `INT_MAX`
and is left with the initial values otherwise. -/
theorem search_matches_unbounded (n u0 u1 : Nat) (hn : n < U32) :
    (n < 1073741824 →
      some (chooseGeometry (-1) n u0 u1) = idealSearch candidatesACM n ∧
      some (chooseGeometry (-2) n u0 u1) = idealSearch candidatesAll n ∧
      (∃ p, p + 4 ∈ candidatesACM ∧
        chooseGeometry (-1) n u0 u1 =
          { wav_blocksize := p, wav_blocks := blocksFor n p
            wav_datalen := dataBytesFor n p } ∧
        ∀ q, q + 4 ∈ candidatesACM → dataBytesFor n p ≤ dataBytesFor n q ∧
          (dataBytesFor n q = dataBytesFor n p → p ≤ q)) ∧
      (∃ p, p + 4 ∈ candidatesAll ∧
        chooseGeometry (-2) n u0 u1 =
          { wav_blocksize := p, wav_blocks := blocksFor n p
            wav_datalen := dataBytesFor n p } ∧
        ∀ q, q + 4 ∈ candidatesAll → dataBytesFor n p ≤ dataBytesFor n q ∧
          (dataBytesFor n q = dataBytesFor n p → p ≤ q))) ∧
    (∃ b, idealSearch candidatesACM n = some b ∧
      (∀ i ∈ candidatesACM, b.wav_datalen ≤ dataBytesFor n (i - 4)) ∧
      (b.wav_datalen < INT_MAX → chooseGeometry (-1) n u0 u1 = b) ∧
      (INT_MAX ≤ b.wav_datalen → chooseGeometry (-1) n u0 u1 =
        { wav_blocksize := u0, wav_blocks := u1, wav_datalen := INT_MAX })) := by
  have hU : U32 = 4294967296 := rfl
  constructor
  · intro hs
    obtain ⟨b, hb, hmin, hlt, _⟩ := acm_search_vs_ideal n u0 u1 hn
    obtain ⟨b2, hb2, hmin2, hlt2⟩ := all_search_vs_ideal n u0 u1 hs
    have h8 := idealCandidate8_below_bound n hs
    have m1 := hmin 8 ((mem_candidatesACM 8).2 (by omega))
    have m2 := hmin2 8 ((mem_candidatesAll 8).2 (by omega))
    refine ⟨?_, ?_, chooseGeometry_acm n u0 u1 hs, chooseGeometry_all n u0 u1 hs⟩
    · rw [hb, hlt (by omega)]
    · rw [hb2, hlt2 (by omega)]
  · exact acm_search_vs_ideal n u0 u1 hn

/-- The agreement of the searches with `idealSearch` at 500 samples. -/
theorem search_matches_unbounded_witness :
    500 < U32 ∧
    ((500 : Nat) < 1073741824 →
      some (chooseGeometry (-1) 500 0 0) = idealSearch candidatesACM 500 ∧
      some (chooseGeometry (-2) 500 0 0) = idealSearch candidatesAll 500 ∧
      (∃ p, p + 4 ∈ candidatesACM ∧
        chooseGeometry (-1) 500 0 0 =
          { wav_blocksize := p, wav_blocks := blocksFor 500 p
            wav_datalen := dataBytesFor 500 p } ∧
        ∀ q, q + 4 ∈ candidatesACM → dataBytesFor 500 p ≤ dataBytesFor 500 q ∧
          (dataBytesFor 500 q = dataBytesFor 500 p → p ≤ q)) ∧
      (∃ p, p + 4 ∈ candidatesAll ∧
        chooseGeometry (-2) 500 0 0 =
          { wav_blocksize := p, wav_blocks := blocksFor 500 p
            wav_datalen := dataBytesFor 500 p } ∧
        ∀ q, q + 4 ∈ candidatesAll → dataBytesFor 500 p ≤ dataBytesFor 500 q ∧
          (dataBytesFor 500 q = dataBytesFor 500 p → p ≤ q))) ∧
    (∃ b, idealSearch candidatesACM 500 = some b ∧
      (∀ i ∈ candidatesACM, b.wav_datalen ≤ dataBytesFor 500 (i - 4)) ∧
      (b.wav_datalen < INT_MAX → chooseGeometry (-1) 500 0 0 = b) ∧
      (INT_MAX ≤ b.wav_datalen → chooseGeometry (-1) 500 0 0 =
        { wav_blocksize := 0, wav_blocks := 0, wav_datalen := INT_MAX })) :=
  ⟨by decide, search_matches_unbounded 500 0 0 (by decide)⟩

/-- C23: for every sample count `n < 2^30`, the data length chosen by the unconstrained
search (-2) is at most the data length chosen by the constrained search (-1), which is at
most the data length of every fixed block size that is a multiple of 4 in [8,2760], in
particular of the default block size 512. -/
theorem search_datalen_ordering (n u0 u1 : Nat) (B : Int) (hn : n < 1073741824)
    (h8 : 8 ≤ B) (hB : B ≤ 2760) (h4 : B % 4 = 0) :
    (chooseGeometry (-2) n u0 u1).wav_datalen ≤ (chooseGeometry (-1) n u0 u1).wav_datalen ∧
    (chooseGeometry (-1) n u0 u1).wav_datalen ≤ (chooseGeometry B n u0 u1).wav_datalen ∧
    (chooseGeometry (-1) n u0 u1).wav_datalen ≤ (chooseGeometry 512 n u0 u1).wav_datalen := by
  have hU : U32 = 4294967296 := rfl
  obtain ⟨p1, hp1, hg1, hmin1⟩ := chooseGeometry_acm n u0 u1 hn
  obtain ⟨p2, hp2, hg2, hmin2⟩ := chooseGeometry_all n u0 u1 hn
  have hfix : ∀ C : Int, 8 ≤ C → C ≤ 2760 → C % 4 = 0 →
      (chooseGeometry (-1) n u0 u1).wav_datalen ≤ (chooseGeometry C n u0 u1).wav_datalen := by
    intro C c8 cB c4
    have hm : (C - 4).toNat + 4 ∈ candidatesACM :=
      (mem_candidatesACM _).2 ⟨by omega, by omega, by omega⟩
    have hd := dataBytes_small n ((C - 4).toNat + 4) hn (by omega) (by omega)
    rw [Nat.add_sub_cancel, Nat.mul_comm] at hd
    rw [chooseGeometry_fixed C n u0 u1 (by omega),
      fixedGeometry_eq C n (by omega) (by omega) (by rw [hU]; omega), hg1]
    simp only
    rw [Nat.mod_eq_of_lt hd]
    exact (hmin1 _ hm).1
  refine ⟨?_, hfix B h8 hB h4, hfix 512 (by decide) (by decide) (by decide)⟩
  rw [hg1, hg2]
  have hm := (mem_candidatesACM _).1 hp1
  exact (hmin2 p1 ((mem_candidatesAll _).2 (by omega))).1

/-- Witness for C23: 500 samples and the fixed block size 256. -/
theorem search_datalen_ordering_witness :
    (500 : Nat) < 1073741824 ∧ (8 : Int) ≤ 256 ∧ (256 : Int) ≤ 2760 ∧ (256 : Int) % 4 = 0 ∧
    (chooseGeometry (-2) 500 0 0).wav_datalen ≤ (chooseGeometry (-1) 500 0 0).wav_datalen ∧
    (chooseGeometry (-1) 500 0 0).wav_datalen ≤ (chooseGeometry 256 500 0 0).wav_datalen ∧
    (chooseGeometry (-1) 500 0 0).wav_datalen ≤ (chooseGeometry 512 500 0 0).wav_datalen :=
  ⟨by decide, by decide, by decide, by decide,
   search_datalen_ordering 500 0 0 256 (by decide) (by decide) (by decide) (by decide)⟩

theorem header_bytes_eq (hdr : List Nat) (hl : hdr.length = 8) (hb : ∀ x ∈ hdr, x < 256)
    (hd : (parseBlockHeader hdr).deaf = 0xDEAF) (hz : (parseBlockHeader hdr).zero = 0) :
    hdr = blockHeaderOf (parseBlockHeader hdr).encsize (parseBlockHeader hdr).decsize ∧
      (parseBlockHeader hdr).encsize < 65536 := by
  match hdr, hl with
  | [x0, x1, x2, x3, x4, x5, x6, x7], _ =>
    have b0 := hb x0 (by simp)
    have b1 := hb x1 (by simp)
    have b2 := hb x2 (by simp)
    have b3 := hb x3 (by simp)
    have b4 := hb x4 (by simp)
    have b5 := hb x5 (by simp)
    have b6 := hb x6 (by simp)
    have b7 := hb x7 (by simp)
    simp only [parseBlockHeader, u16, List.getD_cons_zero, List.getD_cons_succ] at hd hz ⊢
    refine ⟨?_, by omega⟩
    simp only [blockHeaderOf, List.cons.injEq, and_true]
    refine ⟨?_, ?_, ?_, ?_, ?_, ?_, ?_, ?_⟩ <;> omega

/-- Every block stream made of bytes is a sequence of well-formed blocks followed either
by nothing or by bytes on which the scan stops with an error. -/
theorem stream_decomposition (n : Nat) :
    ∀ stream : List Nat, stream.length ≤ n → (∀ x ∈ stream, x < 256) →
      ∃ bs tail, stream = serializeBlocks bs ++ tail ∧ (∀ b ∈ bs, b.2.length < 65536) ∧
        (tail = [] ∨ ∃ e, scanError tail = some e) := by
  induction n with
  | zero =>
    intro stream hl _
    exact ⟨[], [], by simp [serializeBlocks, List.length_eq_zero.1 (Nat.le_zero.1 hl)],
      by simp, Or.inl rfl⟩
  | succ n ih =>
    intro stream hl hb
    cases he : scanError stream with
    | some e => exact ⟨[], stream, by simp [serializeBlocks], by simp, Or.inr ⟨e, he⟩⟩
    | none =>
      unfold scanError at he
      by_cases h0 : stream.length = 0
      · exact ⟨[], [], by simp [serializeBlocks, List.length_eq_zero.1 h0], by simp, Or.inl rfl⟩
      · rw [if_neg h0] at he
        by_cases h8 : stream.length < 8
        · rw [if_pos h8] at he; simp at he
        · rw [if_neg h8] at he
          by_cases hm : (parseBlockHeader (stream.take 8)).deaf ≠ 0xDEAF ∨
              (parseBlockHeader (stream.take 8)).zero ≠ 0
          · rw [if_pos hm] at he; simp at he
          · rw [if_neg hm] at he
            by_cases hp : stream.length - 8 < (parseBlockHeader (stream.take 8)).encsize
            · rw [if_pos hp] at he; simp at he
            · have hm' : (parseBlockHeader (stream.take 8)).deaf = 0xDEAF ∧
                  (parseBlockHeader (stream.take 8)).zero = 0 := by
                constructor
                · by_contra hc; exact hm (Or.inl hc)
                · by_contra hc; exact hm (Or.inr hc)
              obtain ⟨hh, henc⟩ := header_bytes_eq (stream.take 8)
                (by rw [List.length_take]; omega)
                (fun x hx => hb x (List.mem_of_mem_take hx)) hm'.1 hm'.2
              obtain ⟨bs, tail, hs, hlen, ht⟩ := ih
                ((stream.drop 8).drop (parseBlockHeader (stream.take 8)).encsize)
                (by rw [List.length_drop, List.length_drop]; omega)
                (fun x hx => hb x (List.mem_of_mem_drop (List.mem_of_mem_drop hx)))
              have hpl : ((stream.drop 8).take (parseBlockHeader (stream.take 8)).encsize).length =
                  (parseBlockHeader (stream.take 8)).encsize := by
                rw [List.length_take, List.length_drop]; omega
              refine ⟨((parseBlockHeader (stream.take 8)).decsize,
                (stream.drop 8).take (parseBlockHeader (stream.take 8)).encsize) :: bs, tail,
                ?_, ?_, ht⟩
              · simp only [serializeBlocks]
                rw [hpl, ← hh, List.append_assoc, List.append_assoc, ← hs,
                  List.take_append_drop, List.take_append_drop]
              · intro b hbm
                rcases List.mem_cons.1 hbm with h | h
                · rw [h]; simp only; rw [hpl]; exact henc
                · exact hlen b h

/-! ### What a scan error does to the processing of a file -/

/-- C14: stream acceptance.  For every detected header (New or Old, flags a byte), the
stream gets past the check and proceeds to the scan iff its flags have bit 0 (stereo)
clear and bit 1 (16-bit) set and its codec byte equals 99, and then goes on to decoding
or remuxing with output (the duration computed between scan and decoding divides by the
sample rate, so that step is reached for a sample rate other than 0); every other
flags/codec combination is rejected before any block is read and produces no output. -/
theorem stream_acceptance (cfg : Settings) (file : List Nat) (fmt : AudFormat)
    (hf : detectFormat file = some fmt) (hflags : (readHeader fmt file).flags < 256) :
    (supported (readHeader fmt file) = true ↔
      ((readHeader fmt file).flags &&& 1 = 0 ∧ (readHeader fmt file).flags &&& 2 ≠ 0 ∧
        (readHeader fmt file).codec = 99)) ∧
    (∃ r, processFile cfg file = some r ∧
      (r.scanned = true ↔ supported (readHeader fmt file) = true) ∧
      (supported (readHeader fmt file) = true → (readHeader fmt file).samplerate ≠ 0 →
        r.hasOutput = true) ∧
      (supported (readHeader fmt file) = true → (readHeader fmt file).samplerate = 0 →
        ∃ d, r = FileResult.divisionByZero d) ∧
      (supported (readHeader fmt file) = false →
        r = FileResult.unsupportedStream ∧ r.hasOutput = false)) := by
  refine ⟨?_, ?_⟩
  · have := flags_mono16 _ hflags
    simp only [supported, Bool.not_eq_true', Bool.or_eq_false_iff, bne_eq_false_iff_eq]
    rw [this]
    tauto
  · by_cases hs : supported (readHeader fmt file) = true
    · obtain ⟨s, hscan⟩ := scan_total (file.drop (readHeader fmt file).first_block_offset)
        cfg.first_block_size0
      by_cases hr : (readHeader fmt file).samplerate = 0
      · refine ⟨_, processFile_zero_rate cfg file fmt s hf hs hr hscan, ?_, ?_, ?_, ?_⟩
        · simp [FileResult.scanned, hs]
        · intro _ h; exact absurd hr h
        · intro _ _; exact ⟨_, rfl⟩
        · intro h; rw [hs] at h; simp at h
      · refine ⟨_, processFile_accepted cfg file fmt s hf hs hr hscan, ?_, ?_, ?_, ?_⟩
        · rw [hs]; split_ifs <;> simp [FileResult.scanned]
        · intro _ _; split_ifs <;> rfl
        · intro _ h; exact absurd h hr
        · intro h; rw [hs] at h; simp at h
    · have hs' : supported (readHeader fmt file) = false := by simpa using hs
      refine ⟨FileResult.unsupportedStream, ?_, ?_, ?_, ?_, ?_⟩
      · unfold processFile
        simp [hf, hs']
      · simp [FileResult.scanned, hs']
      · intro h; exact absurd h hs
      · intro h; exact absurd h hs
      · intro _; exact ⟨rfl, rfl⟩

/-- Witness for C14: the accepted file `corruptSecondHeader` (flags 2, codec 99). -/
theorem stream_acceptance_witness :
    detectFormat corruptSecondHeader = some AudFormat.New ∧
    (readHeader AudFormat.New corruptSecondHeader).flags < 256 ∧
    (supported (readHeader AudFormat.New corruptSecondHeader) = true ↔
      ((readHeader AudFormat.New corruptSecondHeader).flags &&& 1 = 0 ∧
        (readHeader AudFormat.New corruptSecondHeader).flags &&& 2 ≠ 0 ∧
        (readHeader AudFormat.New corruptSecondHeader).codec = 99)) ∧
    (∃ r, processFile defaultSettings corruptSecondHeader = some r ∧
      (r.scanned = true ↔ supported (readHeader AudFormat.New corruptSecondHeader) = true) ∧
      (supported (readHeader AudFormat.New corruptSecondHeader) = true →
        (readHeader AudFormat.New corruptSecondHeader).samplerate ≠ 0 → r.hasOutput = true) ∧
      (supported (readHeader AudFormat.New corruptSecondHeader) = true →
        (readHeader AudFormat.New corruptSecondHeader).samplerate = 0 →
        ∃ d, r = FileResult.divisionByZero d) ∧
      (supported (readHeader AudFormat.New corruptSecondHeader) = false →
        r = FileResult.unsupportedStream ∧ r.hasOutput = false)) :=
  ⟨by decide, by decide,
   stream_acceptance defaultSettings corruptSecondHeader AudFormat.New (by decide) (by decide)⟩

/-- A header with sample rate 0 passes the supported-stream check and is scanned, and
the duration computation then divides by zero: no output file is opened. -/
theorem zero_sample_rate_divides_by_zero :
    detectFormat zeroRateFile = some AudFormat.New ∧
    supported (readHeader AudFormat.New zeroRateFile) = true ∧
    (processFile defaultSettings zeroRateFile).map FileResult.hasOutput = some false ∧
    (processFile defaultSettings zeroRateFile).map FileResult.scanned = some true := by
  decide

end Aud2Wav
